import Mathlib

/-!
Shallow embedding of the POC-portal public API (poc_public_api.py and
doc_public_api.py) over an explicit record-store state, together with
proofs about the API's documented behaviour.

The record-store backend (PocketBase) is modelled as in-memory lists of
records per collection plus a fresh-id counter.  A filtered list request
returns the matching records in insertion order, so taking the first item
of page one is List.find?; the heartbeat/daily-update enumeration passes
perPage=500 and is modelled as List.take 500 of the filtered list.
Record creation appends a record carrying the next fresh id; a PATCH by
record id updates every stored record with that id and leaves the other
fields alone.  Authentication, logging and health probes do not touch
record state and are not modelled.  Wall-clock time is passed in as an
explicit parameter; the uuid-based POC uid generator of /api/register is
passed in as an explicit fresh-string parameter.
-/

namespace PocPortal

/-! Python string primitives, re-implemented structurally over the
character list of a string so that they evaluate by kernel reduction. -/

/-- Lower-case a single ASCII character, as Python str.lower does for ASCII. -/
def lcChar (c : Char) : Char :=
  if 65 ≤ c.toNat ∧ c.toNat ≤ 90 then Char.ofNat (c.toNat + 32) else c

/-- Upper-case a single ASCII character. -/
def ucChar (c : Char) : Char :=
  if 97 ≤ c.toNat ∧ c.toNat ≤ 122 then Char.ofNat (c.toNat - 32) else c

/-- ASCII letter test. -/
def isAlphaChar (c : Char) : Bool :=
  (65 ≤ c.toNat && c.toNat ≤ 90) || (97 ≤ c.toNat && c.toNat ≤ 122)

/-- Python str.lower() (ASCII fragment). -/
def pyLower (s : String) : String := ⟨s.data.map lcChar⟩

/-- Whitespace test used by Python str.strip(). -/
def isWsChar (c : Char) : Bool := c = ' ' || c = '\t' || c = '\n' || c = '\r'

/-- Python str.strip(). -/
def pyStrip (s : String) : String :=
  ⟨((s.data.dropWhile isWsChar).reverse.dropWhile isWsChar).reverse⟩

/-- Python str.title() for ASCII text: the first letter of every
alphabetic run is upper-cased and the rest lower-cased. -/
def pyTitleAux : List Char → Bool → List Char
  | [], _ => []
  | c :: t, prevAlpha =>
    (if isAlphaChar c then (if prevAlpha then lcChar c else ucChar c) else c) ::
      pyTitleAux t (isAlphaChar c)

/-- Python str.title(). -/
def pyTitle (s : String) : String := ⟨pyTitleAux s.data false⟩

/-- Python str.replace(a, b) for single-character patterns. -/
def replaceChar (a b : Char) (s : String) : String :=
  ⟨s.data.map (fun c => if c = a then b else c)⟩

/-- Python s.split("@")[0]: the part of s before the first at-sign. -/
def beforeAt (s : String) : String := ⟨s.data.takeWhile (fun c => c ≠ '@')⟩

/-- Python code.split(sep).pop() for a single-character separator: the part
of s after the last occurrence of the separator. -/
def afterLast (sep : Char) (s : String) : String :=
  ⟨(s.data.reverse.takeWhile (fun c => c ≠ sep)).reverse⟩

/-- Value of a non-empty all-digit character list, none otherwise. -/
def digitsVal : List Char → Option Nat
  | [] => none
  | l => l.foldl (fun acc c => match acc with
      | none => none
      | some n => if 48 ≤ c.toNat ∧ c.toNat ≤ 57 then some (n * 10 + (c.toNat - 48)) else none)
      (some 0)

/-- Python int(s) on a string: strip, optional sign, decimal digits;
none models the ValueError raised for anything else. -/
def pyIntOfStr (s : String) : Option Int :=
  match (pyStrip s).data with
  | '-' :: rest => (digitsVal rest).map (fun n => -(n : Int))
  | '+' :: rest => (digitsVal rest).map (fun n => (n : Int))
  | l => (digitsVal l).map (fun n => (n : Int))

/-- Prefix test on character lists. -/
def isPre : List Char → List Char → Bool
  | [], _ => true
  | _ :: _, [] => false
  | a :: as, b :: bs => a = b && isPre as bs

/-- Substring test on character lists (pat occurs somewhere inside s). -/
def hasSub (s : List Char) (pat : List Char) : Bool :=
  isPre pat s || (match s with
    | [] => false
    | _ :: t => hasSub t pat)

/-- PocketBase substring operator (field ~ "pat") on strings. -/
def strContainsSub (s pat : String) : Bool := hasSub s.data pat.data

/-- Python truthiness of a string: non-empty. -/
def strTruthy (s : String) : Bool := !s.data.isEmpty

/-- Python truthiness of an optional string field of a JSON body. -/
def optTruthy (o : Option String) : Bool :=
  match o with
  | none => false
  | some s => strTruthy s

/-- Python expression (o or d) for an optional/possibly-empty string o. -/
def orElseStr (o : Option String) (d : String) : String :=
  match o with
  | none => d
  | some s => if s.data.isEmpty then d else s

/-- JSON primitive value, used where a handler coerces a field with int(). -/
inductive JPrim where
  | jint (n : Int)
  | jstr (s : String)
  | jbool (b : Bool)
deriving Repr, DecidableEq

/-- Python int(x) on a JSON primitive; none models the raised ValueError. -/
def pyInt : JPrim → Option Int
  | .jint n => some n
  | .jstr s => pyIntOfStr s
  | .jbool b => some (if b then 1 else 0)

/-! Patch-if-changed triggers.  The upsert resolvers compare each supplied
field against the stored value and include the field in the PATCH payload
only when it was supplied and differs. -/

/-- Trigger for a field compared with (arg is not None and stored != arg). -/
def condS (arg : Option String) (old : String) : Bool :=
  match arg with
  | none => false
  | some v => old != v

/-- Trigger for the title field, compared with (title and stored != title). -/
def condTitle (arg : Option String) (old : String) : Bool :=
  match arg with
  | none => false
  | some v => !v.data.isEmpty && old != v

/-- Trigger for an optional integer field. -/
def condI (arg : Option Int) (old : Int) : Bool :=
  match arg with
  | none => false
  | some v => old != v

/-- Trigger for an optional boolean field. -/
def condB (arg : Option Bool) (old : Bool) : Bool :=
  match arg with
  | none => false
  | some v => old != v

/-! Stored records.  Optional PocketBase fields carry the PocketBase
defaults when never written: "" for text, 0 for numbers, false for bools;
date/timestamp fields written from utcnow() are an Option Nat clock value. -/

/-- A record of the users collection. -/
structure UserRec where
  id : Nat
  email : String
  role : String
  name : String
  displayName : String
deriving Repr, DecidableEq

/-- A record of the use_cases collection. -/
structure UseCaseRec where
  id : Nat
  code : String
  version : Int
  title : String
  description : String
  product_family : String
  product : String
  category : String
  estimate_hours : Int
  is_customer_prep : Bool
  author : String
deriving Repr, DecidableEq

/-- A record of the pocs collection. -/
structure PocRec where
  id : Nat
  poc_uid : String
  name : String
  customer_name : String
  product : String
  se : Nat
  partner : String
  is_active : Bool
  is_completed : Bool
  risk_status : String
  prep_start_date : String
  poc_start_date : String
  poc_end_date_plan : String
  poc_end_date_actual : String
  last_daily_update_at : Option Nat
  deregistered_at : Option Nat
deriving Repr, DecidableEq

/-- A record of the poc_use_cases link collection. -/
structure PucRec where
  id : Nat
  poc : Nat
  use_case : Nat
  is_active : Bool
  is_completed : Bool
  completed_at : Option Nat
  rating : Int
  order : Int
  is_customer_prep : Bool
  estimate_hours : Int
deriving Repr, DecidableEq

/-- A record of the comments collection. -/
structure CommentRec where
  id : Nat
  poc : Nat
  use_case : Option Nat
  poc_use_case : Option Nat
  author : Option Nat
  kind : String
  text : String
  rating : Option Int
deriving Repr, DecidableEq

/-! Inbound request bodies (the JSON fields each handler reads). -/

/-- One entry of the use_cases array of a daily_update body. -/
structure DUseCase where
  code : String
  title : Option String
  version : Option Int
  product_family : Option String
  product : Option String
  is_active : Option Bool
  is_completed : Option Bool
  is_customer_prep : Option Bool
  estimate_hours : Option Int
  rating : Option Int
  feedback : List String
  questions : List String
deriving Repr, DecidableEq

/-- Body of POST /api/daily_update (required keys raise KeyError into a
500 when absent; they are modelled as plain fields). -/
structure DailyReq where
  se_email : String
  poc_uid : String
  poc_name : Option String
  customer_name : Option String
  partner : Option String
  prep_start_date : Option String
  poc_start_date : Option String
  poc_end_date_plan : Option String
  poc_end_date_planned : Option String
  poc_end_date_actual : Option String
  use_cases : List DUseCase
deriving Repr, DecidableEq

/-- A record of the daily_status snapshot collection; the payload column
stores the serialized inbound body. -/
structure DailyRec where
  id : Nat
  poc : Nat
  se : Nat
  snapshot_date : Nat
  payload : DailyReq
deriving Repr, DecidableEq

/-- The record-store state: one list per collection in insertion order,
plus the fresh-id counter. -/
structure DB where
  users : List UserRec
  use_cases : List UseCaseRec
  pocs : List PocRec
  pucs : List PucRec
  comments : List CommentRec
  daily : List DailyRec
  nextId : Nat
deriving Repr, DecidableEq

/-- Map-based PATCH: update every list element matching p with f. -/
def updWhere (p : α → Bool) (f : α → α) (l : List α) : List α :=
  l.map (fun x => if p x then f x else x)

def DB.patchUser (db : DB) (i : Nat) (f : UserRec → UserRec) : DB :=
  { db with users := updWhere (fun u => u.id == i) f db.users }

def DB.patchUseCase (db : DB) (i : Nat) (f : UseCaseRec → UseCaseRec) : DB :=
  { db with use_cases := updWhere (fun u => u.id == i) f db.use_cases }

def DB.patchPoc (db : DB) (i : Nat) (f : PocRec → PocRec) : DB :=
  { db with pocs := updWhere (fun p => p.id == i) f db.pocs }

def DB.patchPuc (db : DB) (i : Nat) (f : PucRec → PucRec) : DB :=
  { db with pucs := updWhere (fun l => l.id == i) f db.pucs }

def DB.addUser (db : DB) (f : Nat → UserRec) : Nat × DB :=
  (db.nextId, { db with users := db.users ++ [f db.nextId], nextId := db.nextId + 1 })

def DB.addUseCase (db : DB) (f : Nat → UseCaseRec) : Nat × DB :=
  (db.nextId, { db with use_cases := db.use_cases ++ [f db.nextId], nextId := db.nextId + 1 })

def DB.addPoc (db : DB) (f : Nat → PocRec) : Nat × DB :=
  (db.nextId, { db with pocs := db.pocs ++ [f db.nextId], nextId := db.nextId + 1 })

def DB.addPuc (db : DB) (f : Nat → PucRec) : Nat × DB :=
  (db.nextId, { db with pucs := db.pucs ++ [f db.nextId], nextId := db.nextId + 1 })

def DB.addComment (db : DB) (f : Nat → CommentRec) : Nat × DB :=
  (db.nextId, { db with comments := db.comments ++ [f db.nextId], nextId := db.nextId + 1 })

def DB.addDaily (db : DB) (f : Nat → DailyRec) : Nat × DB :=
  (db.nextId, { db with daily := db.daily ++ [f db.nextId], nextId := db.nextId + 1 })

/-! Projection lemmas for the combinators, all definitional. -/

@[simp] theorem patchUser_users (db : DB) (i : Nat) (f : UserRec → UserRec) : (db.patchUser i f).users = updWhere (fun u => u.id == i) f db.users := rfl

@[simp] theorem patchUser_use_cases (db : DB) (i : Nat) (f : UserRec → UserRec) : (db.patchUser i f).use_cases = db.use_cases := rfl

@[simp] theorem patchUser_pocs (db : DB) (i : Nat) (f : UserRec → UserRec) : (db.patchUser i f).pocs = db.pocs := rfl

@[simp] theorem patchUser_pucs (db : DB) (i : Nat) (f : UserRec → UserRec) : (db.patchUser i f).pucs = db.pucs := rfl

@[simp] theorem patchUser_comments (db : DB) (i : Nat) (f : UserRec → UserRec) : (db.patchUser i f).comments = db.comments := rfl

@[simp] theorem patchUser_daily (db : DB) (i : Nat) (f : UserRec → UserRec) : (db.patchUser i f).daily = db.daily := rfl

@[simp] theorem patchUser_nextId (db : DB) (i : Nat) (f : UserRec → UserRec) : (db.patchUser i f).nextId = db.nextId := rfl

@[simp] theorem patchUseCase_use_cases (db : DB) (i : Nat) (f : UseCaseRec → UseCaseRec) : (db.patchUseCase i f).use_cases = updWhere (fun u => u.id == i) f db.use_cases := rfl

@[simp] theorem patchUseCase_users (db : DB) (i : Nat) (f : UseCaseRec → UseCaseRec) : (db.patchUseCase i f).users = db.users := rfl

@[simp] theorem patchUseCase_pocs (db : DB) (i : Nat) (f : UseCaseRec → UseCaseRec) : (db.patchUseCase i f).pocs = db.pocs := rfl

@[simp] theorem patchUseCase_pucs (db : DB) (i : Nat) (f : UseCaseRec → UseCaseRec) : (db.patchUseCase i f).pucs = db.pucs := rfl

@[simp] theorem patchUseCase_comments (db : DB) (i : Nat) (f : UseCaseRec → UseCaseRec) : (db.patchUseCase i f).comments = db.comments := rfl

@[simp] theorem patchUseCase_daily (db : DB) (i : Nat) (f : UseCaseRec → UseCaseRec) : (db.patchUseCase i f).daily = db.daily := rfl

@[simp] theorem patchUseCase_nextId (db : DB) (i : Nat) (f : UseCaseRec → UseCaseRec) : (db.patchUseCase i f).nextId = db.nextId := rfl

@[simp] theorem patchPoc_pocs (db : DB) (i : Nat) (f : PocRec → PocRec) : (db.patchPoc i f).pocs = updWhere (fun p => p.id == i) f db.pocs := rfl

@[simp] theorem patchPoc_users (db : DB) (i : Nat) (f : PocRec → PocRec) : (db.patchPoc i f).users = db.users := rfl

@[simp] theorem patchPoc_use_cases (db : DB) (i : Nat) (f : PocRec → PocRec) : (db.patchPoc i f).use_cases = db.use_cases := rfl

@[simp] theorem patchPoc_pucs (db : DB) (i : Nat) (f : PocRec → PocRec) : (db.patchPoc i f).pucs = db.pucs := rfl

@[simp] theorem patchPoc_comments (db : DB) (i : Nat) (f : PocRec → PocRec) : (db.patchPoc i f).comments = db.comments := rfl

@[simp] theorem patchPoc_daily (db : DB) (i : Nat) (f : PocRec → PocRec) : (db.patchPoc i f).daily = db.daily := rfl

@[simp] theorem patchPoc_nextId (db : DB) (i : Nat) (f : PocRec → PocRec) : (db.patchPoc i f).nextId = db.nextId := rfl

@[simp] theorem patchPuc_pucs (db : DB) (i : Nat) (f : PucRec → PucRec) : (db.patchPuc i f).pucs = updWhere (fun l => l.id == i) f db.pucs := rfl

@[simp] theorem patchPuc_users (db : DB) (i : Nat) (f : PucRec → PucRec) : (db.patchPuc i f).users = db.users := rfl

@[simp] theorem patchPuc_use_cases (db : DB) (i : Nat) (f : PucRec → PucRec) : (db.patchPuc i f).use_cases = db.use_cases := rfl

@[simp] theorem patchPuc_pocs (db : DB) (i : Nat) (f : PucRec → PucRec) : (db.patchPuc i f).pocs = db.pocs := rfl

@[simp] theorem patchPuc_comments (db : DB) (i : Nat) (f : PucRec → PucRec) : (db.patchPuc i f).comments = db.comments := rfl

@[simp] theorem patchPuc_daily (db : DB) (i : Nat) (f : PucRec → PucRec) : (db.patchPuc i f).daily = db.daily := rfl

@[simp] theorem patchPuc_nextId (db : DB) (i : Nat) (f : PucRec → PucRec) : (db.patchPuc i f).nextId = db.nextId := rfl

@[simp] theorem addUser_fst (db : DB) (f : Nat → UserRec) : (db.addUser f).1 = db.nextId := rfl

@[simp] theorem addUser_users (db : DB) (f : Nat → UserRec) : (db.addUser f).2.users = db.users ++ [f db.nextId] := rfl

@[simp] theorem addUser_use_cases (db : DB) (f : Nat → UserRec) : (db.addUser f).2.use_cases = db.use_cases := rfl

@[simp] theorem addUser_pocs (db : DB) (f : Nat → UserRec) : (db.addUser f).2.pocs = db.pocs := rfl

@[simp] theorem addUser_pucs (db : DB) (f : Nat → UserRec) : (db.addUser f).2.pucs = db.pucs := rfl

@[simp] theorem addUser_comments (db : DB) (f : Nat → UserRec) : (db.addUser f).2.comments = db.comments := rfl

@[simp] theorem addUser_daily (db : DB) (f : Nat → UserRec) : (db.addUser f).2.daily = db.daily := rfl

@[simp] theorem addUser_nextId (db : DB) (f : Nat → UserRec) : (db.addUser f).2.nextId = db.nextId + 1 := rfl

@[simp] theorem addUseCase_fst (db : DB) (f : Nat → UseCaseRec) : (db.addUseCase f).1 = db.nextId := rfl

@[simp] theorem addUseCase_use_cases (db : DB) (f : Nat → UseCaseRec) : (db.addUseCase f).2.use_cases = db.use_cases ++ [f db.nextId] := rfl

@[simp] theorem addUseCase_users (db : DB) (f : Nat → UseCaseRec) : (db.addUseCase f).2.users = db.users := rfl

@[simp] theorem addUseCase_pocs (db : DB) (f : Nat → UseCaseRec) : (db.addUseCase f).2.pocs = db.pocs := rfl

@[simp] theorem addUseCase_pucs (db : DB) (f : Nat → UseCaseRec) : (db.addUseCase f).2.pucs = db.pucs := rfl

@[simp] theorem addUseCase_comments (db : DB) (f : Nat → UseCaseRec) : (db.addUseCase f).2.comments = db.comments := rfl

@[simp] theorem addUseCase_daily (db : DB) (f : Nat → UseCaseRec) : (db.addUseCase f).2.daily = db.daily := rfl

@[simp] theorem addUseCase_nextId (db : DB) (f : Nat → UseCaseRec) : (db.addUseCase f).2.nextId = db.nextId + 1 := rfl

@[simp] theorem addPoc_fst (db : DB) (f : Nat → PocRec) : (db.addPoc f).1 = db.nextId := rfl

@[simp] theorem addPoc_pocs (db : DB) (f : Nat → PocRec) : (db.addPoc f).2.pocs = db.pocs ++ [f db.nextId] := rfl

@[simp] theorem addPoc_users (db : DB) (f : Nat → PocRec) : (db.addPoc f).2.users = db.users := rfl

@[simp] theorem addPoc_use_cases (db : DB) (f : Nat → PocRec) : (db.addPoc f).2.use_cases = db.use_cases := rfl

@[simp] theorem addPoc_pucs (db : DB) (f : Nat → PocRec) : (db.addPoc f).2.pucs = db.pucs := rfl

@[simp] theorem addPoc_comments (db : DB) (f : Nat → PocRec) : (db.addPoc f).2.comments = db.comments := rfl

@[simp] theorem addPoc_daily (db : DB) (f : Nat → PocRec) : (db.addPoc f).2.daily = db.daily := rfl

@[simp] theorem addPoc_nextId (db : DB) (f : Nat → PocRec) : (db.addPoc f).2.nextId = db.nextId + 1 := rfl

@[simp] theorem addPuc_fst (db : DB) (f : Nat → PucRec) : (db.addPuc f).1 = db.nextId := rfl

@[simp] theorem addPuc_pucs (db : DB) (f : Nat → PucRec) : (db.addPuc f).2.pucs = db.pucs ++ [f db.nextId] := rfl

@[simp] theorem addPuc_users (db : DB) (f : Nat → PucRec) : (db.addPuc f).2.users = db.users := rfl

@[simp] theorem addPuc_use_cases (db : DB) (f : Nat → PucRec) : (db.addPuc f).2.use_cases = db.use_cases := rfl

@[simp] theorem addPuc_pocs (db : DB) (f : Nat → PucRec) : (db.addPuc f).2.pocs = db.pocs := rfl

@[simp] theorem addPuc_comments (db : DB) (f : Nat → PucRec) : (db.addPuc f).2.comments = db.comments := rfl

@[simp] theorem addPuc_daily (db : DB) (f : Nat → PucRec) : (db.addPuc f).2.daily = db.daily := rfl

@[simp] theorem addPuc_nextId (db : DB) (f : Nat → PucRec) : (db.addPuc f).2.nextId = db.nextId + 1 := rfl

@[simp] theorem addComment_fst (db : DB) (f : Nat → CommentRec) : (db.addComment f).1 = db.nextId := rfl

@[simp] theorem addComment_comments (db : DB) (f : Nat → CommentRec) : (db.addComment f).2.comments = db.comments ++ [f db.nextId] := rfl

@[simp] theorem addComment_users (db : DB) (f : Nat → CommentRec) : (db.addComment f).2.users = db.users := rfl

@[simp] theorem addComment_use_cases (db : DB) (f : Nat → CommentRec) : (db.addComment f).2.use_cases = db.use_cases := rfl

@[simp] theorem addComment_pocs (db : DB) (f : Nat → CommentRec) : (db.addComment f).2.pocs = db.pocs := rfl

@[simp] theorem addComment_pucs (db : DB) (f : Nat → CommentRec) : (db.addComment f).2.pucs = db.pucs := rfl

@[simp] theorem addComment_daily (db : DB) (f : Nat → CommentRec) : (db.addComment f).2.daily = db.daily := rfl

@[simp] theorem addComment_nextId (db : DB) (f : Nat → CommentRec) : (db.addComment f).2.nextId = db.nextId + 1 := rfl

@[simp] theorem addDaily_fst (db : DB) (f : Nat → DailyRec) : (db.addDaily f).1 = db.nextId := rfl

@[simp] theorem addDaily_daily (db : DB) (f : Nat → DailyRec) : (db.addDaily f).2.daily = db.daily ++ [f db.nextId] := rfl

@[simp] theorem addDaily_users (db : DB) (f : Nat → DailyRec) : (db.addDaily f).2.users = db.users := rfl

@[simp] theorem addDaily_use_cases (db : DB) (f : Nat → DailyRec) : (db.addDaily f).2.use_cases = db.use_cases := rfl

@[simp] theorem addDaily_pocs (db : DB) (f : Nat → DailyRec) : (db.addDaily f).2.pocs = db.pocs := rfl

@[simp] theorem addDaily_pucs (db : DB) (f : Nat → DailyRec) : (db.addDaily f).2.pucs = db.pucs := rfl

@[simp] theorem addDaily_comments (db : DB) (f : Nat → DailyRec) : (db.addDaily f).2.comments = db.comments := rfl

@[simp] theorem addDaily_nextId (db : DB) (f : Nat → DailyRec) : (db.addDaily f).2.nextId = db.nextId + 1 := rfl

/-- Basic well-formedness of a store state: record ids are positive,
below the fresh-id counter and pairwise distinct per collection, and the
owner/link references stay below the counter as well. -/
structure DB.WF (db : DB) : Prop where
  one_le : 1 ≤ db.nextId
  users_bound : ∀ u ∈ db.users, u.id < db.nextId
  users_pos : ∀ u ∈ db.users, 1 ≤ u.id
  ucs_bound : ∀ u ∈ db.use_cases, u.id < db.nextId
  pocs_bound : ∀ p ∈ db.pocs, p.id < db.nextId
  pucs_bound : ∀ l ∈ db.pucs, l.id < db.nextId
  se_bound : ∀ p ∈ db.pocs, p.se < db.nextId
  users_nodup : (db.users.map (fun u => u.id)).Nodup
  ucs_nodup : (db.use_cases.map (fun u => u.id)).Nodup
  pocs_nodup : (db.pocs.map (fun p => p.id)).Nodup
  pucs_nodup : (db.pucs.map (fun l => l.id)).Nodup

/-! Embedding of poc_public_api.py.  Filter expressions are modelled
structurally (quote escaping in the serialized filter string is a
transport detail with no effect on which records match). -/

namespace PocApi

/-- Filter email~"email_lower" of the users collection (substring match). -/
def userFilter (email_lower : String) (u : UserRec) : Bool :=
  strContainsSub u.email email_lower

/-- Function find_user_by_email: first user whose email contains the
stripped, lower-cased email. -/
def find_user_by_email (db : DB) (email : String) : Option UserRec :=
  db.users.find? (userFilter (pyLower (pyStrip email)))

/-- Display name derived from the email local part in get_or_create_user_se. -/
def derivedDisplayName (email_lower : String) : String :=
  pyTitle (replaceChar '.' ' ' (beforeAt email_lower))

/-- Function get_or_create_user_se: resolve a user by substring email
match; patch role to "se" when the stored role is falsy; otherwise create
the user with role "se" and a derived display name.  Returns the user id,
the is_new flag and the updated store.  The generated password and the
password-reset email have no record-state effect and are not modelled. -/
def get_or_create_user_se (db : DB) (email : String) (display_name : Option String) :
    (Nat × Bool) × DB :=
  let email_lower := pyLower (pyStrip email)
  match db.users.find? (userFilter email_lower) with
  | some user =>
    let db' := if user.role.data.isEmpty then
        db.patchUser user.id (fun u => { u with role := "se" })
      else db
    ((user.id, false), db')
  | none =>
    let name := orElseStr display_name (derivedDisplayName email_lower)
    let r := db.addUser (fun i =>
      { id := i, email := email_lower, role := "se", name := name, displayName := name })
    ((r.1, true), r.2)

/-- Composite-key filter se="id" and customer_name="c" and product="p". -/
def pocCompositeFilter (se_id : Nat) (customer product : String) (p : PocRec) : Bool :=
  p.se == se_id && p.customer_name == customer && p.product == product

/-- Function find_poc_by_composite_key: resolve the owner by email, then
the first POC matching owner + customer + product. -/
def find_poc_by_composite_key (db : DB) (sa_email customer_name product : String) :
    Option PocRec :=
  match find_user_by_email db sa_email with
  | none => none
  | some user => db.pocs.find? (pocCompositeFilter user.id customer_name product)

/-- Filter poc_uid="uid" of the pocs collection. -/
def pocUidFilter (poc_uid : String) (p : PocRec) : Bool := p.poc_uid == poc_uid

/-- Function find_poc_by_uid. -/
def find_poc_by_uid (db : DB) (poc_uid : String) : Option PocRec :=
  db.pocs.find? (pocUidFilter poc_uid)

/-- Filter code="code" and version=v of the use_cases collection. -/
def ucFilter (code : String) (version : Int) (u : UseCaseRec) : Bool :=
  u.code == code && u.version == version

/-- Default title derived from the code in get_or_create_usecase. -/
def derivedUcTitle (code : String) : String :=
  pyTitle (replaceChar '-' ' ' (afterLast '/' code))

/-- Function get_or_create_usecase: resolve a use case by (code, version);
patch any supplied metadata field that differs from the stored value;
otherwise create the record, deriving a title when none was supplied.
Returns the use-case id and the updated store. -/
def get_or_create_usecase (db : DB) (code : String) (title : Option String)
    (version : Int) (product_family : Option String) (product : Option String)
    (category : Option String) (description : Option String)
    (estimate_hours : Option Int) (is_customer_prep : Option Bool)
    (author : Option String) : Nat × DB :=
  match db.use_cases.find? (ucFilter code version) with
  | some existing =>
    let cTitle := condTitle title existing.title
    let cDesc := condS description existing.description
    let cPf := condS product_family existing.product_family
    let cProd := condS product existing.product
    let cCat := condS category existing.category
    let cEst := condI estimate_hours existing.estimate_hours
    let cPrep := condB is_customer_prep existing.is_customer_prep
    let cAuth := condS author existing.author
    let hasPatch := cTitle || cDesc || cPf || cProd || cCat || cEst || cPrep || cAuth
    let db' := if hasPatch then
        db.patchUseCase existing.id (fun u =>
          { u with
            title := if cTitle then title.getD u.title else u.title
            description := if cDesc then description.getD u.description else u.description
            product_family := if cPf then product_family.getD u.product_family else u.product_family
            product := if cProd then product.getD u.product else u.product
            category := if cCat then category.getD u.category else u.category
            estimate_hours := if cEst then estimate_hours.getD u.estimate_hours else u.estimate_hours
            is_customer_prep := if cPrep then is_customer_prep.getD u.is_customer_prep else u.is_customer_prep
            author := if cAuth then author.getD u.author else u.author })
      else db
    (existing.id, db')
  | none =>
    let title' := orElseStr title (derivedUcTitle code)
    db.addUseCase (fun i =>
      { id := i, code := code, title := title', version := version
        description := description.getD ""
        product_family := product_family.getD ""
        product := product.getD ""
        category := category.getD ""
        estimate_hours := estimate_hours.getD 0
        is_customer_prep := is_customer_prep.getD false
        author := author.getD "" })

/-- Filter poc="pid" and use_case="ucid" of the poc_use_cases collection. -/
def pucFilter (poc_id uc_id : Nat) (l : PucRec) : Bool :=
  l.poc == poc_id && l.use_case == uc_id

/-- Function get_or_create_poc_usecase: resolve the link joining a POC and
a use case; patch the order/active/completed fields that were supplied and
differ, stamping or clearing completed_at when the completed flag flips;
otherwise create the link (active defaults to true, completed to false;
completed_at stamped when created completed). -/
def get_or_create_poc_usecase (db : DB) (now : Nat) (poc_id uc_id : Nat)
    (order : Option Int) (is_active : Option Bool) (is_completed : Option Bool) :
    Nat × DB :=
  match db.pucs.find? (pucFilter poc_id uc_id) with
  | some existing =>
    let cOrd := condI order existing.order
    let cAct := condB is_active existing.is_active
    let cComp := condB is_completed existing.is_completed
    let hasPatch := cOrd || cAct || cComp
    let db' := if hasPatch then
        db.patchPuc existing.id (fun l =>
          { l with
            order := if cOrd then order.getD l.order else l.order
            is_active := if cAct then is_active.getD l.is_active else l.is_active
            is_completed := if cComp then is_completed.getD l.is_completed else l.is_completed
            completed_at := if cComp then
                (if is_completed.getD false then some now else none)
              else l.completed_at })
      else db
    (existing.id, db')
  | none =>
    let ia := is_active.getD true
    let ic := is_completed.getD false
    db.addPuc (fun i =>
      { id := i, poc := poc_id, use_case := uc_id, is_active := ia, is_completed := ic
        completed_at := if ic then some now else none
        rating := 0, order := order.getD 0, is_customer_prep := false, estimate_hours := 0 })

/-! Request and response shapes of poc_public_api.py.  Response
constructors: ok carries the 200 body fields relevant to the contract,
err carries the HTTP status, the error tag and the optional details
string.  The X-Api-Key gate and the invalid-JSON 400 sit upstream of
every handler and are identical boilerplate; handlers are modelled from
the authorized, parsed-JSON point on. -/

structure RegisterReq where
  sa_email : Option String
  sa_name : Option String
  prospect : Option String
  product : Option String
  partner : Option String
  poc_start_date : Option String
  poc_end_date : Option String
deriving Repr, DecidableEq

inductive RegisterOut where
  | ok (poc_uid : String) (is_new : Bool) (user_created : Bool)
  | err (http : Nat) (tag : String) (details : Option String)
deriving Repr, DecidableEq

/-- Handler api_register.  uidGen is the value of _generate_poc_uid()
for this call (uuid-based in the source, passed in as an oracle). -/
def api_register (db : DB) (req : RegisterReq) (now : Nat) (uidGen : String) :
    RegisterOut × DB :=
  if !optTruthy req.sa_email || !optTruthy req.prospect || !optTruthy req.product then
    (.err 400 "missing_required_fields" (some "sa_email, prospect, and product are required"), db)
  else
    let sa_email := req.sa_email.getD ""
    let prospect := req.prospect.getD ""
    let product := req.product.getD ""
    match find_poc_by_composite_key db sa_email prospect product with
    | some existing =>
      let cPartner := optTruthy req.partner
      let cStart := optTruthy req.poc_start_date
      let cEnd := optTruthy req.poc_end_date
      let db' := if cPartner || cStart || cEnd then
          db.patchPoc existing.id (fun p =>
            { p with
              partner := if cPartner then req.partner.getD p.partner else p.partner
              poc_start_date := if cStart then req.poc_start_date.getD p.poc_start_date else p.poc_start_date
              poc_end_date_plan := if cEnd then req.poc_end_date.getD p.poc_end_date_plan else p.poc_end_date_plan })
        else db
      (.ok existing.poc_uid false false, db')
    | none =>
      let ru := get_or_create_user_se db sa_email req.sa_name
      let se_id := ru.1.1
      let user_is_new := ru.1.2
      let db1 := ru.2
      if se_id == 0 then
        (.err 500 "user_creation_failed" (some "Could not create or find user"), db1)
      else
        let db2 := (db1.addPoc (fun i =>
          { id := i, poc_uid := uidGen, product := product
            name := prospect ++ " - " ++ product
            customer_name := prospect, se := se_id
            partner := if optTruthy req.partner then req.partner.getD "" else ""
            is_active := true, is_completed := false, risk_status := "on_track"
            prep_start_date := ""
            poc_start_date := if optTruthy req.poc_start_date then req.poc_start_date.getD "" else ""
            poc_end_date_plan := if optTruthy req.poc_end_date then req.poc_end_date.getD "" else ""
            poc_end_date_actual := ""
            last_daily_update_at := some now, deregistered_at := none })).2
        (.ok uidGen true user_is_new, db2)

structure DeregisterReq where
  poc_uid : Option String
deriving Repr, DecidableEq

inductive DeregisterOut where
  | ok (poc_uid : String) (message : String)
  | err (http : Nat) (tag : String) (details : Option String)
deriving Repr, DecidableEq

/-- Handler api_deregister: a missing POC is answered 200 with an ok
status and an explanatory message, not an error. -/
def api_deregister (db : DB) (req : DeregisterReq) (now : Nat) : DeregisterOut × DB :=
  if !optTruthy req.poc_uid then (.err 400 "missing_poc_uid" none, db)
  else
    let uid := req.poc_uid.getD ""
    match find_poc_by_uid db uid with
    | none => (.ok uid "POC not found (already deregistered or never existed)", db)
    | some poc =>
      let db' := db.patchPoc poc.id (fun p =>
        { p with is_active := false, deregistered_at := some now })
      (.ok uid "POC deregistered", db')

/-- One entry of the use_cases array of a heartbeat body. -/
structure HBUseCase where
  code : Option String
  title : Option String
  version : Option Int
  author : Option String
  description : Option String
  product : Option String
  product_family : Option String
  category : Option String
  estimate_hours : Option Int
  is_customer_prep : Option Bool
  order : Option Int
  is_active : Option Bool
  is_completed : Option Bool
deriving Repr, DecidableEq

/-- Shape of the use_cases field of a heartbeat body: absent, present but
not a JSON array, or an array of entries. -/
inductive UCField where
  | missing
  | nonList
  | arr (l : List HBUseCase)
deriving Repr, DecidableEq

structure HeartbeatReq where
  poc_uid : Option String
  use_cases : UCField
deriving Repr, DecidableEq

inductive HeartbeatOut where
  | ok (poc_uid : String) (use_cases_processed : Nat)
  | err (http : Nat) (tag : String) (details : Option String)
deriving Repr, DecidableEq

/-- Normalization int(version) if version else 1 applied to the version
field of a heartbeat entry (absent key defaults to 1). -/
def hbVersion (v : Option Int) : Int :=
  match v with
  | some n => if n ≠ 0 then n else 1
  | none => 1

/-- The deactivation pass of heartbeat/daily update: walk the listed
links and PATCH is_active=false on each currently active one. -/
def deactivatePass (db : DB) (listed : List PucRec) : DB :=
  listed.foldl (fun acc puc =>
    if puc.is_active then acc.patchPuc puc.id (fun r => { r with is_active := false })
    else acc) db

/-- Per-entry body of the heartbeat processing loop: skip entries without
a code, upsert the use case with full metadata, then upsert the link with
order and the active/completed flags (defaults true/false). -/
def hbStep (now : Nat) (poc_id : Nat) (acc : DB × Nat) (uc : HBUseCase) : DB × Nat :=
  if !optTruthy uc.code then acc
  else
    let ru := get_or_create_usecase acc.1 (uc.code.getD "") uc.title
      (hbVersion uc.version) uc.product_family uc.product uc.category uc.description
      uc.estimate_hours uc.is_customer_prep uc.author
    let rl := get_or_create_poc_usecase ru.2 now poc_id ru.1 uc.order
      (some (uc.is_active.getD true)) (some (uc.is_completed.getD false))
    (rl.2, acc.2 + 1)

/-- Handler api_heartbeat: validate, stamp last_daily_update_at, list the
project's links (perPage 500), deactivate every active one, then process
each payload entry. -/
def api_heartbeat (db : DB) (req : HeartbeatReq) (now : Nat) : HeartbeatOut × DB :=
  if !optTruthy req.poc_uid then (.err 400 "missing_poc_uid" none, db)
  else
    let uid := req.poc_uid.getD ""
    match req.use_cases with
    | .arr l =>
      if l.isEmpty then
        (.err 400 "missing_use_cases" (some "use_cases array is required"), db)
      else
        match find_poc_by_uid db uid with
        | none => (.err 404 "poc_not_found" (some ("POC " ++ uid ++ " not found")), db)
        | some poc =>
          let db1 := db.patchPoc poc.id (fun p => { p with last_daily_update_at := some now })
          let listed := (db1.pucs.filter (fun r => r.poc == poc.id)).take 500
          let db2 := deactivatePass db1 listed
          let r := l.foldl (hbStep now poc.id) (db2, 0)
          (.ok uid r.2, r.1)
    | _ => (.err 400 "missing_use_cases" (some "use_cases array is required"), db)

structure PCompleteReq where
  poc_uid : Option String
  use_case_code : Option String
  completed : Option Bool
deriving Repr, DecidableEq

inductive PCompleteOut where
  | ok (poc_uid : String) (use_case_code : String) (completed : Bool)
  | err (http : Nat) (tag : String) (details : Option String)
deriving Repr, DecidableEq

/-- Handler api_complete_use_case of poc_public_api.py: upsert the link
with is_active=true and is_completed as requested; the link upsert's
patch-if-changed logic stamps completed_at only when the flag flips. -/
def api_complete_use_case (db : DB) (req : PCompleteReq) (now : Nat) : PCompleteOut × DB :=
  if !optTruthy req.poc_uid || !optTruthy req.use_case_code || req.completed.isNone then
    (.err 400 "missing_required_fields" (some "poc_uid, use_case_code, and completed are required"), db)
  else
    let uid := req.poc_uid.getD ""
    let code := req.use_case_code.getD ""
    let completed := req.completed.getD false
    match find_poc_by_uid db uid with
    | none => (.err 404 "poc_not_found" none, db)
    | some poc =>
      let ru := get_or_create_usecase db code none 1 none none none none none none none
      let rl := get_or_create_poc_usecase ru.2 now poc.id ru.1 none (some true) (some completed)
      (.ok uid code completed, rl.2)

structure RatingReq where
  poc_uid : Option String
  use_case_code : Option String
  rating : Option JPrim
deriving Repr, DecidableEq

inductive RatingOut where
  | ok (poc_uid : String) (use_case_code : String) (rating : Int)
  | err (http : Nat) (tag : String) (details : Option String)
deriving Repr, DecidableEq

/-- Handler api_rating: coerce the rating with int() and reject values
outside 1..5 before any backend call; then upsert use case and link and
patch the link's rating. -/
def api_rating (db : DB) (req : RatingReq) (now : Nat) : RatingOut × DB :=
  if !optTruthy req.poc_uid || !optTruthy req.use_case_code || req.rating.isNone then
    (.err 400 "missing_required_fields" (some "poc_uid, use_case_code, and rating are required"), db)
  else
    match pyInt (req.rating.getD (.jint 0)) with
    | none => (.err 400 "invalid_rating" (some "invalid literal for int()"), db)
    | some n =>
      if n < 1 || 5 < n then
        (.err 400 "invalid_rating" (some "Rating must be between 1 and 5"), db)
      else
        let uid := req.poc_uid.getD ""
        let code := req.use_case_code.getD ""
        match find_poc_by_uid db uid with
        | none => (.err 404 "poc_not_found" none, db)
        | some poc =>
          let ru := get_or_create_usecase db code none 1 none none none none none none none
          let rl := get_or_create_poc_usecase ru.2 now poc.id ru.1 none none none
          let db3 := rl.2.patchPuc rl.1 (fun l => { l with rating := n })
          (.ok uid code n, db3)

structure FeedbackReq where
  poc_uid : Option String
  use_case_code : Option String
  text : Option String
deriving Repr, DecidableEq

inductive FeedbackOut where
  | ok (poc_uid : String) (use_case_code : String) (comment_id : Nat)
  | err (http : Nat) (tag : String) (details : Option String)
deriving Repr, DecidableEq

/-- Handler api_feedback: reject empty (stripped) text, then upsert use
case and link and append one comment row of kind "feedback". -/
def api_feedback (db : DB) (req : FeedbackReq) (now : Nat) : FeedbackOut × DB :=
  let text := pyStrip (req.text.getD "")
  if !optTruthy req.poc_uid || !optTruthy req.use_case_code then
    (.err 400 "missing_required_fields" (some "poc_uid and use_case_code are required"), db)
  else if !strTruthy text then
    (.err 400 "missing_text" none, db)
  else
    let uid := req.poc_uid.getD ""
    let code := req.use_case_code.getD ""
    match find_poc_by_uid db uid with
    | none => (.err 404 "poc_not_found" none, db)
    | some poc =>
      let ru := get_or_create_usecase db code none 1 none none none none none none none
      let rl := get_or_create_poc_usecase ru.2 now poc.id ru.1 none none none
      let rc := rl.2.addComment (fun i =>
        { id := i, poc := poc.id, use_case := none, poc_use_case := some rl.1
          author := if poc.se == 0 then none else some poc.se
          kind := "feedback", text := text, rating := none })
      (.ok uid code rc.1, rc.2)

end PocApi

/-! Embedding of doc_public_api.py.  Its resolvers are the plain
find-or-create variants: exact email equality (no normalization), no
patch-if-changed pass, and a bare link create.  Required body keys
(se_email, poc_uid, use_case_code) raise KeyError into a 500 when absent
and are modelled as plain fields of the request structures. -/

namespace DocApi

/-- Function get_or_create_user_se of doc_public_api.py: exact-match email
lookup, create with role "se" and a fixed password otherwise. -/
def get_or_create_user_se (db : DB) (email : String) : Nat × DB :=
  match db.users.find? (fun u => u.email == email) with
  | some u => (u.id, db)
  | none =>
    db.addUser (fun i =>
      { id := i, email := email, role := "se", name := "", displayName := "" })

/-- Function get_or_create_usecase of doc_public_api.py: find by
(code, version) or create; never patches an existing record. -/
def get_or_create_usecase (db : DB) (code : String) (title : Option String)
    (version : Int) (product_family : Option String) (product : Option String) :
    Nat × DB :=
  match db.use_cases.find? (PocApi.ucFilter code version) with
  | some u => (u.id, db)
  | none =>
    let title' := orElseStr title (pyTitle (replaceChar '-' ' ' code))
    db.addUseCase (fun i =>
      { id := i, code := code, title := title', version := version
        description := ""
        product_family := if optTruthy product_family then product_family.getD "" else ""
        product := if optTruthy product then product.getD "" else ""
        category := "", estimate_hours := 0, is_customer_prep := false, author := "" })

/-- Function get_or_create_poc of doc_public_api.py: find by poc_uid or
create an active, not-completed POC stamped with the current time. -/
def get_or_create_poc (db : DB) (now : Nat) (poc_uid : String) (name : Option String)
    (customer_name : Option String) (se_id : Nat) (partner : Option String) : Nat × DB :=
  match db.pocs.find? (PocApi.pocUidFilter poc_uid) with
  | some p => (p.id, db)
  | none =>
    db.addPoc (fun i =>
      { id := i, poc_uid := poc_uid, name := orElseStr name poc_uid
        customer_name := customer_name.getD "", product := "", se := se_id
        partner := if optTruthy partner then partner.getD "" else ""
        is_active := true, is_completed := false, risk_status := "on_track"
        prep_start_date := "", poc_start_date := "", poc_end_date_plan := ""
        poc_end_date_actual := ""
        last_daily_update_at := some now, deregistered_at := none })

/-- Function get_or_create_poc_usecase of doc_public_api.py: find the link
by (poc, use_case) or create it bare; the unset active/completed booleans
take the collection defaults (false). -/
def get_or_create_poc_usecase (db : DB) (poc_id uc_id : Nat) : Nat × DB :=
  match db.pucs.find? (PocApi.pucFilter poc_id uc_id) with
  | some l => (l.id, db)
  | none =>
    db.addPuc (fun i =>
      { id := i, poc := poc_id, use_case := uc_id, is_active := false, is_completed := false
        completed_at := none, rating := 0, order := 0, is_customer_prep := false
        estimate_hours := 0 })

inductive DailyOut where
  | ok (poc_uid : String)
  | err (http : Nat) (tag : String) (details : Option String)
deriving Repr, DecidableEq

/-- Per-entry body of the daily_update processing loop: upsert use case
and link, patch the link's flags/estimate/rating (completed_at stamped
when the entry says completed, left alone otherwise), then append one
comment row per non-empty feedback string (carrying the entry rating) and
per non-empty question string (without rating). -/
def ducStep (now : Nat) (poc_id se_id : Nat) (db : DB) (uc : DUseCase) : DB :=
  let version := uc.version.getD 1
  let ru := get_or_create_usecase db uc.code uc.title version
    uc.product_family uc.product
  let uc_id := ru.1
  let rl := get_or_create_poc_usecase ru.2 poc_id uc_id
  let rating := uc.rating
  let db3 := rl.2.patchPuc rl.1 (fun l =>
    { l with
      is_active := uc.is_active.getD false
      is_completed := uc.is_completed.getD false
      is_customer_prep := uc.is_customer_prep.getD false
      estimate_hours := match uc.estimate_hours with
        | some e => e
        | none => l.estimate_hours
      completed_at := if uc.is_completed.getD false then some now else l.completed_at
      rating := match rating with
        | some r => r
        | none => l.rating })
  let db4 := uc.feedback.foldl (fun acc fb =>
    if fb.data.isEmpty then acc
    else (acc.addComment (fun i =>
      { id := i, poc := poc_id, use_case := some uc_id, poc_use_case := none
        author := some se_id, kind := "feedback", text := fb, rating := rating })).2) db3
  uc.questions.foldl (fun acc q =>
    if q.data.isEmpty then acc
    else (acc.addComment (fun i =>
      { id := i, poc := poc_id, use_case := some uc_id, poc_use_case := none
        author := some se_id, kind := "question", text := q, rating := none })).2) db4

/-- Handler api_daily_update: upsert owner and POC, patch the supplied
project date/partner fields and stamp last_daily_update_at, append the
audit snapshot, list the project's links (perPage 500) and deactivate the
active ones, then process every payload entry.  The source contains a
second, mis-indented copy of the deactivation loop (a syntax slip directly
after the try block); the well-indented pass is modelled once. -/
def api_daily_update (db : DB) (req : DailyReq) (now : Nat) : DailyOut × DB :=
  let ruser := get_or_create_user_se db req.se_email
  let se_id := ruser.1
  let rpoc := get_or_create_poc ruser.2 now req.poc_uid
    (some (req.poc_name.getD req.poc_uid)) req.customer_name se_id req.partner
  let poc_id := rpoc.1
  let db2 := rpoc.2
  let cPrep := optTruthy req.prep_start_date
  let cStart := optTruthy req.poc_start_date
  let poc_end_plan := if optTruthy req.poc_end_date_plan then req.poc_end_date_plan
    else req.poc_end_date_planned
  let cEndPlan := optTruthy poc_end_plan
  let cActual := optTruthy req.poc_end_date_actual
  let cPartner := optTruthy req.partner
  let db3 := db2.patchPoc poc_id (fun p =>
    { p with
      prep_start_date := if cPrep then req.prep_start_date.getD p.prep_start_date else p.prep_start_date
      poc_start_date := if cStart then req.poc_start_date.getD p.poc_start_date else p.poc_start_date
      poc_end_date_plan := if cEndPlan then poc_end_plan.getD p.poc_end_date_plan else p.poc_end_date_plan
      poc_end_date_actual := if cActual then req.poc_end_date_actual.getD p.poc_end_date_actual else p.poc_end_date_actual
      partner := if cPartner then req.partner.getD p.partner else p.partner
      last_daily_update_at := some now })
  let db4 := (db3.addDaily (fun i =>
    { id := i, poc := poc_id, se := se_id, snapshot_date := now, payload := req })).2
  let listed := (db4.pucs.filter (fun r => r.poc == poc_id)).take 500
  let db5 := PocApi.deactivatePass db4 listed
  let db6 := req.use_cases.foldl (ducStep now poc_id se_id) db5
  (.ok req.poc_uid, db6)

structure DCompleteReq where
  se_email : String
  poc_uid : String
  poc_name : Option String
  customer_name : Option String
  partner : Option String
  use_case_code : String
  version : Option Int
  product_family : Option String
  product : Option String
  rating : Option Int
  text : Option String
deriving Repr, DecidableEq

inductive DCompleteOut where
  | ok (poc_uid : String) (use_case_code : String) (version : Int)
  | err (http : Nat) (tag : String) (details : Option String)
deriving Repr, DecidableEq

/-- Handler api_complete_use_case of doc_public_api.py: upsert owner, POC,
use case and link, then unconditionally patch the link active, completed
and freshly stamped; optionally append a feedback comment. -/
def api_complete_use_case (db : DB) (req : DCompleteReq) (now : Nat) : DCompleteOut × DB :=
  let ruser := get_or_create_user_se db req.se_email
  let se_id := ruser.1
  let rpoc := get_or_create_poc ruser.2 now req.poc_uid
    (some (req.poc_name.getD req.poc_uid)) req.customer_name se_id req.partner
  let poc_id := rpoc.1
  let version := req.version.getD 1
  let ruc := get_or_create_usecase rpoc.2 req.use_case_code none version
    req.product_family req.product
  let uc_id := ruc.1
  let rl := get_or_create_poc_usecase ruc.2 poc_id uc_id
  let db5 := rl.2.patchPuc rl.1 (fun l =>
    { l with
      is_active := true, is_completed := true, completed_at := some now
      rating := match req.rating with
        | some r => r
        | none => l.rating })
  let db6 := if optTruthy req.text || req.rating.isSome then
      (db5.addComment (fun i =>
        { id := i, poc := poc_id, use_case := some uc_id, poc_use_case := none
          author := some se_id, kind := "feedback", text := req.text.getD ""
          rating := req.rating })).2
    else db5
  (.ok req.poc_uid req.use_case_code version, db6)

structure CommentReq where
  se_email : String
  poc_uid : String
  poc_name : Option String
  customer_name : Option String
  partner : Option String
  use_case_code : String
  version : Option Int
  product_family : Option String
  product : Option String
  kind : Option String
  rating : Option Int
  text : Option String
deriving Repr, DecidableEq

inductive CommentOut where
  | ok (comment_id : Nat)
  | err (http : Nat) (tag : String) (details : Option String)
deriving Repr, DecidableEq

/-- Handler api_comment: upsert owner, POC, use case and link, then
validate the kind tag (rejecting anything but feedback/question after
those side effects) and append exactly one comment row. -/
def api_comment (db : DB) (req : CommentReq) (now : Nat) : CommentOut × DB :=
  let ruser := get_or_create_user_se db req.se_email
  let se_id := ruser.1
  let rpoc := get_or_create_poc ruser.2 now req.poc_uid
    (some (req.poc_name.getD req.poc_uid)) req.customer_name se_id req.partner
  let poc_id := rpoc.1
  let version := req.version.getD 1
  let ruc := get_or_create_usecase rpoc.2 req.use_case_code none version
    req.product_family req.product
  let uc_id := ruc.1
  let rl := get_or_create_poc_usecase ruc.2 poc_id uc_id
  let db4 := rl.2
  let kind := req.kind.getD "feedback"
  if kind == "feedback" || kind == "question" then
    let rc := db4.addComment (fun i =>
      { id := i, poc := poc_id, use_case := some uc_id, poc_use_case := none
        author := some se_id, kind := kind, text := req.text.getD ""
        rating := req.rating })
    (.ok rc.1, rc.2)
  else
    (.err 400 "invalid_kind" (some "kind must be 'feedback' or 'question'"), db4)

end DocApi

/-- Every mutating operation of the two API files, with its parsed body
and call-time parameters. -/
inductive Op where
  | register (req : PocApi.RegisterReq) (now : Nat) (uidGen : String)
  | deregister (req : PocApi.DeregisterReq) (now : Nat)
  | heartbeat (req : PocApi.HeartbeatReq) (now : Nat)
  | completePoc (req : PocApi.PCompleteReq) (now : Nat)
  | rating (req : PocApi.RatingReq) (now : Nat)
  | feedback (req : PocApi.FeedbackReq) (now : Nat)
  | dailyUpdate (req : DailyReq) (now : Nat)
  | completeDoc (req : DocApi.DCompleteReq) (now : Nat)
  | comment (req : DocApi.CommentReq) (now : Nat)

/-- The store state an operation leaves behind. -/
def applyOp (db : DB) : Op → DB
  | .register req now uidGen => (PocApi.api_register db req now uidGen).2
  | .deregister req now => (PocApi.api_deregister db req now).2
  | .heartbeat req now => (PocApi.api_heartbeat db req now).2
  | .completePoc req now => (PocApi.api_complete_use_case db req now).2
  | .rating req now => (PocApi.api_rating db req now).2
  | .feedback req now => (PocApi.api_feedback db req now).2
  | .dailyUpdate req now => (DocApi.api_daily_update db req now).2
  | .completeDoc req now => (DocApi.api_complete_use_case db req now).2
  | .comment req now => (DocApi.api_comment db req now).2

/-! Generic lemmas about the store combinators. -/

theorem isPre_self (l : List Char) : isPre l l = true := by
  induction l with
  | nil => rfl
  | cons c t ih => simp [isPre, ih]

theorem hasSub_self (s : List Char) : hasSub s s = true := by
  cases s with
  | nil => rfl
  | cons c t => unfold hasSub; simp [isPre_self]

theorem strContainsSub_self (s : String) : strContainsSub s s = true := by
  unfold strContainsSub; exact hasSub_self s.data

/-- A PATCH leaves find? untouched up to mapping the conditional update,
whenever the update cannot change the filter's verdict. -/
theorem find?_updWhere (p q : α → Bool) (f : α → α) (l : List α)
    (h : ∀ x, q (if p x then f x else x) = q x) :
    (updWhere p f l).find? q = (l.find? q).map (fun x => if p x then f x else x) := by
  unfold updWhere
  rw [List.find?_map]
  have : (q ∘ fun x => if p x then f x else x) = q := by
    funext x; exact h x
  rw [this]

/-- A PATCH leaves any per-record projection untouched whenever the
update preserves that projection. -/
theorem map_updWhere (k : α → γ) (p : α → Bool) (f : α → α) (l : List α)
    (h : ∀ x, k (f x) = k x) :
    (updWhere p f l).map k = l.map k := by
  unfold updWhere
  rw [List.map_map]
  apply List.map_congr_left
  intro x _
  by_cases hp : p x = true <;> simp [hp, h]

theorem find?_append_of_none (l₁ l₂ : List α) (p : α → Bool)
    (h : l₁.find? p = none) : (l₁ ++ l₂).find? p = l₂.find? p := by
  rw [List.find?_append, h]; rfl

theorem find?_append_of_some (l₁ l₂ : List α) (p : α → Bool) (x : α)
    (h : l₁.find? p = some x) : (l₁ ++ l₂).find? p = some x := by
  rw [List.find?_append, h]; rfl

/-- In a list whose keys are pairwise distinct, looking up a member's key
finds exactly that member. -/
theorem find?_key_of_mem (k : α → Nat) (l : List α) (hnd : (l.map k).Nodup)
    (x : α) (hx : x ∈ l) : l.find? (fun y => k y == k x) = some x := by
  induction l with
  | nil => cases hx
  | cons a t ih =>
    rcases List.mem_cons.1 hx with rfl | hxt
    · exact List.find?_cons_of_pos _ (by simp)
    · have hka : k a ≠ k x := by
        intro he
        have : k x ∈ t.map k := List.mem_map_of_mem k hxt
        rw [List.map_cons] at hnd
        exact (List.nodup_cons.1 hnd).1 (he ▸ this)
      rw [List.find?_cons_of_neg _ (by simp [hka])]
      exact ih (by rw [List.map_cons] at hnd; exact (List.nodup_cons.1 hnd).2) hxt

/-- Two members of a list with pairwise-distinct keys that share a key
are the same element. -/
theorem eq_of_key_eq (k : α → Nat) (l : List α) (hnd : (l.map k).Nodup)
    (x y : α) (hx : x ∈ l) (hy : y ∈ l) (hk : k x = k y) : x = y :=
  List.inj_on_of_nodup_map hnd hx hy hk

/-- A fold whose every step preserves a projection of the state preserves
it overall. -/
theorem foldl_proj_inv {σ α γ : Type _} (proj : σ → γ) (step : σ → α → σ)
    (h : ∀ s a, proj (step s a) = proj s) (l : List α) (s : σ) :
    proj (l.foldl step s) = proj s := by
  induction l generalizing s with
  | nil => rfl
  | cons a t ih => rw [List.foldl_cons, ih, h]

/-- The empty store. -/
def emptyDB : DB := ⟨[], [], [], [], [], [], 1⟩

/-- A registered POC record used by concrete witnesses. -/
def pocOne : PocRec :=
  ⟨1, "POC-1", "Acme - P1", "Acme", "P1", 0, "", true, false, "on_track",
    "", "", "", "", none, none⟩

/-- A store holding exactly the one registered POC. -/
def dbOnePoc : DB := ⟨[], [], [pocOne], [], [], [], 2⟩

/-- C10: a heartbeat whose use_cases field is missing, not a list, or an
empty list is rejected with 400 missing_use_cases before any backend
call, leaving the store unchanged (so an empty snapshot can never
deactivate a link). -/
theorem heartbeat_missing_use_cases (db : DB) (req : PocApi.HeartbeatReq) (now : Nat)
    (huid : optTruthy req.poc_uid = true)
    (hcases : req.use_cases = .missing ∨ req.use_cases = .nonList ∨ req.use_cases = .arr []) :
    PocApi.api_heartbeat db req now =
      (.err 400 "missing_use_cases" (some "use_cases array is required"), db) := by
  unfold PocApi.api_heartbeat
  rcases hcases with h | h | h <;> simp [h, huid]

/-- Witness for heartbeat_missing_use_cases at a concrete store and body. -/
theorem heartbeat_missing_use_cases_witness :
    PocApi.api_heartbeat emptyDB ⟨some "POC-A", .arr []⟩ 3 =
      (.err 400 "missing_use_cases" (some "use_cases array is required"), emptyDB) :=
  heartbeat_missing_use_cases emptyDB ⟨some "POC-A", .arr []⟩ 3 (by decide)
    (Or.inr (Or.inr rfl))

/-- C5 (amended): when no POC carries the referenced poc_uid, heartbeat
answers 404 with error and details, complete/rating/feedback answer 404
with an error tag and no details, and deregister answers 200 ok with an
explanatory message; none of them changes the store. -/
theorem unknown_poc_responses (db : DB) (uid code text : String) (now : Nat)
    (entries : List PocApi.HBUseCase) (jp : JPrim) (n : Int)
    (hnone : PocApi.find_poc_by_uid db uid = none)
    (huid : strTruthy uid = true) (hcode : strTruthy code = true)
    (hne : entries ≠ []) (hjp : pyInt jp = some n) (h1 : 1 ≤ n) (h5 : n ≤ 5)
    (htext : strTruthy (pyStrip text) = true) :
    PocApi.api_heartbeat db ⟨some uid, .arr entries⟩ now =
      (.err 404 "poc_not_found" (some ("POC " ++ uid ++ " not found")), db) ∧
    PocApi.api_complete_use_case db ⟨some uid, some code, some true⟩ now =
      (.err 404 "poc_not_found" none, db) ∧
    PocApi.api_rating db ⟨some uid, some code, some jp⟩ now =
      (.err 404 "poc_not_found" none, db) ∧
    PocApi.api_feedback db ⟨some uid, some code, some text⟩ now =
      (.err 404 "poc_not_found" none, db) ∧
    PocApi.api_deregister db ⟨some uid⟩ now =
      (.ok uid "POC not found (already deregistered or never existed)", db) := by
  have hrange : (decide (n < 1) || decide (5 < n)) = false := by
    simp only [Bool.or_eq_false_iff, decide_eq_false_iff_not]
    omega
  refine ⟨?_, ?_, ?_, ?_, ?_⟩
  · cases entries with
    | nil => exact absurd rfl hne
    | cons e es =>
      unfold PocApi.api_heartbeat
      simp [optTruthy, huid, hnone]
  · unfold PocApi.api_complete_use_case
    simp [optTruthy, huid, hcode, hnone]
  · unfold PocApi.api_rating
    simp [optTruthy, huid, hcode, hjp, hrange, hnone]
  · unfold PocApi.api_feedback
    simp [optTruthy, huid, hcode, htext, hnone]
  · unfold PocApi.api_deregister
    simp [optTruthy, huid, hnone]

/-- Witness for unknown_poc_responses at a concrete store. -/
theorem unknown_poc_responses_witness :
    PocApi.api_heartbeat emptyDB
        ⟨some "POC-Z", .arr [⟨some "c", none, none, none, none, none, none, none, none,
          none, none, none, none⟩]⟩ 4 =
      (.err 404 "poc_not_found" (some "POC POC-Z not found"), emptyDB) ∧
    PocApi.api_complete_use_case emptyDB ⟨some "POC-Z", some "c", some true⟩ 4 =
      (.err 404 "poc_not_found" none, emptyDB) ∧
    PocApi.api_rating emptyDB ⟨some "POC-Z", some "c", some (.jint 3)⟩ 4 =
      (.err 404 "poc_not_found" none, emptyDB) ∧
    PocApi.api_feedback emptyDB ⟨some "POC-Z", some "c", some "ok"⟩ 4 =
      (.err 404 "poc_not_found" none, emptyDB) ∧
    PocApi.api_deregister emptyDB ⟨some "POC-Z"⟩ 4 =
      (.ok "POC-Z" "POC not found (already deregistered or never existed)", emptyDB) :=
  unknown_poc_responses emptyDB "POC-Z" "c" "ok" 4 _ (.jint 3) 3
    (by decide) (by decide) (by decide) (by decide) rfl (by decide) (by decide) (by decide)

/-- C5 counterexample: deregistering a poc_uid for which no POC exists is
answered 200 with status ok and a message, not 404 with an error body as
the claim states. -/
theorem deregister_unknown_poc_counterexample :
    PocApi.api_deregister emptyDB ⟨some "POC-X"⟩ 7 =
      (.ok "POC-X" "POC not found (already deregistered or never existed)", emptyDB) := by
  decide

/-! Framing lemmas: which collections each resolver leaves untouched. -/

theorem docUser_comments (db : DB) (e : String) :
    (DocApi.get_or_create_user_se db e).2.comments = db.comments := by
  unfold DocApi.get_or_create_user_se
  split <;> simp [DB.addUser]

theorem docPoc_comments (db : DB) (now : Nat) (uid : String) (name cn : Option String)
    (se : Nat) (pa : Option String) :
    (DocApi.get_or_create_poc db now uid name cn se pa).2.comments = db.comments := by
  unfold DocApi.get_or_create_poc
  split <;> simp [DB.addPoc]

theorem docUc_comments (db : DB) (code : String) (title : Option String) (v : Int)
    (pf pr : Option String) :
    (DocApi.get_or_create_usecase db code title v pf pr).2.comments = db.comments := by
  unfold DocApi.get_or_create_usecase
  split <;> simp [DB.addUseCase]

theorem docPuc_comments (db : DB) (pid ucid : Nat) :
    (DocApi.get_or_create_poc_usecase db pid ucid).2.comments = db.comments := by
  unfold DocApi.get_or_create_poc_usecase
  split <;> simp [DB.addPuc]

theorem pocUcR_comments (db : DB) (code : String) (title : Option String) (v : Int)
    (pf pr cat ds : Option String) (eh : Option Int) (icp : Option Bool) (au : Option String) :
    (PocApi.get_or_create_usecase db code title v pf pr cat ds eh icp au).2.comments =
      db.comments := by
  unfold PocApi.get_or_create_usecase
  split
  · simp [apply_ite DB.comments]
  · simp

theorem pocPucR_comments (db : DB) (now : Nat) (pid ucid : Nat) (o : Option Int)
    (ia ic : Option Bool) :
    (PocApi.get_or_create_poc_usecase db now pid ucid o ia ic).2.comments = db.comments := by
  unfold PocApi.get_or_create_poc_usecase
  split
  · simp [apply_ite DB.comments]
  · simp

/-- A fold whose steps are the identity on every member of the list. -/
theorem foldl_id_of_mem {σ α : Type _} (step : σ → α → σ) (l : List α)
    (h : ∀ a ∈ l, ∀ s, step s a = s) (s : σ) : l.foldl step s = s := by
  induction l generalizing s with
  | nil => rfl
  | cons a t ih =>
    rw [List.foldl_cons, h a (List.mem_cons_self a t)]
    exact ih (fun b hb s' => h b (List.mem_cons_of_mem a hb) s') s

/-- A fold whose every step, on members of the list, preserves a
projection of the state. -/
theorem foldl_proj_inv_mem {σ α γ : Type _} (proj : σ → γ) (step : σ → α → σ)
    (l : List α) (h : ∀ a ∈ l, ∀ s, proj (step s a) = proj s) (s : σ) :
    proj (l.foldl step s) = proj s := by
  induction l generalizing s with
  | nil => rfl
  | cons a t ih =>
    rw [List.foldl_cons, ih (fun b hb s' => h b (List.mem_cons_of_mem a hb) s'),
      h a (List.mem_cons_self a t)]

theorem deactivatePass_comments (db : DB) (listed : List PucRec) :
    (PocApi.deactivatePass db listed).comments = db.comments := by
  unfold PocApi.deactivatePass
  refine foldl_proj_inv (fun d => d.comments) _ ?_ listed db
  intro s a
  by_cases h : a.is_active <;> simp [h, DB.patchPuc]

/-- C7: a comment request whose kind tag is present but neither
"feedback" nor "question" is answered 400 invalid_kind and appends no
comment row; a recognized kind appends exactly one comment row carrying
that kind. -/
theorem comment_kind_validation (db : DB) (req : DocApi.CommentReq) (now : Nat) (k : String)
    (hk : req.kind = some k) :
    ((k ≠ "feedback" ∧ k ≠ "question") →
      (DocApi.api_comment db req now).1 =
        .err 400 "invalid_kind" (some "kind must be 'feedback' or 'question'") ∧
      (DocApi.api_comment db req now).2.comments = db.comments) ∧
    ((k = "feedback" ∨ k = "question") →
      (∃ cid, (DocApi.api_comment db req now).1 = .ok cid) ∧
      (DocApi.api_comment db req now).2.comments.map (fun c => c.kind) =
        db.comments.map (fun c => c.kind) ++ [k]) := by
  unfold DocApi.api_comment
  simp only [hk, Option.getD_some]
  constructor
  · rintro ⟨h1, h2⟩
    have hcond : (k == "feedback" || k == "question") = false := by
      simp [h1, h2]
    rw [hcond]
    simp only [Bool.false_eq_true, if_false]
    refine ⟨by trivial, ?_⟩
    rw [docPuc_comments, docUc_comments, docPoc_comments, docUser_comments]
  · intro h
    have hcond : (k == "feedback" || k == "question") = true := by
      rcases h with h | h <;> simp [h]
    rw [hcond]
    simp only [if_true]
    refine ⟨⟨_, rfl⟩, ?_⟩
    rw [addComment_comments, List.map_append,
      docPuc_comments, docUc_comments, docPoc_comments, docUser_comments]
    rfl

theorem docUser_users_found (db : DB) (e : String) (u : UserRec)
    (h : db.users.find? (fun x => x.email == e) = some u) :
    DocApi.get_or_create_user_se db e = (u.id, db) := by
  unfold DocApi.get_or_create_user_se; rw [h]

theorem docPoc_found (db : DB) (now : Nat) (uid : String) (name cn : Option String)
    (se : Nat) (pa : Option String) (p : PocRec)
    (h : db.pocs.find? (PocApi.pocUidFilter uid) = some p) :
    DocApi.get_or_create_poc db now uid name cn se pa = (p.id, db) := by
  unfold DocApi.get_or_create_poc; rw [h]

theorem pocUcR_pucs (db : DB) (code : String) (title : Option String) (v : Int)
    (pf pr cat ds : Option String) (eh : Option Int) (icp : Option Bool) (au : Option String) :
    (PocApi.get_or_create_usecase db code title v pf pr cat ds eh icp au).2.pucs = db.pucs := by
  unfold PocApi.get_or_create_usecase
  split
  · simp [apply_ite DB.pucs]
  · simp

theorem pocUcR_pocs (db : DB) (code : String) (title : Option String) (v : Int)
    (pf pr cat ds : Option String) (eh : Option Int) (icp : Option Bool) (au : Option String) :
    (PocApi.get_or_create_usecase db code title v pf pr cat ds eh icp au).2.pocs = db.pocs := by
  unfold PocApi.get_or_create_usecase
  split
  · simp [apply_ite DB.pocs]
  · simp

theorem pocUcR_users (db : DB) (code : String) (title : Option String) (v : Int)
    (pf pr cat ds : Option String) (eh : Option Int) (icp : Option Bool) (au : Option String) :
    (PocApi.get_or_create_usecase db code title v pf pr cat ds eh icp au).2.users = db.users := by
  unfold PocApi.get_or_create_usecase
  split
  · simp [apply_ite DB.users]
  · simp

theorem pocPucR_pocs (db : DB) (now : Nat) (pid ucid : Nat) (o : Option Int)
    (ia ic : Option Bool) :
    (PocApi.get_or_create_poc_usecase db now pid ucid o ia ic).2.pocs = db.pocs := by
  unfold PocApi.get_or_create_poc_usecase
  split
  · simp [apply_ite DB.pocs]
  · simp

theorem pocPucR_users (db : DB) (now : Nat) (pid ucid : Nat) (o : Option Int)
    (ia ic : Option Bool) :
    (PocApi.get_or_create_poc_usecase db now pid ucid o ia ic).2.users = db.users := by
  unfold PocApi.get_or_create_poc_usecase
  split
  · simp [apply_ite DB.users]
  · simp

theorem pocPucR_use_cases (db : DB) (now : Nat) (pid ucid : Nat) (o : Option Int)
    (ia ic : Option Bool) :
    (PocApi.get_or_create_poc_usecase db now pid ucid o ia ic).2.use_cases = db.use_cases := by
  unfold PocApi.get_or_create_poc_usecase
  split
  · simp [apply_ite DB.use_cases]
  · simp

theorem docUc_pucs (db : DB) (code : String) (title : Option String) (v : Int)
    (pf pr : Option String) :
    (DocApi.get_or_create_usecase db code title v pf pr).2.pucs = db.pucs := by
  unfold DocApi.get_or_create_usecase
  split <;> simp

theorem docUc_pocs (db : DB) (code : String) (title : Option String) (v : Int)
    (pf pr : Option String) :
    (DocApi.get_or_create_usecase db code title v pf pr).2.pocs = db.pocs := by
  unfold DocApi.get_or_create_usecase
  split <;> simp

theorem docUc_users (db : DB) (code : String) (title : Option String) (v : Int)
    (pf pr : Option String) :
    (DocApi.get_or_create_usecase db code title v pf pr).2.users = db.users := by
  unfold DocApi.get_or_create_usecase
  split <;> simp

/-- The use-case resolver of poc_public_api.py called with only a code
(as the complete/rating/feedback handlers do) never patches: it returns
the found record's id on the unchanged store, or creates the record. -/
theorem pocUcR_bare_found (db : DB) (code : String) (ex : UseCaseRec)
    (h : db.use_cases.find? (PocApi.ucFilter code 1) = some ex) :
    PocApi.get_or_create_usecase db code none 1 none none none none none none none =
      (ex.id, db) := by
  unfold PocApi.get_or_create_usecase
  rw [h]
  rfl

theorem pocUcR_bare_none (db : DB) (code : String)
    (h : db.use_cases.find? (PocApi.ucFilter code 1) = none) :
    PocApi.get_or_create_usecase db code none 1 none none none none none none none =
      db.addUseCase (fun i =>
        { id := i, code := code, title := PocApi.derivedUcTitle code, version := 1
          description := "", product_family := "", product := "", category := ""
          estimate_hours := 0, is_customer_prep := false, author := "" }) := by
  unfold PocApi.get_or_create_usecase
  rw [h]
  rfl

/-- Resolving a link always leaves the store with a first match for the
link filter, whose id is the returned id. -/
theorem docPucR_spec (db : DB) (pid ucid : Nat) :
    ∃ m, (DocApi.get_or_create_poc_usecase db pid ucid).2.pucs.find?
        (PocApi.pucFilter pid ucid) = some m ∧
      (DocApi.get_or_create_poc_usecase db pid ucid).1 = m.id := by
  unfold DocApi.get_or_create_poc_usecase
  cases h : db.pucs.find? (PocApi.pucFilter pid ucid) with
  | some ex => exact ⟨ex, h, rfl⟩
  | none =>
    refine ⟨⟨db.nextId, pid, ucid, false, false, none, 0, 0, false, 0⟩, ?_, rfl⟩
    show (db.addPuc _).2.pucs.find? (PocApi.pucFilter pid ucid) = _
    rw [addPuc_pucs, find?_append_of_none _ _ _ h]
    exact List.find?_cons_of_pos _ (by simp [PocApi.pucFilter])

/-- A PATCH targeting the first match of the link filter, with an update
that cannot change the filter fields, moves that first match to its
patched image. -/
theorem find?_patchPuc_target (db : DB) (i : Nat) (f : PucRec → PucRec)
    (q : PucRec → Bool) (hf : ∀ x, q (f x) = q x) (m : PucRec)
    (hm : db.pucs.find? q = some m) (hi : m.id = i) :
    (db.patchPuc i f).pucs.find? q = some (f m) := by
  rw [patchPuc_pucs,
    find?_updWhere _ q f db.pucs (fun x => by by_cases hx : (x.id == i) = true <;> simp [hx, hf]),
    hm]
  simp [hi]

/-- Characterization of the rich link resolver's effect on the first
match of its own filter: the found link is patched field-by-field (with
completed_at stamped or cleared when the completed flag flips), and a
missing link is created with the defaults. -/
theorem pocPucR_find (db : DB) (now : Nat) (pid ucid : Nat) (o : Option Int)
    (ia ic : Option Bool) :
    (PocApi.get_or_create_poc_usecase db now pid ucid o ia ic).2.pucs.find?
        (PocApi.pucFilter pid ucid) =
      some (match db.pucs.find? (PocApi.pucFilter pid ucid) with
        | some ex =>
          { ex with
            order := if condI o ex.order then o.getD ex.order else ex.order
            is_active := if condB ia ex.is_active then ia.getD ex.is_active else ex.is_active
            is_completed := if condB ic ex.is_completed then ic.getD ex.is_completed else ex.is_completed
            completed_at := if condB ic ex.is_completed then
                (if ic.getD false then some now else none)
              else ex.completed_at }
        | none =>
          { id := db.nextId, poc := pid, use_case := ucid, is_active := ia.getD true
            is_completed := ic.getD false
            completed_at := if ic.getD false then some now else none
            rating := 0, order := o.getD 0, is_customer_prep := false
            estimate_hours := 0 }) := by
  unfold PocApi.get_or_create_poc_usecase
  cases h : db.pucs.find? (PocApi.pucFilter pid ucid) with
  | some ex =>
    dsimp only
    by_cases hp : (condI o ex.order || condB ia ex.is_active || condB ic ex.is_completed) = true
    · rw [if_pos hp]
      refine find?_patchPuc_target db ex.id _ _ ?_ ex h rfl
      intro x
      simp [PocApi.pucFilter]
    · rw [if_neg hp]
      rw [h]
      have h3 : condI o ex.order = false ∧ condB ia ex.is_active = false ∧
          condB ic ex.is_completed = false := by
        rcases Bool.or_eq_false_iff.1 (Bool.eq_false_iff.2 hp) with ⟨h12, h3⟩
        rcases Bool.or_eq_false_iff.1 h12 with ⟨h1, h2⟩
        exact ⟨h1, h2, h3⟩
      simp [h3.1, h3.2.1, h3.2.2]
  | none =>
    dsimp only
    rw [addPuc_pucs, find?_append_of_none _ _ _ h,
      List.find?_cons_of_pos _ (by simp [PocApi.pucFilter])]

/-- A fold over the store whose steps preserve the comments collection on
every member of the folded list. -/
theorem foldl_comments_inv {α : Type _} (step : DB → α → DB) (l : List α)
    (h : ∀ a ∈ l, ∀ s, (step s a).comments = s.comments) (s : DB) :
    (l.foldl step s).comments = s.comments := by
  induction l generalizing s with
  | nil => rfl
  | cons a tl ih =>
    rw [List.foldl_cons, ih (fun b hb s' => h b (List.mem_cons_of_mem a hb) s'),
      h a (List.mem_cons_self a tl)]

/-- A daily-update entry whose feedback and question strings are all
empty appends no comment row. -/
theorem ducStep_comments_of_clean (now pid sid : Nat) (db : DB) (uc : DUseCase)
    (hfb : ∀ fb ∈ uc.feedback, fb.data = []) (hq : ∀ q ∈ uc.questions, q.data = []) :
    (DocApi.ducStep now pid sid db uc).comments = db.comments := by
  unfold DocApi.ducStep
  dsimp only
  rw [foldl_comments_inv _ uc.questions (fun a ha s => by simp [hq a ha])]
  rw [foldl_comments_inv _ uc.feedback (fun a ha s => by simp [hfb a ha])]
  rw [patchPuc_comments, docPuc_comments, docUc_comments]

/-- C8: feedback whose text strips to empty is rejected with 400
missing_text and appends no comment; non-empty text appends exactly one
comment row of kind "feedback" carrying the stripped text; and the
daily-update comment loop skips entries whose feedback/question strings
are all empty. -/
theorem feedback_text_handling (db : DB) (uid code t : String) (now : Nat) (P : PocRec)
    (dreq : DailyReq)
    (hpoc : PocApi.find_poc_by_uid db uid = some P)
    (huid : strTruthy uid = true) (hcode : strTruthy code = true)
    (hclean : ∀ uc ∈ dreq.use_cases,
      (∀ fb ∈ uc.feedback, fb.data = []) ∧ (∀ q ∈ uc.questions, q.data = [])) :
    (strTruthy (pyStrip t) = false →
      PocApi.api_feedback db ⟨some uid, some code, some t⟩ now =
        (.err 400 "missing_text" none, db)) ∧
    (strTruthy (pyStrip t) = true →
      (∃ cid, (PocApi.api_feedback db ⟨some uid, some code, some t⟩ now).1 = .ok uid code cid) ∧
      (PocApi.api_feedback db ⟨some uid, some code, some t⟩ now).2.comments.map
          (fun c => (c.kind, c.text)) =
        db.comments.map (fun c => (c.kind, c.text)) ++ [("feedback", pyStrip t)]) ∧
    (DocApi.api_daily_update db dreq now).2.comments = db.comments := by
  refine ⟨?_, ?_, ?_⟩
  · intro hempty
    unfold PocApi.api_feedback
    simp [optTruthy, huid, hcode, hempty]
  · intro htext
    unfold PocApi.api_feedback
    simp only [optTruthy, Option.getD_some, huid, hcode, htext, Bool.not_true,
      Bool.false_or, Bool.or_self, Bool.false_eq_true, if_false, hpoc]
    refine ⟨⟨_, rfl⟩, ?_⟩
    rw [addComment_comments, List.map_append,
      pocPucR_comments, pocUcR_comments]
    rfl
  · unfold DocApi.api_daily_update
    dsimp only
    rw [foldl_comments_inv _ dreq.use_cases
      (fun uc huc s => ducStep_comments_of_clean _ _ _ s uc (hclean uc huc).1 (hclean uc huc).2)]
    rw [deactivatePass_comments, addDaily_comments, patchPoc_comments,
      docPoc_comments, docUser_comments]

/-- Witness for feedback_text_handling at a concrete store holding one
POC, instantiated at an empty and at a non-empty text. -/
theorem feedback_text_handling_witness :
    (PocApi.api_feedback dbOnePoc ⟨some "POC-1", some "dash", some "  "⟩ 9 =
      (.err 400 "missing_text" none, dbOnePoc)) ∧
    ((∃ cid, (PocApi.api_feedback dbOnePoc ⟨some "POC-1", some "dash", some "ok"⟩ 9).1 =
        .ok "POC-1" "dash" cid) ∧
      (PocApi.api_feedback dbOnePoc ⟨some "POC-1", some "dash", some "ok"⟩ 9).2.comments.map
          (fun c => (c.kind, c.text)) =
        dbOnePoc.comments.map (fun c => (c.kind, c.text)) ++ [("feedback", "ok")]) ∧
    (DocApi.api_daily_update dbOnePoc
        ⟨"a@x.com", "POC-1", none, none, none, none, none, none, none, none,
          [⟨"dash", none, none, none, none, none, none, none, none, none, [""], [""]⟩]⟩
        9).2.comments = dbOnePoc.comments :=
  ⟨(feedback_text_handling dbOnePoc "POC-1" "dash" "  " 9 pocOne
      ⟨"a@x.com", "POC-1", none, none, none, none, none, none, none, none,
        [⟨"dash", none, none, none, none, none, none, none, none, none, [""], [""]⟩]⟩
      (by decide) (by decide) (by decide) (by decide)).1 (by decide),
   (feedback_text_handling dbOnePoc "POC-1" "dash" "ok" 9 pocOne
      ⟨"a@x.com", "POC-1", none, none, none, none, none, none, none, none,
        [⟨"dash", none, none, none, none, none, none, none, none, none, [""], [""]⟩]⟩
      (by decide) (by decide) (by decide) (by decide)).2.1 (by decide),
   (feedback_text_handling dbOnePoc "POC-1" "dash" "ok" 9 pocOne
      ⟨"a@x.com", "POC-1", none, none, none, none, none, none, none, none,
        [⟨"dash", none, none, none, none, none, none, none, none, none, [""], [""]⟩]⟩
      (by decide) (by decide) (by decide) (by decide)).2.2⟩

theorem docUc_found (db : DB) (code : String) (title : Option String) (v : Int)
    (pf pr : Option String) (ex : UseCaseRec)
    (h : db.use_cases.find? (PocApi.ucFilter code v) = some ex) :
    DocApi.get_or_create_usecase db code title v pf pr = (ex.id, db) := by
  unfold DocApi.get_or_create_usecase
  rw [h]

theorem docPuc_users (db : DB) (pid ucid : Nat) :
    (DocApi.get_or_create_poc_usecase db pid ucid).2.users = db.users := by
  unfold DocApi.get_or_create_poc_usecase
  split <;> simp

theorem docPuc_pocs (db : DB) (pid ucid : Nat) :
    (DocApi.get_or_create_poc_usecase db pid ucid).2.pocs = db.pocs := by
  unfold DocApi.get_or_create_poc_usecase
  split <;> simp

theorem docPuc_use_cases (db : DB) (pid ucid : Nat) :
    (DocApi.get_or_create_poc_usecase db pid ucid).2.use_cases = db.use_cases := by
  unfold DocApi.get_or_create_poc_usecase
  split <;> simp

/-- C4 (amended): completing a use case whose link was not already
completed sets is_completed and stamps completed_at with the call time in
both API files.  Repeating the identical request keeps is_completed true
in both; the doc_public_api.py path re-stamps completed_at with the new
call time (it patches unconditionally), while the poc_public_api.py path
keeps the original timestamp (its patch-if-changed upsert only touches
completed_at when the completed flag flips). -/
theorem complete_repeat_semantics (db : DB) (uid code se_email : String) (t1 t2 : Nat)
    (P : PocRec) (U : UserRec) (ucrec : UseCaseRec)
    (r1 r2 : PocApi.PCompleteOut × DB) (d1 d2 : DocApi.DCompleteOut × DB)
    (hpoc : PocApi.find_poc_by_uid db uid = some P)
    (hU : db.users.find? (fun x => x.email == se_email) = some U)
    (huid : strTruthy uid = true) (hcode : strTruthy code = true)
    (hucfound : db.use_cases.find? (PocApi.ucFilter code 1) = some ucrec)
    (hlink : ∀ l ∈ db.pucs, PocApi.pucFilter P.id ucrec.id l = true → l.is_completed = false)
    (hr1 : r1 = PocApi.api_complete_use_case db ⟨some uid, some code, some true⟩ t1)
    (hr2 : r2 = PocApi.api_complete_use_case r1.2 ⟨some uid, some code, some true⟩ t2)
    (hd1 : d1 = DocApi.api_complete_use_case db
      ⟨se_email, uid, none, none, none, code, none, none, none, none, none⟩ t1)
    (hd2 : d2 = DocApi.api_complete_use_case d1.2
      ⟨se_email, uid, none, none, none, code, none, none, none, none, none⟩ t2) :
    (∃ l1, r1.2.pucs.find? (PocApi.pucFilter P.id ucrec.id) = some l1 ∧
      l1.is_completed = true ∧ l1.completed_at = some t1) ∧
    (∃ l2, r2.2.pucs.find? (PocApi.pucFilter P.id ucrec.id) = some l2 ∧
      l2.is_completed = true ∧ l2.completed_at = some t1) ∧
    (∃ m1, d1.2.pucs.find? (PocApi.pucFilter P.id ucrec.id) = some m1 ∧
      m1.is_completed = true ∧ m1.completed_at = some t1) ∧
    (∃ m2, d2.2.pucs.find? (PocApi.pucFilter P.id ucrec.id) = some m2 ∧
      m2.is_completed = true ∧ m2.completed_at = some t2) := by
  have hpoc' : db.pocs.find? (PocApi.pocUidFilter uid) = some P := hpoc
  have hAe := pocUcR_bare_found db code ucrec hucfound
  have hr12 : r1.2 =
      (PocApi.get_or_create_poc_usecase db t1 P.id ucrec.id none (some true) (some true)).2 := by
    rw [hr1]
    unfold PocApi.api_complete_use_case
    rw [if_neg (by simp [optTruthy, huid, hcode])]
    simp only [Option.getD_some]
    rw [hpoc]
    dsimp only
    rw [hAe]
  have hfind1 := pocPucR_find db t1 P.id ucrec.id none (some true) (some true)
  have hc1 : ∃ l1, r1.2.pucs.find? (PocApi.pucFilter P.id ucrec.id) = some l1 ∧
      l1.is_active = true ∧ l1.is_completed = true ∧ l1.completed_at = some t1 := by
    rw [hr12, hfind1]
    cases hL : db.pucs.find? (PocApi.pucFilter P.id ucrec.id) with
    | some exl =>
      have hcomp := hlink exl (List.mem_of_find?_eq_some hL) (List.find?_some hL)
      refine ⟨_, rfl, ?_, ?_, ?_⟩
      · cases hb : exl.is_active <;> simp [condB, hb]
      · simp [condB, hcomp]
      · simp [condB, hcomp]
    | none => exact ⟨_, rfl, rfl, rfl, rfl⟩
  obtain ⟨l1, hfl1, hact1, hcomp1, hat1⟩ := hc1
  have hpoc2 : PocApi.find_poc_by_uid r1.2 uid = some P := by
    show r1.2.pocs.find? (PocApi.pocUidFilter uid) = some P
    rw [hr12, pocPucR_pocs]
    exact hpoc'
  have hucfound2 : r1.2.use_cases.find? (PocApi.ucFilter code 1) = some ucrec := by
    rw [hr12, pocPucR_use_cases]
    exact hucfound
  have hAe2 := pocUcR_bare_found r1.2 code ucrec hucfound2
  have hr22 : r2.2 =
      (PocApi.get_or_create_poc_usecase r1.2 t2 P.id ucrec.id none (some true) (some true)).2 := by
    rw [hr2]
    unfold PocApi.api_complete_use_case
    rw [if_neg (by simp [optTruthy, huid, hcode])]
    simp only [Option.getD_some]
    rw [hpoc2]
    dsimp only
    rw [hAe2]
  have hfind2 := pocPucR_find r1.2 t2 P.id ucrec.id none (some true) (some true)
  have hc2 : ∃ l2, r2.2.pucs.find? (PocApi.pucFilter P.id ucrec.id) = some l2 ∧
      l2.is_completed = true ∧ l2.completed_at = some t1 := by
    rw [hr22, hfind2, hfl1]
    refine ⟨_, rfl, ?_, ?_⟩
    · simp [condB, condI, hact1, hcomp1]
    · simp [condB, condI, hact1, hcomp1, hat1]
  have hDe := docUc_found db code none 1 none none ucrec hucfound
  have hUe := docUser_users_found db se_email U hU
  have hPe := docPoc_found db t1 uid (some uid) none U.id none P hpoc'
  have hd12 : d1.2 = ((DocApi.get_or_create_poc_usecase db P.id ucrec.id).2.patchPuc
      (DocApi.get_or_create_poc_usecase db P.id ucrec.id).1
      (fun l =>
        { l with
          is_active := true, is_completed := true, completed_at := some t1
          rating := l.rating })) := by
    rw [hd1]
    unfold DocApi.api_complete_use_case
    simp only [optTruthy, Option.getD_none, Option.getD_some, Option.isSome_none,
      Bool.or_self, Bool.false_eq_true, if_false]
    rw [hUe]
    dsimp only
    rw [hPe]
    dsimp only
    rw [hDe]
  obtain ⟨m, hm, hmid⟩ := docPucR_spec db P.id ucrec.id
  have hfm1 : d1.2.pucs.find? (PocApi.pucFilter P.id ucrec.id) =
      some
        { m with
          is_active := true, is_completed := true, completed_at := some t1
          rating := m.rating } := by
    rw [hd12]
    exact find?_patchPuc_target _ _ _ _ (fun x => by simp [PocApi.pucFilter]) m hm hmid.symm
  have hU2 : d1.2.users.find? (fun x => x.email == se_email) = some U := by
    rw [hd12, patchPuc_users, docPuc_users]
    exact hU
  have hpoc2d : d1.2.pocs.find? (PocApi.pocUidFilter uid) = some P := by
    rw [hd12, patchPuc_pocs, docPuc_pocs]
    exact hpoc'
  have hucf2 : d1.2.use_cases.find? (PocApi.ucFilter code 1) = some ucrec := by
    rw [hd12, patchPuc_use_cases, docPuc_use_cases]
    exact hucfound
  have hDe2 := docUc_found d1.2 code none 1 none none ucrec hucf2
  have hUe2 := docUser_users_found d1.2 se_email U hU2
  have hPe2 := docPoc_found d1.2 t2 uid (some uid) none U.id none P hpoc2d
  have hd22 : d2.2 = ((DocApi.get_or_create_poc_usecase d1.2 P.id ucrec.id).2.patchPuc
      (DocApi.get_or_create_poc_usecase d1.2 P.id ucrec.id).1
      (fun l =>
        { l with
          is_active := true, is_completed := true, completed_at := some t2
          rating := l.rating })) := by
    rw [hd2]
    unfold DocApi.api_complete_use_case
    simp only [optTruthy, Option.getD_none, Option.getD_some, Option.isSome_none,
      Bool.or_self, Bool.false_eq_true, if_false]
    rw [hUe2]
    dsimp only
    rw [hPe2]
    dsimp only
    rw [hDe2]
  obtain ⟨m2, hm2, hmid2⟩ := docPucR_spec d1.2 P.id ucrec.id
  have hfm2 : d2.2.pucs.find? (PocApi.pucFilter P.id ucrec.id) =
      some
        { m2 with
          is_active := true, is_completed := true, completed_at := some t2
          rating := m2.rating } := by
    rw [hd22]
    exact find?_patchPuc_target _ _ _ _ (fun x => by simp [PocApi.pucFilter]) m2 hm2 hmid2.symm
  exact ⟨⟨l1, hfl1, hcomp1, hat1⟩, hc2, ⟨_, hfm1, rfl, rfl⟩, ⟨_, hfm2, rfl, rfl⟩⟩

/-! Infrastructure for C9: the (id, poc_uid) signature of the pocs
collection only ever grows; no operation rewrites a stored uid. -/

/-- The identifying signature of the pocs collection. -/
def pocsSig (db : DB) : List (Nat × String) := db.pocs.map (fun p => (p.id, p.poc_uid))

/-- The pocs signature of b extends that of a: existing POC rows keep
their position, id and poc_uid; new rows are only appended. -/
def pocsExt (a b : DB) : Prop := ∃ extra, pocsSig b = pocsSig a ++ extra

theorem pocsExt_refl (db : DB) : pocsExt db db := ⟨[], by simp⟩

theorem pocsExt_trans {a b c : DB} (h1 : pocsExt a b) (h2 : pocsExt b c) : pocsExt a c := by
  obtain ⟨e1, h1⟩ := h1
  obtain ⟨e2, h2⟩ := h2
  exact ⟨e1 ++ e2, by rw [h2, h1, List.append_assoc]⟩

theorem pocsExt_of_sig_eq {a b : DB} (h : pocsSig b = pocsSig a) : pocsExt a b :=
  ⟨[], by simp [h]⟩

theorem pocsExt_of_pocs_eq {a b : DB} (h : b.pocs = a.pocs) : pocsExt a b :=
  pocsExt_of_sig_eq (by unfold pocsSig; rw [h])

theorem pocsSig_patchPoc (db : DB) (i : Nat) (f : PocRec → PocRec)
    (h : ∀ p, (f p).id = p.id ∧ (f p).poc_uid = p.poc_uid) :
    pocsSig (db.patchPoc i f) = pocsSig db := by
  unfold pocsSig
  rw [patchPoc_pocs]
  exact map_updWhere _ _ _ _ (fun x => by simp [(h x).1, (h x).2])

theorem docUser_pocs (db : DB) (e : String) :
    (DocApi.get_or_create_user_se db e).2.pocs = db.pocs := by
  unfold DocApi.get_or_create_user_se
  split <;> simp

theorem pocUserSE_pocs (db : DB) (e : String) (dn : Option String) :
    (PocApi.get_or_create_user_se db e dn).2.pocs = db.pocs := by
  unfold PocApi.get_or_create_user_se
  dsimp only
  split
  · simp [apply_ite DB.pocs]
  · simp

theorem deactivatePass_pocs (db : DB) (listed : List PucRec) :
    (PocApi.deactivatePass db listed).pocs = db.pocs := by
  unfold PocApi.deactivatePass
  refine foldl_proj_inv (fun d => d.pocs) _ ?_ listed db
  intro s a
  by_cases h : a.is_active <;> simp [h]

theorem hbStep_pocs (now pid : Nat) (acc : DB × Nat) (uc : PocApi.HBUseCase) :
    (PocApi.hbStep now pid acc uc).1.pocs = acc.1.pocs := by
  unfold PocApi.hbStep
  by_cases h : (!optTruthy uc.code) = true
  · rw [if_pos h]
  · rw [if_neg h]
    dsimp only
    rw [pocPucR_pocs, pocUcR_pocs]

theorem ducStep_pocs (now pid sid : Nat) (db : DB) (uc : DUseCase) :
    (DocApi.ducStep now pid sid db uc).pocs = db.pocs := by
  unfold DocApi.ducStep
  dsimp only
  rw [foldl_proj_inv (fun d : DB => d.pocs) _
    (fun s a => by by_cases h : a.data.isEmpty <;> simp [h]) uc.questions]
  rw [foldl_proj_inv (fun d : DB => d.pocs) _
    (fun s a => by by_cases h : a.data.isEmpty <;> simp [h]) uc.feedback]
  rw [patchPuc_pocs, docPuc_pocs, docUc_pocs]

theorem docPoc_pocsExt (db : DB) (now : Nat) (uid : String) (name cn : Option String)
    (se : Nat) (pa : Option String) :
    pocsExt db (DocApi.get_or_create_poc db now uid name cn se pa).2 := by
  unfold DocApi.get_or_create_poc
  split
  · exact pocsExt_refl db
  · exact ⟨[(db.nextId, uid)], by simp [pocsSig]⟩

/-- No operation of either API ever rewrites the poc_uid of a stored POC:
the pocs signature of the store only ever grows by appended rows. -/
theorem pocsExt_applyOp (op : Op) (db : DB) : pocsExt db (applyOp db op) := by
  cases op with
  | register req now uidGen =>
    dsimp only [applyOp]
    unfold PocApi.api_register
    by_cases hv : (!optTruthy req.sa_email || !optTruthy req.prospect || !optTruthy req.product) = true
    · rw [if_pos hv]
      exact pocsExt_refl db
    · rw [if_neg hv]
      dsimp only
      cases hf : PocApi.find_poc_by_composite_key db (req.sa_email.getD "")
          (req.prospect.getD "") (req.product.getD "") with
      | some existing =>
        dsimp only
        by_cases hp : (optTruthy req.partner || optTruthy req.poc_start_date ||
            optTruthy req.poc_end_date) = true
        · rw [if_pos hp]
          exact pocsExt_of_sig_eq (pocsSig_patchPoc _ _ _ (fun p => ⟨rfl, rfl⟩))
        · rw [if_neg hp]
          exact pocsExt_refl db
      | none =>
        dsimp only
        by_cases hz : ((PocApi.get_or_create_user_se db (req.sa_email.getD "") req.sa_name).1.1
            == 0) = true
        · rw [if_pos hz]
          exact pocsExt_of_pocs_eq (pocUserSE_pocs _ _ _)
        · rw [if_neg hz]
          refine pocsExt_trans (pocsExt_of_pocs_eq (pocUserSE_pocs db (req.sa_email.getD "")
            req.sa_name)) ?_
          exact ⟨[((PocApi.get_or_create_user_se db (req.sa_email.getD "") req.sa_name).2.nextId,
            uidGen)], by simp [pocsSig]⟩
  | deregister req now =>
    dsimp only [applyOp]
    unfold PocApi.api_deregister
    by_cases hv : (!optTruthy req.poc_uid) = true
    · rw [if_pos hv]
      exact pocsExt_refl db
    · rw [if_neg hv]
      dsimp only
      cases hf : PocApi.find_poc_by_uid db (req.poc_uid.getD "") with
      | none => exact pocsExt_refl db
      | some poc =>
        dsimp only
        exact pocsExt_of_sig_eq (pocsSig_patchPoc _ _ _ (fun p => ⟨rfl, rfl⟩))
  | heartbeat req now =>
    dsimp only [applyOp]
    unfold PocApi.api_heartbeat
    by_cases hv : (!optTruthy req.poc_uid) = true
    · rw [if_pos hv]
      exact pocsExt_refl db
    · rw [if_neg hv]
      dsimp only
      cases req.use_cases with
      | missing => exact pocsExt_refl db
      | nonList => exact pocsExt_refl db
      | arr l =>
        dsimp only
        by_cases he : l.isEmpty = true
        · rw [if_pos he]
          exact pocsExt_refl db
        · rw [if_neg he]
          cases hf : PocApi.find_poc_by_uid db (req.poc_uid.getD "") with
          | none => exact pocsExt_refl db
          | some poc =>
            dsimp only
            apply pocsExt_of_sig_eq
            unfold pocsSig
            rw [foldl_proj_inv (fun s : DB × Nat => s.1.pocs) _
              (fun s a => hbStep_pocs now poc.id s a) l]
            rw [deactivatePass_pocs, patchPoc_pocs]
            exact map_updWhere _ _ _ _ (fun x => by simp)
  | completePoc req now =>
    dsimp only [applyOp]
    unfold PocApi.api_complete_use_case
    by_cases hv : (!optTruthy req.poc_uid || !optTruthy req.use_case_code ||
        req.completed.isNone) = true
    · rw [if_pos hv]
      exact pocsExt_refl db
    · rw [if_neg hv]
      dsimp only
      cases hf : PocApi.find_poc_by_uid db (req.poc_uid.getD "") with
      | none => exact pocsExt_refl db
      | some poc =>
        dsimp only
        apply pocsExt_of_pocs_eq
        rw [pocPucR_pocs, pocUcR_pocs]
  | rating req now =>
    dsimp only [applyOp]
    unfold PocApi.api_rating
    by_cases hv : (!optTruthy req.poc_uid || !optTruthy req.use_case_code ||
        req.rating.isNone) = true
    · rw [if_pos hv]
      exact pocsExt_refl db
    · rw [if_neg hv]
      dsimp only
      cases hj : pyInt (req.rating.getD (.jint 0)) with
      | none => exact pocsExt_refl db
      | some n =>
        dsimp only
        by_cases hr : (decide (n < 1) || decide (5 < n)) = true
        · rw [if_pos hr]
          exact pocsExt_refl db
        · rw [if_neg hr]
          cases hf : PocApi.find_poc_by_uid db (req.poc_uid.getD "") with
          | none => exact pocsExt_refl db
          | some poc =>
            dsimp only
            apply pocsExt_of_pocs_eq
            rw [patchPuc_pocs, pocPucR_pocs, pocUcR_pocs]
  | feedback req now =>
    dsimp only [applyOp]
    unfold PocApi.api_feedback
    by_cases hv : (!optTruthy req.poc_uid || !optTruthy req.use_case_code) = true
    · rw [if_pos hv]
      exact pocsExt_refl db
    · rw [if_neg hv]
      by_cases ht : (!strTruthy (pyStrip (req.text.getD ""))) = true
      · rw [if_pos ht]
        exact pocsExt_refl db
      · rw [if_neg ht]
        dsimp only
        cases hf : PocApi.find_poc_by_uid db (req.poc_uid.getD "") with
        | none => exact pocsExt_refl db
        | some poc =>
          dsimp only
          apply pocsExt_of_pocs_eq
          rw [addComment_pocs, pocPucR_pocs, pocUcR_pocs]
  | dailyUpdate req now =>
    dsimp only [applyOp]
    unfold DocApi.api_daily_update
    dsimp only
    refine pocsExt_trans (pocsExt_of_pocs_eq (docUser_pocs db req.se_email)) ?_
    refine pocsExt_trans (docPoc_pocsExt (DocApi.get_or_create_user_se db req.se_email).2 now
      req.poc_uid (some (req.poc_name.getD req.poc_uid)) req.customer_name
      (DocApi.get_or_create_user_se db req.se_email).1 req.partner) ?_
    apply pocsExt_of_sig_eq
    unfold pocsSig
    rw [foldl_proj_inv (fun d : DB => d.pocs) _
      (fun s a => ducStep_pocs now _ _ s a) req.use_cases]
    rw [deactivatePass_pocs, addDaily_pocs, patchPoc_pocs]
    exact map_updWhere _ _ _ _ (fun x => by simp)
  | completeDoc req now =>
    dsimp only [applyOp]
    unfold DocApi.api_complete_use_case
    dsimp only
    refine pocsExt_trans (pocsExt_of_pocs_eq (docUser_pocs db req.se_email)) ?_
    refine pocsExt_trans (docPoc_pocsExt (DocApi.get_or_create_user_se db req.se_email).2 now
      req.poc_uid (some (req.poc_name.getD req.poc_uid)) req.customer_name
      (DocApi.get_or_create_user_se db req.se_email).1 req.partner) ?_
    apply pocsExt_of_pocs_eq
    by_cases h : (optTruthy req.text || req.rating.isSome) = true
    · rw [if_pos h]
      rw [addComment_pocs, patchPuc_pocs, docPuc_pocs, docUc_pocs]
    · rw [if_neg h]
      rw [patchPuc_pocs, docPuc_pocs, docUc_pocs]
  | comment req now =>
    dsimp only [applyOp]
    unfold DocApi.api_comment
    dsimp only
    refine pocsExt_trans (pocsExt_of_pocs_eq (docUser_pocs db req.se_email)) ?_
    refine pocsExt_trans (docPoc_pocsExt (DocApi.get_or_create_user_se db req.se_email).2 now
      req.poc_uid (some (req.poc_name.getD req.poc_uid)) req.customer_name
      (DocApi.get_or_create_user_se db req.se_email).1 req.partner) ?_
    apply pocsExt_of_pocs_eq
    by_cases h : (req.kind.getD "feedback" == "feedback" ||
        req.kind.getD "feedback" == "question") = true
    · rw [if_pos h]
      rw [addComment_pocs, docPuc_pocs, docUc_pocs]
    · rw [if_neg h]
      rw [docPuc_pocs, docUc_pocs]

/-- C9: for every operation of either API and every POC stored before the
call, a POC with the same record id and the same poc_uid is stored after
the call: no handler ever writes poc_uid after creation. -/
theorem poc_uid_immutable (op : Op) (db : DB) (p : PocRec) (hp : p ∈ db.pocs) :
    ∃ p' ∈ (applyOp db op).pocs, p'.id = p.id ∧ p'.poc_uid = p.poc_uid := by
  obtain ⟨extra, hsig⟩ := pocsExt_applyOp op db
  have hmem : (p.id, p.poc_uid) ∈ pocsSig db :=
    List.mem_map_of_mem (fun q => (q.id, q.poc_uid)) hp
  have hmem' : (p.id, p.poc_uid) ∈ pocsSig (applyOp db op) := by
    rw [hsig]
    exact List.mem_append_left _ hmem
  obtain ⟨p', hp', heq⟩ := List.mem_map.1 hmem'
  exact ⟨p', hp', congrArg Prod.fst heq, congrArg Prod.snd heq⟩

/-- Witness for poc_uid_immutable: a deregister call on a concrete store
keeps the stored POC's uid. -/
theorem poc_uid_immutable_witness :
    ∃ p' ∈ (applyOp dbOnePoc (.deregister ⟨some "POC-1"⟩ 6)).pocs,
      p'.id = pocOne.id ∧ p'.poc_uid = pocOne.poc_uid :=
  poc_uid_immutable (.deregister ⟨some "POC-1"⟩ 6) dbOnePoc pocOne (by decide)

/-! Infrastructure for C3: idempotence of the find-or-create resolvers. -/

/-- A PATCH of the first match of a filter, with an update that cannot
change the filter's verdict, moves that first match to its image. -/
theorem find?_patchUseCase_self (db : DB) (ex : UseCaseRec) (f : UseCaseRec → UseCaseRec)
    (q : UseCaseRec → Bool) (hf : ∀ x, q (f x) = q x)
    (h : db.use_cases.find? q = some ex) :
    (db.patchUseCase ex.id f).use_cases.find? q = some (f ex) := by
  rw [patchUseCase_use_cases, find?_updWhere _ q f db.use_cases
    (fun x => by by_cases hx : (x.id == ex.id) = true <;> simp [hx, hf]), h]
  simp

theorem find?_patchUser_self (db : DB) (u : UserRec) (f : UserRec → UserRec)
    (q : UserRec → Bool) (hf : ∀ x, q (f x) = q x)
    (h : db.users.find? q = some u) :
    (db.patchUser u.id f).users.find? q = some (f u) := by
  rw [patchUser_users, find?_updWhere _ q f db.users
    (fun x => by by_cases hx : (x.id == u.id) = true <;> simp [hx, hf]), h]
  simp

/-- Calling the user resolver twice with the same email creates at most
one user and returns the same id both times. -/
theorem pocUser_idem (db : DB) (e : String) (dn dn2 : Option String) :
    (PocApi.get_or_create_user_se (PocApi.get_or_create_user_se db e dn).2 e dn2).1.1 =
      (PocApi.get_or_create_user_se db e dn).1.1 ∧
    (PocApi.get_or_create_user_se (PocApi.get_or_create_user_se db e dn).2 e dn2).2.users.length =
      (PocApi.get_or_create_user_se db e dn).2.users.length ∧
    (PocApi.get_or_create_user_se db e dn).2.users.length ≤ db.users.length + 1 := by
  unfold PocApi.get_or_create_user_se
  dsimp only
  cases h : db.users.find? (PocApi.userFilter (pyLower (pyStrip e))) with
  | some u =>
    dsimp only
    by_cases hr : u.role.data.isEmpty = true
    · rw [if_pos hr]
      rw [find?_patchUser_self db u _ _ (fun x => by simp [PocApi.userFilter]) h]
      dsimp only
      rw [if_neg (by decide)]
      exact ⟨rfl, rfl, by simp [updWhere, Nat.le_succ]⟩
    · rw [if_neg hr]
      rw [h]
      dsimp only
      rw [if_neg hr]
      exact ⟨rfl, rfl, Nat.le_succ _⟩
  | none =>
    dsimp only
    have h2 : ((db.addUser (fun i =>
        { id := i, email := pyLower (pyStrip e), role := "se"
          name := orElseStr dn (PocApi.derivedDisplayName (pyLower (pyStrip e)))
          displayName := orElseStr dn (PocApi.derivedDisplayName (pyLower (pyStrip e))) })).2.users.find?
        (PocApi.userFilter (pyLower (pyStrip e)))) = some
        { id := db.nextId, email := pyLower (pyStrip e), role := "se"
          name := orElseStr dn (PocApi.derivedDisplayName (pyLower (pyStrip e)))
          displayName := orElseStr dn (PocApi.derivedDisplayName (pyLower (pyStrip e))) } := by
      rw [addUser_users, find?_append_of_none _ _ _ h]
      refine List.find?_cons_of_pos _ ?_
      show PocApi.userFilter _ _ = true
      unfold PocApi.userFilter
      exact strContainsSub_self _
    rw [h2]
    dsimp only
    rw [if_neg (by decide)]
    exact ⟨rfl, rfl, by simp⟩

/-- Calling the use-case resolver twice with the same (code, version)
creates at most one record and returns the same id both times, whatever
metadata each call supplies. -/
theorem pocUc_idem (db : DB) (code : String) (v : Int)
    (t1 pf1 pr1 c1 d1 : Option String) (e1 : Option Int) (i1 : Option Bool) (a1 : Option String)
    (t2 pf2 pr2 c2 d2 : Option String) (e2 : Option Int) (i2 : Option Bool) (a2 : Option String) :
    (PocApi.get_or_create_usecase
        (PocApi.get_or_create_usecase db code t1 v pf1 pr1 c1 d1 e1 i1 a1).2
        code t2 v pf2 pr2 c2 d2 e2 i2 a2).1 =
      (PocApi.get_or_create_usecase db code t1 v pf1 pr1 c1 d1 e1 i1 a1).1 ∧
    (PocApi.get_or_create_usecase
        (PocApi.get_or_create_usecase db code t1 v pf1 pr1 c1 d1 e1 i1 a1).2
        code t2 v pf2 pr2 c2 d2 e2 i2 a2).2.use_cases.length =
      (PocApi.get_or_create_usecase db code t1 v pf1 pr1 c1 d1 e1 i1 a1).2.use_cases.length ∧
    (PocApi.get_or_create_usecase db code t1 v pf1 pr1 c1 d1 e1 i1 a1).2.use_cases.length ≤
      db.use_cases.length + 1 := by
  unfold PocApi.get_or_create_usecase
  dsimp only
  cases h : db.use_cases.find? (PocApi.ucFilter code v) with
  | some ex =>
    dsimp only
    by_cases hp : (condTitle t1 ex.title || condS d1 ex.description ||
        condS pf1 ex.product_family || condS pr1 ex.product || condS c1 ex.category ||
        condI e1 ex.estimate_hours || condB i1 ex.is_customer_prep || condS a1 ex.author) = true
    · rw [if_pos hp]
      rw [find?_patchUseCase_self db ex _ _ (fun x => by simp [PocApi.ucFilter]) h]
      dsimp only
      refine ⟨rfl, ?_, ?_⟩
      · simp [apply_ite (fun d : DB => d.use_cases.length), updWhere]
      · simp [updWhere, Nat.le_succ]
    · rw [if_neg hp]
      rw [h]
      dsimp only
      refine ⟨rfl, ?_, Nat.le_succ _⟩
      simp [apply_ite (fun d : DB => d.use_cases.length), updWhere]
  | none =>
    dsimp only
    have h2 : ((db.addUseCase (fun i =>
        { id := i, code := code, title := orElseStr t1 (PocApi.derivedUcTitle code)
          version := v, description := d1.getD "", product_family := pf1.getD ""
          product := pr1.getD "", category := c1.getD "", estimate_hours := e1.getD 0
          is_customer_prep := i1.getD false, author := a1.getD "" })).2.use_cases.find?
        (PocApi.ucFilter code v)) = some
        { id := db.nextId, code := code, title := orElseStr t1 (PocApi.derivedUcTitle code)
          version := v, description := d1.getD "", product_family := pf1.getD ""
          product := pr1.getD "", category := c1.getD "", estimate_hours := e1.getD 0
          is_customer_prep := i1.getD false, author := a1.getD "" } := by
      rw [addUseCase_use_cases, find?_append_of_none _ _ _ h]
      exact List.find?_cons_of_pos _ (by simp [PocApi.ucFilter])
    rw [h2]
    dsimp only
    refine ⟨rfl, ?_, by simp⟩
    simp [apply_ite (fun d : DB => d.use_cases.length), updWhere]

/-- Calling the doc POC resolver twice with the same poc_uid creates at
most one POC and returns the same id both times. -/
theorem docPoc_idem (db : DB) (now now2 : Nat) (uid : String) (nm nm2 cn cn2 : Option String)
    (se se2 : Nat) (pa pa2 : Option String) :
    (DocApi.get_or_create_poc (DocApi.get_or_create_poc db now uid nm cn se pa).2
        now2 uid nm2 cn2 se2 pa2).1 =
      (DocApi.get_or_create_poc db now uid nm cn se pa).1 ∧
    (DocApi.get_or_create_poc (DocApi.get_or_create_poc db now uid nm cn se pa).2
        now2 uid nm2 cn2 se2 pa2).2.pocs.length =
      (DocApi.get_or_create_poc db now uid nm cn se pa).2.pocs.length ∧
    (DocApi.get_or_create_poc db now uid nm cn se pa).2.pocs.length ≤ db.pocs.length + 1 := by
  unfold DocApi.get_or_create_poc
  cases h : db.pocs.find? (PocApi.pocUidFilter uid) with
  | some p =>
    dsimp only
    rw [h]
    exact ⟨rfl, rfl, Nat.le_succ _⟩
  | none =>
    dsimp only
    have h2 : ((db.addPoc (fun i =>
        { id := i, poc_uid := uid, name := orElseStr nm uid, customer_name := cn.getD ""
          product := "", se := se
          partner := if optTruthy pa then pa.getD "" else ""
          is_active := true, is_completed := false, risk_status := "on_track"
          prep_start_date := "", poc_start_date := "", poc_end_date_plan := ""
          poc_end_date_actual := ""
          last_daily_update_at := some now, deregistered_at := none })).2.pocs.find?
        (PocApi.pocUidFilter uid)) = some
        { id := db.nextId, poc_uid := uid, name := orElseStr nm uid, customer_name := cn.getD ""
          product := "", se := se
          partner := if optTruthy pa then pa.getD "" else ""
          is_active := true, is_completed := false, risk_status := "on_track"
          prep_start_date := "", poc_start_date := "", poc_end_date_plan := ""
          poc_end_date_actual := ""
          last_daily_update_at := some now, deregistered_at := none } := by
      rw [addPoc_pocs, find?_append_of_none _ _ _ h]
      exact List.find?_cons_of_pos _ (by simp [PocApi.pocUidFilter])
    rw [h2]
    dsimp only
    exact ⟨rfl, rfl, by simp⟩

/-- Calling the link resolver twice with the same (poc, use case) pair
creates at most one link and returns the same id both times, whatever
flags each call supplies. -/
theorem pocPuc_idem (db : DB) (now now2 : Nat) (pid ucid : Nat)
    (o1 o2 : Option Int) (ia1 ia2 ic1 ic2 : Option Bool) :
    (PocApi.get_or_create_poc_usecase
        (PocApi.get_or_create_poc_usecase db now pid ucid o1 ia1 ic1).2
        now2 pid ucid o2 ia2 ic2).1 =
      (PocApi.get_or_create_poc_usecase db now pid ucid o1 ia1 ic1).1 ∧
    (PocApi.get_or_create_poc_usecase
        (PocApi.get_or_create_poc_usecase db now pid ucid o1 ia1 ic1).2
        now2 pid ucid o2 ia2 ic2).2.pucs.length =
      (PocApi.get_or_create_poc_usecase db now pid ucid o1 ia1 ic1).2.pucs.length ∧
    (PocApi.get_or_create_poc_usecase db now pid ucid o1 ia1 ic1).2.pucs.length ≤
      db.pucs.length + 1 := by
  unfold PocApi.get_or_create_poc_usecase
  dsimp only
  cases h : db.pucs.find? (PocApi.pucFilter pid ucid) with
  | some ex =>
    dsimp only
    by_cases hp : (condI o1 ex.order || condB ia1 ex.is_active ||
        condB ic1 ex.is_completed) = true
    · rw [if_pos hp]
      rw [find?_patchPuc_target db ex.id _ _ (fun x => by simp [PocApi.pucFilter]) ex h rfl]
      dsimp only
      refine ⟨rfl, ?_, ?_⟩
      · simp [apply_ite (fun d : DB => d.pucs.length), updWhere]
      · simp [updWhere, Nat.le_succ]
    · rw [if_neg hp]
      rw [h]
      dsimp only
      refine ⟨rfl, ?_, Nat.le_succ _⟩
      simp [apply_ite (fun d : DB => d.pucs.length), updWhere]
  | none =>
    dsimp only
    have h2 : ((db.addPuc (fun i =>
        { id := i, poc := pid, use_case := ucid, is_active := ia1.getD true
          is_completed := ic1.getD false
          completed_at := if ic1.getD false then some now else none
          rating := 0, order := o1.getD 0, is_customer_prep := false
          estimate_hours := 0 })).2.pucs.find? (PocApi.pucFilter pid ucid)) = some
        { id := db.nextId, poc := pid, use_case := ucid, is_active := ia1.getD true
          is_completed := ic1.getD false
          completed_at := if ic1.getD false then some now else none
          rating := 0, order := o1.getD 0, is_customer_prep := false
          estimate_hours := 0 } := by
      rw [addPuc_pucs, find?_append_of_none _ _ _ h]
      exact List.find?_cons_of_pos _ (by simp [PocApi.pucFilter])
    rw [h2]
    dsimp only
    refine ⟨rfl, ?_, by simp⟩
    simp [apply_ite (fun d : DB => d.pucs.length), updWhere]

/-- Idempotence of the user, use-case, POC-by-uid and link resolvers
(combined below with the composite-key register path). -/
theorem resolvers_idempotent_core :
    (∀ (db : DB) (e : String) (dn dn2 : Option String),
      (PocApi.get_or_create_user_se (PocApi.get_or_create_user_se db e dn).2 e dn2).1.1 =
        (PocApi.get_or_create_user_se db e dn).1.1 ∧
      (PocApi.get_or_create_user_se
          (PocApi.get_or_create_user_se db e dn).2 e dn2).2.users.length =
        (PocApi.get_or_create_user_se db e dn).2.users.length ∧
      (PocApi.get_or_create_user_se db e dn).2.users.length ≤ db.users.length + 1) ∧
    (∀ (db : DB) (code : String) (v : Int) (t1 pf1 pr1 c1 d1 : Option String)
        (e1 : Option Int) (i1 : Option Bool) (a1 : Option String)
        (t2 pf2 pr2 c2 d2 : Option String) (e2 : Option Int) (i2 : Option Bool)
        (a2 : Option String),
      (PocApi.get_or_create_usecase
          (PocApi.get_or_create_usecase db code t1 v pf1 pr1 c1 d1 e1 i1 a1).2
          code t2 v pf2 pr2 c2 d2 e2 i2 a2).1 =
        (PocApi.get_or_create_usecase db code t1 v pf1 pr1 c1 d1 e1 i1 a1).1 ∧
      (PocApi.get_or_create_usecase
          (PocApi.get_or_create_usecase db code t1 v pf1 pr1 c1 d1 e1 i1 a1).2
          code t2 v pf2 pr2 c2 d2 e2 i2 a2).2.use_cases.length =
        (PocApi.get_or_create_usecase db code t1 v pf1 pr1 c1 d1 e1 i1 a1).2.use_cases.length ∧
      (PocApi.get_or_create_usecase db code t1 v pf1 pr1 c1 d1 e1 i1 a1).2.use_cases.length ≤
        db.use_cases.length + 1) ∧
    (∀ (db : DB) (now now2 : Nat) (uid : String) (nm nm2 cn cn2 : Option String)
        (se se2 : Nat) (pa pa2 : Option String),
      (DocApi.get_or_create_poc (DocApi.get_or_create_poc db now uid nm cn se pa).2
          now2 uid nm2 cn2 se2 pa2).1 =
        (DocApi.get_or_create_poc db now uid nm cn se pa).1 ∧
      (DocApi.get_or_create_poc (DocApi.get_or_create_poc db now uid nm cn se pa).2
          now2 uid nm2 cn2 se2 pa2).2.pocs.length =
        (DocApi.get_or_create_poc db now uid nm cn se pa).2.pocs.length ∧
      (DocApi.get_or_create_poc db now uid nm cn se pa).2.pocs.length ≤ db.pocs.length + 1) ∧
    (∀ (db : DB) (now now2 : Nat) (pid ucid : Nat) (o1 o2 : Option Int)
        (ia1 ia2 ic1 ic2 : Option Bool),
      (PocApi.get_or_create_poc_usecase
          (PocApi.get_or_create_poc_usecase db now pid ucid o1 ia1 ic1).2
          now2 pid ucid o2 ia2 ic2).1 =
        (PocApi.get_or_create_poc_usecase db now pid ucid o1 ia1 ic1).1 ∧
      (PocApi.get_or_create_poc_usecase
          (PocApi.get_or_create_poc_usecase db now pid ucid o1 ia1 ic1).2
          now2 pid ucid o2 ia2 ic2).2.pucs.length =
        (PocApi.get_or_create_poc_usecase db now pid ucid o1 ia1 ic1).2.pucs.length ∧
      (PocApi.get_or_create_poc_usecase db now pid ucid o1 ia1 ic1).2.pucs.length ≤
        db.pucs.length + 1) :=
  ⟨pocUser_idem, pocUc_idem, docPoc_idem, pocPuc_idem⟩

/-! Infrastructure for C2: the register upsert pair. -/

/-- The POC record api_register creates when no optional field is
supplied in the request body. -/
def regPoc (se_id : Nat) (uid prospect product : String) (now : Nat) (i : Nat) : PocRec :=
  { id := i, poc_uid := uid, product := product, name := prospect ++ " - " ++ product
    customer_name := prospect, se := se_id, partner := "", is_active := true
    is_completed := false, risk_status := "on_track", prep_start_date := ""
    poc_start_date := "", poc_end_date_plan := "", poc_end_date_actual := ""
    last_daily_update_at := some now, deregistered_at := none }

/-- The user record api_register's user resolver creates. -/
def seUser (el : String) (dn : Option String) (i : Nat) : UserRec :=
  { id := i, email := el, role := "se", name := orElseStr dn (PocApi.derivedDisplayName el)
    displayName := orElseStr dn (PocApi.derivedDisplayName el) }

/-- When the user resolver finds a user, it returns that user's id and
the store still resolves the same email to a user with that id. -/
theorem pocUserSE_find_stable (db : DB) (e : String) (dn : Option String) (u : UserRec)
    (h : db.users.find? (PocApi.userFilter (pyLower (pyStrip e))) = some u) :
    ∃ u2, (PocApi.get_or_create_user_se db e dn).2.users.find?
        (PocApi.userFilter (pyLower (pyStrip e))) = some u2 ∧ u2.id = u.id ∧
      (PocApi.get_or_create_user_se db e dn).1.1 = u.id := by
  unfold PocApi.get_or_create_user_se
  dsimp only
  rw [h]
  dsimp only
  by_cases hr : u.role.data.isEmpty = true
  · rw [if_pos hr]
    exact ⟨_, find?_patchUser_self db u _ _ (fun x => by simp [PocApi.userFilter]) h, rfl, rfl⟩
  · rw [if_neg hr]
    exact ⟨u, h, rfl, rfl⟩

/-- When the user resolver finds nothing, it creates the user and
returns the fresh id. -/
theorem pocUserSE_create (db : DB) (e : String) (dn : Option String)
    (h : db.users.find? (PocApi.userFilter (pyLower (pyStrip e))) = none) :
    PocApi.get_or_create_user_se db e dn =
      ((db.nextId, true), (db.addUser (seUser (pyLower (pyStrip e)) dn)).2) := by
  unfold PocApi.get_or_create_user_se
  dsimp only
  rw [h]
  rfl

/-- Idempotence of the project-by-composite-key resolution of
api_register (find_poc_by_composite_key plus the inline create): on a
well-formed store, two register calls with the same (sa_email, prospect,
product) key answer ok with the same poc_uid (the second with
is_new=false), the first call grows the pocs collection by at most one
record, and the second call grows it by none. -/
theorem regKey_idem (db : DB) (sa_email prospect product : String)
    (now1 now2 : Nat) (uid1 uid2 : String) (hWF : db.WF)
    (he : strTruthy sa_email = true) (hp : strTruthy prospect = true)
    (hq : strTruthy product = true) :
    (∃ uidv b1 c1,
      (PocApi.api_register db
        ⟨some sa_email, none, some prospect, some product, none, none, none⟩ now1 uid1).1 =
        .ok uidv b1 c1 ∧
      (PocApi.api_register
        (PocApi.api_register db
          ⟨some sa_email, none, some prospect, some product, none, none, none⟩ now1 uid1).2
        ⟨some sa_email, none, some prospect, some product, none, none, none⟩ now2 uid2).1 =
        .ok uidv false false) ∧
    (PocApi.api_register db
        ⟨some sa_email, none, some prospect, some product, none, none, none⟩
        now1 uid1).2.pocs.length ≤ db.pocs.length + 1 ∧
    (PocApi.api_register
        (PocApi.api_register db
          ⟨some sa_email, none, some prospect, some product, none, none, none⟩ now1 uid1).2
        ⟨some sa_email, none, some prospect, some product, none, none, none⟩
        now2 uid2).2.pocs.length =
      (PocApi.api_register db
        ⟨some sa_email, none, some prospect, some product, none, none, none⟩
        now1 uid1).2.pocs.length := by
  cases hf : PocApi.find_poc_by_composite_key db sa_email prospect product with
  | some existing =>
    have h1 : PocApi.api_register db
        ⟨some sa_email, none, some prospect, some product, none, none, none⟩ now1 uid1 =
        (.ok existing.poc_uid false false, db) := by
      unfold PocApi.api_register
      rw [if_neg (by simp [optTruthy, he, hp, hq])]
      simp only [Option.getD_some]
      rw [hf]
      dsimp only
      rfl
    have h2 : PocApi.api_register db
        ⟨some sa_email, none, some prospect, some product, none, none, none⟩ now2 uid2 =
        (.ok existing.poc_uid false false, db) := by
      unfold PocApi.api_register
      rw [if_neg (by simp [optTruthy, he, hp, hq])]
      simp only [Option.getD_some]
      rw [hf]
      dsimp only
      rfl
    refine ⟨⟨existing.poc_uid, false, false, ?_, ?_⟩, ?_, ?_⟩
    · rw [h1]
    · rw [h1]
      dsimp only
      rw [h2]
    · rw [h1]
      exact Nat.le_succ _
    · rw [h1]
      dsimp only
      rw [h2]
  | none =>
    cases hu : db.users.find? (PocApi.userFilter (pyLower (pyStrip sa_email))) with
    | some u =>
      obtain ⟨u2, hu2, hu2id, hid⟩ := pocUserSE_find_stable db sa_email none u hu
      have hupos := hWF.users_pos u (List.mem_of_find?_eq_some hu)
      have hnz : ((PocApi.get_or_create_user_se db sa_email none).1.1 == 0) = false := by
        rw [hid]
        simp only [beq_eq_false_iff_ne]
        omega
      have hkey' : db.pocs.find? (PocApi.pocCompositeFilter u.id prospect product) = none := by
        unfold PocApi.find_poc_by_composite_key PocApi.find_user_by_email at hf
        rw [hu] at hf
        exact hf
      have hr1' : PocApi.api_register db
          ⟨some sa_email, none, some prospect, some product, none, none, none⟩ now1 uid1 =
          (.ok uid1 true (PocApi.get_or_create_user_se db sa_email none).1.2,
          ((PocApi.get_or_create_user_se db sa_email none).2.addPoc
            (regPoc (PocApi.get_or_create_user_se db sa_email none).1.1
              uid1 prospect product now1)).2) := by
        unfold PocApi.api_register
        rw [if_neg (by simp [optTruthy, he, hp, hq])]
        simp only [Option.getD_some]
        rw [hf]
        dsimp only
        rw [if_neg (by simp [hnz])]
        rfl
      have hfind2 : PocApi.find_poc_by_composite_key
          (PocApi.api_register db
            ⟨some sa_email, none, some prospect, some product, none, none, none⟩
            now1 uid1).2 sa_email prospect product =
          some (regPoc (PocApi.get_or_create_user_se db sa_email none).1.1
            uid1 prospect product now1
            (PocApi.get_or_create_user_se db sa_email none).2.nextId) := by
        rw [hr1']
        unfold PocApi.find_poc_by_composite_key PocApi.find_user_by_email
        rw [addPoc_users, hu2]
        dsimp only
        rw [addPoc_pocs]
        rw [find?_append_of_none _ _ _ (by
          rw [pocUserSE_pocs, hu2id]
          exact hkey')]
        refine List.find?_cons_of_pos _ ?_
        simp [PocApi.pocCompositeFilter, regPoc, hid, hu2id]
      have hr2' : PocApi.api_register
          (PocApi.api_register db
            ⟨some sa_email, none, some prospect, some product, none, none, none⟩ now1 uid1).2
          ⟨some sa_email, none, some prospect, some product, none, none, none⟩ now2 uid2 =
          (.ok uid1 false false,
          (PocApi.api_register db
            ⟨some sa_email, none, some prospect, some product, none, none, none⟩
            now1 uid1).2) := by
        revert hfind2
        generalize (PocApi.api_register db
          ⟨some sa_email, none, some prospect, some product, none, none, none⟩
          now1 uid1).2 = X
        intro hfind2
        unfold PocApi.api_register
        rw [if_neg (by simp [optTruthy, he, hp, hq])]
        simp only [Option.getD_some]
        rw [hfind2]
        dsimp only
        rfl
      refine ⟨⟨uid1, true, (PocApi.get_or_create_user_se db sa_email none).1.2,
        by rw [hr1'], by rw [hr2']⟩, ?_, by rw [hr2']⟩
      rw [hr1']
      simp [pocUserSE_pocs]
    | none =>
      have hB := pocUserSE_create db sa_email none hu
      have hnz : ((PocApi.get_or_create_user_se db sa_email none).1.1 == 0) = false := by
        rw [hB]
        simp only [beq_eq_false_iff_ne]
        have := hWF.one_le
        omega
      have hr1' : PocApi.api_register db
          ⟨some sa_email, none, some prospect, some product, none, none, none⟩ now1 uid1 =
          (.ok uid1 true (PocApi.get_or_create_user_se db sa_email none).1.2,
          ((PocApi.get_or_create_user_se db sa_email none).2.addPoc
            (regPoc (PocApi.get_or_create_user_se db sa_email none).1.1
              uid1 prospect product now1)).2) := by
        unfold PocApi.api_register
        rw [if_neg (by simp [optTruthy, he, hp, hq])]
        simp only [Option.getD_some]
        rw [hf]
        dsimp only
        rw [if_neg (by simp [hnz])]
        rfl
      have hfind2 : PocApi.find_poc_by_composite_key
          (PocApi.api_register db
            ⟨some sa_email, none, some prospect, some product, none, none, none⟩
            now1 uid1).2 sa_email prospect product =
          some (regPoc (PocApi.get_or_create_user_se db sa_email none).1.1
            uid1 prospect product now1
            (PocApi.get_or_create_user_se db sa_email none).2.nextId) := by
        rw [hr1', hB]
        unfold PocApi.find_poc_by_composite_key PocApi.find_user_by_email
        rw [addPoc_users, addUser_users]
        rw [find?_append_of_none _ _ _ hu]
        rw [List.find?_cons_of_pos _ (by
          show PocApi.userFilter _ _ = true
          unfold PocApi.userFilter seUser
          exact strContainsSub_self _)]
        dsimp only
        rw [addPoc_pocs, addUser_pocs]
        rw [find?_append_of_none _ _ _ (by
          refine List.find?_eq_none.2 (fun q hqm => ?_)
          have hblt := hWF.se_bound q hqm
          have hne : (q.se == (seUser (pyLower (pyStrip sa_email)) none db.nextId).id) =
              false := by
            simp only [beq_eq_false_iff_ne, seUser]
            omega
          simp [PocApi.pocCompositeFilter, hne])]
        refine List.find?_cons_of_pos _ ?_
        simp [PocApi.pocCompositeFilter, regPoc, seUser, hB]
      have hr2' : PocApi.api_register
          (PocApi.api_register db
            ⟨some sa_email, none, some prospect, some product, none, none, none⟩ now1 uid1).2
          ⟨some sa_email, none, some prospect, some product, none, none, none⟩ now2 uid2 =
          (.ok uid1 false false,
          (PocApi.api_register db
            ⟨some sa_email, none, some prospect, some product, none, none, none⟩
            now1 uid1).2) := by
        revert hfind2
        generalize (PocApi.api_register db
          ⟨some sa_email, none, some prospect, some product, none, none, none⟩
          now1 uid1).2 = X
        intro hfind2
        unfold PocApi.api_register
        rw [if_neg (by simp [optTruthy, he, hp, hq])]
        simp only [Option.getD_some]
        rw [hfind2]
        dsimp only
        rfl
      refine ⟨⟨uid1, true, (PocApi.get_or_create_user_se db sa_email none).1.2,
        by rw [hr1'], by rw [hr2']⟩, ?_, by rw [hr2']⟩
      rw [hr1']
      simp [pocUserSE_pocs]

/-- C3: each find-or-create resolver is idempotent under sequential
calls: resolving a user by email, a use case by (code, version), a POC by
poc_uid, a POC by composite key (owner resolved from sa_email, customer,
product — the find-or-create path of api_register, stated on a
well-formed store with the key fields non-empty) and a link by (poc, use
case) twice against the same store creates at most one record, and the
second call returns the same record id as the first. -/
theorem resolvers_idempotent :
    (∀ (db : DB) (e : String) (dn dn2 : Option String),
      (PocApi.get_or_create_user_se (PocApi.get_or_create_user_se db e dn).2 e dn2).1.1 =
        (PocApi.get_or_create_user_se db e dn).1.1 ∧
      (PocApi.get_or_create_user_se
          (PocApi.get_or_create_user_se db e dn).2 e dn2).2.users.length =
        (PocApi.get_or_create_user_se db e dn).2.users.length ∧
      (PocApi.get_or_create_user_se db e dn).2.users.length ≤ db.users.length + 1) ∧
    (∀ (db : DB) (code : String) (v : Int) (t1 pf1 pr1 c1 d1 : Option String)
        (e1 : Option Int) (i1 : Option Bool) (a1 : Option String)
        (t2 pf2 pr2 c2 d2 : Option String) (e2 : Option Int) (i2 : Option Bool)
        (a2 : Option String),
      (PocApi.get_or_create_usecase
          (PocApi.get_or_create_usecase db code t1 v pf1 pr1 c1 d1 e1 i1 a1).2
          code t2 v pf2 pr2 c2 d2 e2 i2 a2).1 =
        (PocApi.get_or_create_usecase db code t1 v pf1 pr1 c1 d1 e1 i1 a1).1 ∧
      (PocApi.get_or_create_usecase
          (PocApi.get_or_create_usecase db code t1 v pf1 pr1 c1 d1 e1 i1 a1).2
          code t2 v pf2 pr2 c2 d2 e2 i2 a2).2.use_cases.length =
        (PocApi.get_or_create_usecase db code t1 v pf1 pr1 c1 d1 e1 i1 a1).2.use_cases.length ∧
      (PocApi.get_or_create_usecase db code t1 v pf1 pr1 c1 d1 e1 i1 a1).2.use_cases.length ≤
        db.use_cases.length + 1) ∧
    (∀ (db : DB) (now now2 : Nat) (uid : String) (nm nm2 cn cn2 : Option String)
        (se se2 : Nat) (pa pa2 : Option String),
      (DocApi.get_or_create_poc (DocApi.get_or_create_poc db now uid nm cn se pa).2
          now2 uid nm2 cn2 se2 pa2).1 =
        (DocApi.get_or_create_poc db now uid nm cn se pa).1 ∧
      (DocApi.get_or_create_poc (DocApi.get_or_create_poc db now uid nm cn se pa).2
          now2 uid nm2 cn2 se2 pa2).2.pocs.length =
        (DocApi.get_or_create_poc db now uid nm cn se pa).2.pocs.length ∧
      (DocApi.get_or_create_poc db now uid nm cn se pa).2.pocs.length ≤ db.pocs.length + 1) ∧
    (∀ (db : DB) (sa_email prospect product : String) (now1 now2 : Nat) (uid1 uid2 : String),
      db.WF → strTruthy sa_email = true → strTruthy prospect = true →
      strTruthy product = true →
      (∃ uidv b1 c1,
        (PocApi.api_register db
          ⟨some sa_email, none, some prospect, some product, none, none, none⟩ now1 uid1).1 =
          .ok uidv b1 c1 ∧
        (PocApi.api_register
          (PocApi.api_register db
            ⟨some sa_email, none, some prospect, some product, none, none, none⟩ now1 uid1).2
          ⟨some sa_email, none, some prospect, some product, none, none, none⟩ now2 uid2).1 =
          .ok uidv false false) ∧
      (PocApi.api_register db
          ⟨some sa_email, none, some prospect, some product, none, none, none⟩
          now1 uid1).2.pocs.length ≤ db.pocs.length + 1 ∧
      (PocApi.api_register
          (PocApi.api_register db
            ⟨some sa_email, none, some prospect, some product, none, none, none⟩ now1 uid1).2
          ⟨some sa_email, none, some prospect, some product, none, none, none⟩
          now2 uid2).2.pocs.length =
        (PocApi.api_register db
          ⟨some sa_email, none, some prospect, some product, none, none, none⟩
          now1 uid1).2.pocs.length) ∧
    (∀ (db : DB) (now now2 : Nat) (pid ucid : Nat) (o1 o2 : Option Int)
        (ia1 ia2 ic1 ic2 : Option Bool),
      (PocApi.get_or_create_poc_usecase
          (PocApi.get_or_create_poc_usecase db now pid ucid o1 ia1 ic1).2
          now2 pid ucid o2 ia2 ic2).1 =
        (PocApi.get_or_create_poc_usecase db now pid ucid o1 ia1 ic1).1 ∧
      (PocApi.get_or_create_poc_usecase
          (PocApi.get_or_create_poc_usecase db now pid ucid o1 ia1 ic1).2
          now2 pid ucid o2 ia2 ic2).2.pucs.length =
        (PocApi.get_or_create_poc_usecase db now pid ucid o1 ia1 ic1).2.pucs.length ∧
      (PocApi.get_or_create_poc_usecase db now pid ucid o1 ia1 ic1).2.pucs.length ≤
        db.pucs.length + 1) :=
  ⟨resolvers_idempotent_core.1, resolvers_idempotent_core.2.1,
    resolvers_idempotent_core.2.2.1, regKey_idem, resolvers_idempotent_core.2.2.2⟩

/-- Witness for the composite-key conjunct of resolvers_idempotent,
registering the same key twice from the empty store. -/
theorem resolvers_idempotent_witness :
    (∃ uidv b1 c1,
      (PocApi.api_register emptyDB
        ⟨some "a@x.com", none, some "Acme", some "P1", none, none, none⟩ 10 "POC-1").1 =
        .ok uidv b1 c1 ∧
      (PocApi.api_register
        (PocApi.api_register emptyDB
          ⟨some "a@x.com", none, some "Acme", some "P1", none, none, none⟩ 10 "POC-1").2
        ⟨some "a@x.com", none, some "Acme", some "P1", none, none, none⟩ 11 "POC-2").1 =
        .ok uidv false false) ∧
    (PocApi.api_register emptyDB
        ⟨some "a@x.com", none, some "Acme", some "P1", none, none, none⟩
        10 "POC-1").2.pocs.length ≤ emptyDB.pocs.length + 1 ∧
    (PocApi.api_register
        (PocApi.api_register emptyDB
          ⟨some "a@x.com", none, some "Acme", some "P1", none, none, none⟩ 10 "POC-1").2
        ⟨some "a@x.com", none, some "Acme", some "P1", none, none, none⟩
        11 "POC-2").2.pocs.length =
      (PocApi.api_register emptyDB
        ⟨some "a@x.com", none, some "Acme", some "P1", none, none, none⟩
        10 "POC-1").2.pocs.length :=
  resolvers_idempotent.2.2.2.1 emptyDB "a@x.com" "Acme" "P1" 10 11 "POC-1" "POC-2"
    ⟨by decide, by decide, by decide, by decide, by decide, by decide, by decide,
      by decide, by decide, by decide, by decide⟩
    (by decide) (by decide) (by decide)

/-- C2: registering a project whose composite key (owner resolved from
sa_email, customer, product) has no POC yet creates exactly one POC
carrying the supplied fresh uid and answers ok/is_new=true; a second call
with the identical key finds it, creates nothing, changes nothing, and
answers ok with the same uid and is_new=false. -/
theorem register_upsert_pair (db : DB) (sa_email prospect product : String)
    (now1 now2 : Nat) (uid1 uid2 : String) (r1 r2 : PocApi.RegisterOut × DB)
    (hWF : db.WF)
    (he : strTruthy sa_email = true) (hp : strTruthy prospect = true)
    (hq : strTruthy product = true)
    (hkey : PocApi.find_poc_by_composite_key db sa_email prospect product = none)
    (hfresh : ∀ q ∈ db.pocs, q.poc_uid ≠ uid1)
    (hr1 : r1 = PocApi.api_register db
      ⟨some sa_email, none, some prospect, some product, none, none, none⟩ now1 uid1)
    (hr2 : r2 = PocApi.api_register r1.2
      ⟨some sa_email, none, some prospect, some product, none, none, none⟩ now2 uid2) :
    (∃ uc, r1.1 = .ok uid1 true uc) ∧
    r1.2.pocs.map (fun p => p.poc_uid) = db.pocs.map (fun p => p.poc_uid) ++ [uid1] ∧
    (r1.2.pocs.filter (fun p => p.poc_uid == uid1)).length = 1 ∧
    r2.1 = .ok uid1 false false ∧
    r2.2 = r1.2 := by
  have hnil : db.pocs.filter (fun p => p.poc_uid == uid1) = [] := by
    rw [List.filter_eq_nil_iff]
    intro q hqm
    simp [hfresh q hqm]
  cases hu : db.users.find? (PocApi.userFilter (pyLower (pyStrip sa_email))) with
  | some u =>
    obtain ⟨u2, hu2, hu2id, hid⟩ := pocUserSE_find_stable db sa_email none u hu
    have hupos := hWF.users_pos u (List.mem_of_find?_eq_some hu)
    have hnz : ((PocApi.get_or_create_user_se db sa_email none).1.1 == 0) = false := by
      rw [hid]
      simp only [beq_eq_false_iff_ne]
      omega
    have hkey' : db.pocs.find? (PocApi.pocCompositeFilter u.id prospect product) = none := by
      unfold PocApi.find_poc_by_composite_key PocApi.find_user_by_email at hkey
      rw [hu] at hkey
      exact hkey
    have hr1' : r1 = (.ok uid1 true (PocApi.get_or_create_user_se db sa_email none).1.2,
        ((PocApi.get_or_create_user_se db sa_email none).2.addPoc
          (regPoc (PocApi.get_or_create_user_se db sa_email none).1.1
            uid1 prospect product now1)).2) := by
      rw [hr1]
      unfold PocApi.api_register
      rw [if_neg (by simp [optTruthy, he, hp, hq])]
      simp only [Option.getD_some]
      rw [hkey]
      dsimp only
      rw [if_neg (by simp [hnz])]
      rfl
    have hfind2 : PocApi.find_poc_by_composite_key r1.2 sa_email prospect product =
        some (regPoc (PocApi.get_or_create_user_se db sa_email none).1.1
          uid1 prospect product now1
          (PocApi.get_or_create_user_se db sa_email none).2.nextId) := by
      rw [hr1']
      unfold PocApi.find_poc_by_composite_key PocApi.find_user_by_email
      rw [addPoc_users, hu2]
      dsimp only
      rw [addPoc_pocs]
      rw [find?_append_of_none _ _ _ (by
        rw [pocUserSE_pocs, hu2id]
        exact hkey')]
      refine List.find?_cons_of_pos _ ?_
      simp [PocApi.pocCompositeFilter, regPoc, hid, hu2id]
    refine ⟨⟨_, by rw [hr1']⟩, ?_, ?_, ?_, ?_⟩
    · rw [hr1']
      simp only [addPoc_pocs, List.map_append, pocUserSE_pocs]
      rfl
    · rw [hr1']
      simp only [addPoc_pocs, List.filter_append, pocUserSE_pocs, hnil]
      simp [regPoc]
    · rw [hr2]
      unfold PocApi.api_register
      rw [if_neg (by simp [optTruthy, he, hp, hq])]
      simp only [Option.getD_some]
      rw [hfind2]
      dsimp only
      rfl
    · rw [hr2]
      unfold PocApi.api_register
      rw [if_neg (by simp [optTruthy, he, hp, hq])]
      simp only [Option.getD_some]
      rw [hfind2]
      dsimp only
      rfl
  | none =>
    have hB := pocUserSE_create db sa_email none hu
    have hnz : ((PocApi.get_or_create_user_se db sa_email none).1.1 == 0) = false := by
      rw [hB]
      simp only [beq_eq_false_iff_ne]
      have := hWF.one_le
      omega
    have hr1' : r1 = (.ok uid1 true (PocApi.get_or_create_user_se db sa_email none).1.2,
        ((PocApi.get_or_create_user_se db sa_email none).2.addPoc
          (regPoc (PocApi.get_or_create_user_se db sa_email none).1.1
            uid1 prospect product now1)).2) := by
      rw [hr1]
      unfold PocApi.api_register
      rw [if_neg (by simp [optTruthy, he, hp, hq])]
      simp only [Option.getD_some]
      rw [hkey]
      dsimp only
      rw [if_neg (by simp [hnz])]
      rfl
    have hfind2 : PocApi.find_poc_by_composite_key r1.2 sa_email prospect product =
        some (regPoc (PocApi.get_or_create_user_se db sa_email none).1.1
          uid1 prospect product now1
          (PocApi.get_or_create_user_se db sa_email none).2.nextId) := by
      rw [hr1', hB]
      unfold PocApi.find_poc_by_composite_key PocApi.find_user_by_email
      rw [addPoc_users, addUser_users]
      rw [find?_append_of_none _ _ _ hu]
      rw [List.find?_cons_of_pos _ (by
        show PocApi.userFilter _ _ = true
        unfold PocApi.userFilter seUser
        exact strContainsSub_self _)]
      dsimp only
      rw [addPoc_pocs, addUser_pocs]
      rw [find?_append_of_none _ _ _ (by
        refine List.find?_eq_none.2 (fun q hqm => ?_)
        have hblt := hWF.se_bound q hqm
        have hne : (q.se == (seUser (pyLower (pyStrip sa_email)) none db.nextId).id) = false := by
          simp only [beq_eq_false_iff_ne, seUser]
          omega
        simp [PocApi.pocCompositeFilter, hne])]
      refine List.find?_cons_of_pos _ ?_
      simp [PocApi.pocCompositeFilter, regPoc, seUser, hB]
    refine ⟨⟨_, by rw [hr1']⟩, ?_, ?_, ?_, ?_⟩
    · rw [hr1']
      simp only [addPoc_pocs, List.map_append, pocUserSE_pocs]
      rfl
    · rw [hr1']
      simp only [addPoc_pocs, List.filter_append, pocUserSE_pocs, hnil]
      simp [regPoc]
    · rw [hr2]
      unfold PocApi.api_register
      rw [if_neg (by simp [optTruthy, he, hp, hq])]
      simp only [Option.getD_some]
      rw [hfind2]
      dsimp only
      rfl
    · rw [hr2]
      unfold PocApi.api_register
      rw [if_neg (by simp [optTruthy, he, hp, hq])]
      simp only [Option.getD_some]
      rw [hfind2]
      dsimp only
      rfl

/-- Witness for register_upsert_pair starting from the empty store. -/
theorem register_upsert_pair_witness :
    (∃ uc, (PocApi.api_register emptyDB
      ⟨some "a@x.com", none, some "Acme", some "P1", none, none, none⟩ 10 "POC-1").1 =
        .ok "POC-1" true uc) ∧
    (PocApi.api_register emptyDB
      ⟨some "a@x.com", none, some "Acme", some "P1", none, none, none⟩ 10 "POC-1").2.pocs.map
        (fun p => p.poc_uid) =
      emptyDB.pocs.map (fun p => p.poc_uid) ++ ["POC-1"] ∧
    ((PocApi.api_register emptyDB
      ⟨some "a@x.com", none, some "Acme", some "P1", none, none, none⟩ 10 "POC-1").2.pocs.filter
        (fun p => p.poc_uid == "POC-1")).length = 1 ∧
    (PocApi.api_register
      (PocApi.api_register emptyDB
        ⟨some "a@x.com", none, some "Acme", some "P1", none, none, none⟩ 10 "POC-1").2
      ⟨some "a@x.com", none, some "Acme", some "P1", none, none, none⟩ 11 "POC-2").1 =
        .ok "POC-1" false false ∧
    (PocApi.api_register
      (PocApi.api_register emptyDB
        ⟨some "a@x.com", none, some "Acme", some "P1", none, none, none⟩ 10 "POC-1").2
      ⟨some "a@x.com", none, some "Acme", some "P1", none, none, none⟩ 11 "POC-2").2 =
      (PocApi.api_register emptyDB
        ⟨some "a@x.com", none, some "Acme", some "P1", none, none, none⟩ 10 "POC-1").2 :=
  register_upsert_pair emptyDB "a@x.com" "Acme" "P1" 10 11 "POC-1" "POC-2" _ _
    ⟨by decide, by decide, by decide, by decide, by decide, by decide, by decide, by decide,
      by decide, by decide, by decide⟩
    (by decide) (by decide) (by decide) (by decide) (by decide) rfl rfl

/-! Infrastructure for C1: heartbeat snapshot reconciliation. -/

/-- Link-collection well-formedness: pairwise-distinct link ids, all
below the fresh-id counter, with link use-case references below it too. -/
def linksWF (db : DB) : Prop :=
  (db.pucs.map (fun l => l.id)).Nodup ∧
    ∀ l ∈ db.pucs, l.id < db.nextId ∧ l.use_case < db.nextId

/-- Use-case-collection well-formedness. -/
def ucsWF (db : DB) : Prop :=
  (db.use_cases.map (fun u => u.id)).Nodup ∧ ∀ u ∈ db.use_cases, u.id < db.nextId

theorem deactivatePass_map (k : PucRec → γ)
    (hk : ∀ r : PucRec, k { r with is_active := false } = k r)
    (db : DB) (listed : List PucRec) :
    (PocApi.deactivatePass db listed).pucs.map k = db.pucs.map k := by
  unfold PocApi.deactivatePass
  refine foldl_proj_inv (fun d : DB => d.pucs.map k) _ ?_ listed db
  intro s a
  by_cases h : a.is_active = true
  · simp only [h, if_true, patchPuc_pucs]
    exact map_updWhere _ _ _ _ hk
  · simp [h]

theorem deactivatePass_nextId (db : DB) (listed : List PucRec) :
    (PocApi.deactivatePass db listed).nextId = db.nextId := by
  unfold PocApi.deactivatePass
  refine foldl_proj_inv (fun d : DB => d.nextId) _ ?_ listed db
  intro s a
  by_cases h : a.is_active = true <;> simp [h]

theorem deactivatePass_use_cases (db : DB) (listed : List PucRec) :
    (PocApi.deactivatePass db listed).use_cases = db.use_cases := by
  unfold PocApi.deactivatePass
  refine foldl_proj_inv (fun d : DB => d.use_cases) _ ?_ listed db
  intro s a
  by_cases h : a.is_active = true <;> simp [h]

/-- Effect of the deactivation pass on the record carrying a given id:
it is cleared exactly when the walked list holds an active link with
that id, and untouched otherwise. -/
theorem deactivatePass_find_id (listed : List PucRec) (db : DB) (i : Nat) :
    (PocApi.deactivatePass db listed).pucs.find? (fun r => r.id == i) =
      (db.pucs.find? (fun r => r.id == i)).map
        (fun r => if listed.any (fun p => p.is_active && p.id == i) then
          { r with is_active := false } else r) := by
  induction listed generalizing db with
  | nil =>
    cases h : db.pucs.find? (fun r => r.id == i) <;> simp [PocApi.deactivatePass, h]
  | cons p t ih =>
    have hstep : PocApi.deactivatePass db (p :: t) =
        PocApi.deactivatePass
          (if p.is_active = true then
            db.patchPuc p.id (fun r => { r with is_active := false }) else db) t := by
      unfold PocApi.deactivatePass
      rw [List.foldl_cons]
    rw [hstep, ih]
    by_cases hpa : p.is_active = true
    · rw [if_pos hpa]
      rw [patchPuc_pucs, find?_updWhere _ _ _ db.pucs
        (fun x => by by_cases hx : (x.id == p.id) = true <;> simp [hx])]
      cases h : db.pucs.find? (fun r => r.id == i) with
      | none => simp
      | some r =>
        have hri : r.id = i := by simpa using List.find?_some h
        simp only [Option.map_map, Option.map_some]
        by_cases hpi : p.id = i
        · have h1 : (r.id == p.id) = true := by simp [hri, hpi]
          have h2 : (p.is_active && (p.id == i)) = true := by simp [hpa, hpi]
          have hrp : r.id = p.id := by simp [hri, hpi]
          by_cases ht : (t.any fun p => p.is_active && p.id == i) = true <;>
            simp [Function.comp_apply, h1, List.any_cons, h2, ht, hrp]
        · have h1 : (r.id == p.id) = false := by
            simp only [beq_eq_false_iff_ne]
            omega
          have h2 : (p.is_active && (p.id == i)) = false := by
            simp [hpi]
          have hrp : ¬ r.id = p.id := by omega
          simp [Function.comp_apply, h1, List.any_cons, h2, hrp]
    · rw [if_neg hpa]
      have h2 : (p.is_active && (p.id == i)) = false := by
        simp [Bool.eq_false_iff.2 hpa]
      simp [List.any_cons, h2]

theorem pocUcR_fst_found (db : DB) (code : String) (title : Option String) (v : Int)
    (pf pr cat ds : Option String) (eh : Option Int) (icp : Option Bool) (au : Option String)
    (ex : UseCaseRec) (h : db.use_cases.find? (PocApi.ucFilter code v) = some ex) :
    (PocApi.get_or_create_usecase db code title v pf pr cat ds eh icp au).1 = ex.id := by
  unfold PocApi.get_or_create_usecase
  rw [h]

theorem pocUcR_fst_none (db : DB) (code : String) (title : Option String) (v : Int)
    (pf pr cat ds : Option String) (eh : Option Int) (icp : Option Bool) (au : Option String)
    (h : db.use_cases.find? (PocApi.ucFilter code v) = none) :
    (PocApi.get_or_create_usecase db code title v pf pr cat ds eh icp au).1 = db.nextId := by
  unfold PocApi.get_or_create_usecase
  rw [h]
  rfl

/-- Resolving a use case that already exists leaves the (id, code,
version) signature of the collection unchanged. -/
theorem pocUcR_sig_found (db : DB) (code : String) (title : Option String) (v : Int)
    (pf pr cat ds : Option String) (eh : Option Int) (icp : Option Bool) (au : Option String)
    (ex : UseCaseRec) (h : db.use_cases.find? (PocApi.ucFilter code v) = some ex) :
    (PocApi.get_or_create_usecase db code title v pf pr cat ds eh icp au).2.use_cases.map
        (fun u => (u.id, u.code, u.version)) =
      db.use_cases.map (fun u => (u.id, u.code, u.version)) := by
  unfold PocApi.get_or_create_usecase
  rw [h]
  dsimp only
  simp only [apply_ite (fun d : DB => d.use_cases.map (fun u => (u.id, u.code, u.version))),
    patchUseCase_use_cases]
  rw [map_updWhere _ _ _ _ (fun x => by simp)]
  simp

theorem pocUcR_ucs_none (db : DB) (code : String) (title : Option String) (v : Int)
    (pf pr cat ds : Option String) (eh : Option Int) (icp : Option Bool) (au : Option String)
    (h : db.use_cases.find? (PocApi.ucFilter code v) = none) :
    (PocApi.get_or_create_usecase db code title v pf pr cat ds eh icp au).2.use_cases =
      db.use_cases ++ [⟨db.nextId, code, v, orElseStr title (PocApi.derivedUcTitle code),
        ds.getD "", pf.getD "", pr.getD "", cat.getD "", eh.getD 0, icp.getD false,
        au.getD ""⟩] := by
  unfold PocApi.get_or_create_usecase
  rw [h]
  rfl

theorem pocUcR_nextId_ge (db : DB) (code : String) (title : Option String) (v : Int)
    (pf pr cat ds : Option String) (eh : Option Int) (icp : Option Bool) (au : Option String) :
    db.nextId ≤ (PocApi.get_or_create_usecase db code title v pf pr cat ds eh icp au).2.nextId := by
  unfold PocApi.get_or_create_usecase
  cases h : db.use_cases.find? (PocApi.ucFilter code v) with
  | some ex =>
    dsimp only
    simp [apply_ite (fun d : DB => d.nextId)]
  | none =>
    dsimp only
    simp [Nat.le_succ]

theorem pocPucR_nextId_ge (db : DB) (now : Nat) (pid ucid : Nat) (o : Option Int)
    (ia ic : Option Bool) :
    db.nextId ≤ (PocApi.get_or_create_poc_usecase db now pid ucid o ia ic).2.nextId := by
  unfold PocApi.get_or_create_poc_usecase
  cases h : db.pucs.find? (PocApi.pucFilter pid ucid) with
  | some ex =>
    dsimp only
    simp [apply_ite (fun d : DB => d.nextId)]
  | none =>
    dsimp only
    simp [Nat.le_succ]

/-- The link resolver leaves any link whose id differs from its target
and from the fresh counter untouched. -/
theorem pocPucR_find_id (db : DB) (now : Nat) (pid ucid : Nat) (o : Option Int)
    (ia ic : Option Bool) (i : Nat)
    (hne : ∀ ex, db.pucs.find? (PocApi.pucFilter pid ucid) = some ex → ex.id ≠ i)
    (hni : i < db.nextId) :
    (PocApi.get_or_create_poc_usecase db now pid ucid o ia ic).2.pucs.find?
        (fun r => r.id == i) =
      db.pucs.find? (fun r => r.id == i) := by
  unfold PocApi.get_or_create_poc_usecase
  cases h : db.pucs.find? (PocApi.pucFilter pid ucid) with
  | some ex =>
    dsimp only
    simp only [apply_ite (fun d : DB => d.pucs.find? (fun r => r.id == i)), patchPuc_pucs]
    rw [find?_updWhere _ _ _ db.pucs
      (fun x => by by_cases hx : (x.id == ex.id) = true <;> simp [hx])]
    cases hfi : db.pucs.find? (fun r => r.id == i) with
    | none => simp
    | some x =>
      have hxi : x.id = i := by simpa using List.find?_some hfi
      have hxne : (x.id == ex.id) = false := by
        simp only [beq_eq_false_iff_ne]
        have := hne ex h
        omega
      by_cases hp : (condI o ex.order || condB ia ex.is_active ||
          condB ic ex.is_completed) = true
      · rw [if_pos hp]
        have hxne' : ¬ x.id = ex.id := by simpa using hxne
        simp [hxne']
      · rw [if_neg hp]
  | none =>
    dsimp only
    rw [addPuc_pucs, List.find?_append]
    have hlast : ([⟨db.nextId, pid, ucid, ia.getD true, ic.getD false,
        (if ic.getD false then some now else none), 0, o.getD 0, false, 0⟩] :
          List PucRec).find? (fun r => r.id == i) = none := by
      refine List.find?_eq_none.2 (fun x hx => ?_)
      simp only [List.mem_singleton] at hx
      subst hx
      show ¬ (db.nextId == i) = true
      simp only [beq_iff_eq]
      omega
    rw [hlast]
    cases db.pucs.find? (fun r => r.id == i) <;> rfl

/-- Resolving is_active/is_completed through the patch-if-changed upsert
always lands on the supplied value. -/
theorem condB_resolve (v old : Bool) :
    (if condB (some v) old = true then (some v).getD old else old) = v := by
  by_cases h : old = v <;> simp [condB, h]

/-- Transport of linksWF through the heartbeat pipeline pieces. -/
theorem linksWF_patchPoc (db : DB) (i : Nat) (f : PocRec → PocRec) (h : linksWF db) :
    linksWF (db.patchPoc i f) := h

theorem linksWF_deactivate (db : DB) (listed : List PucRec) (h : linksWF db) :
    linksWF (PocApi.deactivatePass db listed) := by
  obtain ⟨hnd, hbd⟩ := h
  constructor
  · rw [deactivatePass_map (fun l => l.id) (fun r => rfl)]
    exact hnd
  · intro l hl
    rw [deactivatePass_nextId]
    have : l.id ∈ (PocApi.deactivatePass db listed).pucs.map (fun l => l.id) ∧
        l.use_case ∈ (PocApi.deactivatePass db listed).pucs.map (fun l => l.use_case) :=
      ⟨List.mem_map_of_mem _ hl, List.mem_map_of_mem _ hl⟩
    rw [deactivatePass_map (fun l => l.id) (fun r => rfl),
      deactivatePass_map (fun l => l.use_case) (fun r => rfl)] at this
    obtain ⟨h1, h2⟩ := this
    obtain ⟨x, hx, hxe⟩ := List.mem_map.1 h1
    obtain ⟨y, hy, hye⟩ := List.mem_map.1 h2
    exact ⟨hxe ▸ (hbd x hx).1, hye ▸ (hbd y hy).2⟩

theorem linksWF_gocUC (db : DB) (code : String) (title : Option String) (v : Int)
    (pf pr cat ds : Option String) (eh : Option Int) (icp : Option Bool) (au : Option String)
    (h : linksWF db) :
    linksWF (PocApi.get_or_create_usecase db code title v pf pr cat ds eh icp au).2 := by
  obtain ⟨hnd, hbd⟩ := h
  have hge := pocUcR_nextId_ge db code title v pf pr cat ds eh icp au
  constructor
  · rw [pocUcR_pucs]
    exact hnd
  · intro l hl
    rw [pocUcR_pucs] at hl
    exact ⟨lt_of_lt_of_le (hbd l hl).1 hge, lt_of_lt_of_le (hbd l hl).2 hge⟩

theorem linksWF_gocPUC (db : DB) (now : Nat) (pid ucid : Nat) (o : Option Int)
    (ia ic : Option Bool) (hu : ucid < db.nextId) (h : linksWF db) :
    linksWF (PocApi.get_or_create_poc_usecase db now pid ucid o ia ic).2 := by
  obtain ⟨hnd, hbd⟩ := h
  unfold PocApi.get_or_create_poc_usecase
  cases hf : db.pucs.find? (PocApi.pucFilter pid ucid) with
  | some ex =>
    dsimp only
    by_cases hc : (condI o ex.order || condB ia ex.is_active ||
        condB ic ex.is_completed) = true
    · rw [if_pos hc]
      refine ⟨?_, ?_⟩
      · rw [patchPuc_pucs, map_updWhere]
        · exact hnd
        · intro x
          rfl
      · intro l hl
        rw [patchPuc_nextId]
        rw [patchPuc_pucs] at hl
        unfold updWhere at hl
        obtain ⟨x, hx, hxe⟩ := List.mem_map.1 hl
        subst hxe
        by_cases hxi : (x.id == ex.id) = true
        · rw [if_pos hxi]
          exact ⟨(hbd x hx).1, (hbd x hx).2⟩
        · rw [if_neg hxi]
          exact hbd x hx
    · rw [if_neg hc]
      exact ⟨hnd, hbd⟩
  | none =>
    dsimp only
    refine ⟨?_, ?_⟩
    · simp only [addPuc_pucs, List.map_append]
      rw [List.nodup_append]
      refine ⟨hnd, by simp, ?_⟩
      intro x hx
      obtain ⟨y, hy, hye⟩ := List.mem_map.1 hx
      have hyb := (hbd y hy).1
      intro hmem
      simp only [List.map_cons, List.map_nil, List.mem_singleton] at hmem
      subst hmem
      omega
    · intro l hl
      simp only [addPuc_pucs, addPuc_nextId] at hl ⊢
      rcases List.mem_append.1 hl with hl | hl
      · exact ⟨Nat.lt_succ_of_lt (hbd l hl).1, Nat.lt_succ_of_lt (hbd l hl).2⟩
      · simp only [List.mem_singleton] at hl
        subst hl
        exact ⟨Nat.lt_succ_self _, Nat.lt_succ_of_lt hu⟩

theorem pocUcR_nextId_none (db : DB) (code : String) (title : Option String) (v : Int)
    (pf pr cat ds : Option String) (eh : Option Int) (icp : Option Bool) (au : Option String)
    (h : db.use_cases.find? (PocApi.ucFilter code v) = none) :
    (PocApi.get_or_create_usecase db code title v pf pr cat ds eh icp au).2.nextId =
      db.nextId + 1 := by
  unfold PocApi.get_or_create_usecase
  rw [h]
  rfl

/-- The link resolver for one use case does not disturb the first match
of the link filter of a different use case. -/
theorem pocPucR_find_other (db : DB) (now : Nat) (pid ucid : Nat) (o : Option Int)
    (ia ic : Option Bool) (p2 u2 : Nat) (hne : u2 ≠ ucid)
    (hnd : (db.pucs.map (fun l => l.id)).Nodup) :
    (PocApi.get_or_create_poc_usecase db now pid ucid o ia ic).2.pucs.find?
        (PocApi.pucFilter p2 u2) =
      db.pucs.find? (PocApi.pucFilter p2 u2) := by
  unfold PocApi.get_or_create_poc_usecase
  cases hf : db.pucs.find? (PocApi.pucFilter pid ucid) with
  | some ex =>
    dsimp only
    by_cases hc : (condI o ex.order || condB ia ex.is_active ||
        condB ic ex.is_completed) = true
    · rw [if_pos hc, patchPuc_pucs, find?_updWhere _ _ _ db.pucs
        (fun x => by by_cases hx : (x.id == ex.id) = true <;> simp [PocApi.pucFilter, hx])]
      cases hm : db.pucs.find? (PocApi.pucFilter p2 u2) with
      | none => rfl
      | some m =>
        have hmm := List.mem_of_find?_eq_some hm
        have hexm := List.mem_of_find?_eq_some hf
        have hmf := List.find?_some hm
        have hexf := List.find?_some hf
        simp only [PocApi.pucFilter, Bool.and_eq_true, beq_iff_eq] at hmf hexf
        have hid : (m.id == ex.id) = false := by
          simp only [beq_eq_false_iff_ne]
          intro he
          have heq := eq_of_key_eq (fun l => l.id) db.pucs hnd m ex hmm hexm he
          have h1 : m.use_case = u2 := hmf.2
          have h2 : ex.use_case = ucid := hexf.2
          rw [heq] at h1
          omega
        have hid' : ¬ m.id = ex.id := by simpa using hid
        simp [hid']
    · rw [if_neg hc]
  | none =>
    dsimp only
    rw [addPuc_pucs, List.find?_append]
    have hlast2 : ([⟨db.nextId, pid, ucid, ia.getD true, ic.getD false,
        (if ic.getD false then some now else none), 0, o.getD 0, false, 0⟩] :
          List PucRec).find? (PocApi.pucFilter p2 u2) = none := by
      refine List.find?_eq_none.2 (fun x hx => ?_)
      simp only [List.mem_singleton] at hx
      subst hx
      show ¬ (PocApi.pucFilter p2 u2 _) = true
      simp only [PocApi.pucFilter, Bool.and_eq_true, beq_iff_eq, not_and]
      intro _ hu
      exact hne (by omega)
    rw [hlast2]
    cases db.pucs.find? (PocApi.pucFilter p2 u2) <;> rfl

/-- Two use-case upserts with distinct (code, version) keys resolve to
distinct ids, provided the second runs on a store whose use-case
collection and counter come out of the first. -/
theorem gocUC_second_ne (S0 SA : DB) (codeA codeB : String) (vA vB : Int)
    (tA pfA prA cA dA : Option String) (eA : Option Int) (iA : Option Bool) (aA : Option String)
    (tB pfB prB cB dB : Option String) (eB : Option Int) (iB : Option Bool) (aB : Option String)
    (hnd : (S0.use_cases.map (fun u => u.id)).Nodup)
    (hbd : ∀ u ∈ S0.use_cases, u.id < S0.nextId)
    (hkeys : ¬ (codeA = codeB ∧ vA = vB))
    (hucSA : SA.use_cases =
      (PocApi.get_or_create_usecase S0 codeA tA vA pfA prA cA dA eA iA aA).2.use_cases)
    (hnSA : (PocApi.get_or_create_usecase S0 codeA tA vA pfA prA cA dA eA iA aA).2.nextId ≤
      SA.nextId) :
    (PocApi.get_or_create_usecase SA codeB tB vB pfB prB cB dB eB iB aB).1 ≠
      (PocApi.get_or_create_usecase S0 codeA tA vA pfA prA cA dA eA iA aA).1 := by
  cases hA : S0.use_cases.find? (PocApi.ucFilter codeA vA) with
  | some rA =>
    rw [pocUcR_fst_found S0 codeA tA vA pfA prA cA dA eA iA aA rA hA]
    have hsig := pocUcR_sig_found S0 codeA tA vA pfA prA cA dA eA iA aA rA hA
    have hsigSA : SA.use_cases.map (fun u => (u.id, u.code, u.version)) =
        S0.use_cases.map (fun u => (u.id, u.code, u.version)) := by rw [hucSA, hsig]
    have hfA := List.find?_some hA
    simp only [PocApi.ucFilter, Bool.and_eq_true, beq_iff_eq] at hfA
    cases hB : SA.use_cases.find? (PocApi.ucFilter codeB vB) with
    | some rB =>
      rw [pocUcR_fst_found SA codeB tB vB pfB prB cB dB eB iB aB rB hB]
      intro he
      have hrBmem : rB ∈ SA.use_cases := List.mem_of_find?_eq_some hB
      have htriple : (rB.id, rB.code, rB.version) ∈
          S0.use_cases.map (fun u => (u.id, u.code, u.version)) := by
        rw [← hsigSA]
        exact List.mem_map_of_mem _ hrBmem
      obtain ⟨r0, hr0mem, hr0eq⟩ := List.mem_map.1 htriple
      obtain ⟨h1, h2, h3⟩ : r0.id = rB.id ∧ r0.code = rB.code ∧ r0.version = rB.version := by
        simpa using hr0eq
      have hfB := List.find?_some hB
      simp only [PocApi.ucFilter, Bool.and_eq_true, beq_iff_eq] at hfB
      have hid : r0.id = rA.id := by omega
      have hr0A : r0 = rA :=
        eq_of_key_eq (fun u => u.id) S0.use_cases hnd r0 rA hr0mem
          (List.mem_of_find?_eq_some hA) hid
      refine hkeys ⟨?_, ?_⟩
      · rw [← hfA.1, ← hr0A, h2, hfB.1]
      · rw [← hfA.2, ← hr0A, h3, hfB.2]
    | none =>
      rw [pocUcR_fst_none SA codeB tB vB pfB prB cB dB eB iB aB hB]
      intro he
      have hlt : rA.id < S0.nextId := hbd rA (List.mem_of_find?_eq_some hA)
      have hge := pocUcR_nextId_ge S0 codeA tA vA pfA prA cA dA eA iA aA
      omega
  | none =>
    rw [pocUcR_fst_none S0 codeA tA vA pfA prA cA dA eA iA aA hA]
    have hucsA := pocUcR_ucs_none S0 codeA tA vA pfA prA cA dA eA iA aA hA
    cases hB : SA.use_cases.find? (PocApi.ucFilter codeB vB) with
    | some rB =>
      rw [pocUcR_fst_found SA codeB tB vB pfB prB cB dB eB iB aB rB hB]
      intro he
      have hrBmem : rB ∈ SA.use_cases := List.mem_of_find?_eq_some hB
      rw [hucSA, hucsA] at hrBmem
      rcases List.mem_append.1 hrBmem with hmem | hmem
      · have := hbd rB hmem
        omega
      · simp only [List.mem_singleton] at hmem
        subst hmem
        have hfB := List.find?_some hB
        simp only [PocApi.ucFilter, Bool.and_eq_true, beq_iff_eq] at hfB
        exact hkeys ⟨hfB.1, hfB.2⟩
    | none =>
      rw [pocUcR_fst_none SA codeB tB vB pfB prB cB dB eB iB aB hB]
      intro he
      have h1 := pocUcR_nextId_none S0 codeA tA vA pfA prA cA dA eA iA aA hA
      omega

/-- The use-case upsert keeps every use-case id below the counter. -/
theorem ucsBound_gocUC (db : DB) (code : String) (title : Option String) (v : Int)
    (pf pr cat ds : Option String) (eh : Option Int) (icp : Option Bool) (au : Option String)
    (hbd : ∀ u ∈ db.use_cases, u.id < db.nextId) :
    ∀ u ∈ (PocApi.get_or_create_usecase db code title v pf pr cat ds eh icp au).2.use_cases,
      u.id < (PocApi.get_or_create_usecase db code title v pf pr cat ds eh icp au).2.nextId := by
  intro u hu
  cases h : db.use_cases.find? (PocApi.ucFilter code v) with
  | some ex =>
    have hsig := pocUcR_sig_found db code title v pf pr cat ds eh icp au ex h
    have hge := pocUcR_nextId_ge db code title v pf pr cat ds eh icp au
    have htr : (u.id, u.code, u.version) ∈
        db.use_cases.map (fun w => (w.id, w.code, w.version)) := by
      rw [← hsig]
      exact List.mem_map_of_mem _ hu
    obtain ⟨w, hw, hwe⟩ := List.mem_map.1 htr
    obtain ⟨h1, h2, h3⟩ : w.id = u.id ∧ w.code = u.code ∧ w.version = u.version := by
      simpa using hwe
    have := hbd w hw
    omega
  | none =>
    rw [pocUcR_ucs_none db code title v pf pr cat ds eh icp au h] at hu
    rw [pocUcR_nextId_none db code title v pf pr cat ds eh icp au h]
    rcases List.mem_append.1 hu with hm | hm
    · have := hbd u hm
      omega
    · simp only [List.mem_singleton] at hm
      subst hm
      show db.nextId < db.nextId + 1
      omega

/-- A registered user record for concrete witnesses. -/
def userC4 : UserRec := ⟨1, "a@x.com", "se", "A", "A"⟩

/-- A stored use-case record for concrete witnesses. -/
def ucC4 : UseCaseRec := ⟨2, "dash", 1, "Dash", "", "", "", "", 0, false, ""⟩

/-- A POC owned by userC4 for concrete witnesses. -/
def pocC4 : PocRec :=
  ⟨3, "POC-1", "Acme - P1", "Acme", "P1", 1, "", true, false, "on_track",
    "", "", "", "", none, none⟩

/-- A store holding userC4, ucC4 and pocC4 and no links. -/
def dbC4 : DB := ⟨[userC4], [ucC4], [pocC4], [], [], [], 4⟩

/-- Witness for complete_repeat_semantics at a concrete store. -/
theorem complete_repeat_semantics_witness :
    (∃ l1, (PocApi.api_complete_use_case dbC4 ⟨some "POC-1", some "dash", some true⟩ 1).2.pucs.find?
        (PocApi.pucFilter pocC4.id ucC4.id) = some l1 ∧
      l1.is_completed = true ∧ l1.completed_at = some 1) ∧
    (∃ l2, (PocApi.api_complete_use_case
        (PocApi.api_complete_use_case dbC4 ⟨some "POC-1", some "dash", some true⟩ 1).2
        ⟨some "POC-1", some "dash", some true⟩ 2).2.pucs.find?
        (PocApi.pucFilter pocC4.id ucC4.id) = some l2 ∧
      l2.is_completed = true ∧ l2.completed_at = some 1) ∧
    (∃ m1, (DocApi.api_complete_use_case dbC4
        ⟨"a@x.com", "POC-1", none, none, none, "dash", none, none, none, none, none⟩ 1).2.pucs.find?
        (PocApi.pucFilter pocC4.id ucC4.id) = some m1 ∧
      m1.is_completed = true ∧ m1.completed_at = some 1) ∧
    (∃ m2, (DocApi.api_complete_use_case
        (DocApi.api_complete_use_case dbC4
          ⟨"a@x.com", "POC-1", none, none, none, "dash", none, none, none, none, none⟩ 1).2
        ⟨"a@x.com", "POC-1", none, none, none, "dash", none, none, none, none, none⟩ 2).2.pucs.find?
        (PocApi.pucFilter pocC4.id ucC4.id) = some m2 ∧
      m2.is_completed = true ∧ m2.completed_at = some 2) :=
  complete_repeat_semantics dbC4 "POC-1" "dash" "a@x.com" 1 2 pocC4 userC4 ucC4
    _ _ _ _ (by decide) (by decide) (by decide) (by decide) (by decide) (by decide)
    rfl rfl rfl rfl

/-- C4 counterexample: in poc_public_api.py, repeating an identical
complete request does not update completed_at to the new current time;
the link keeps the timestamp of the first call. -/
theorem complete_restamp_counterexample :
    (PocApi.api_complete_use_case
        (PocApi.api_complete_use_case dbOnePoc ⟨some "POC-1", some "dash", some true⟩ 1).2
        ⟨some "POC-1", some "dash", some true⟩ 2).2.pucs.map
      (fun l => (l.is_completed, l.completed_at)) = [(true, some 1)] := by
  decide

/-- C6 (amended): a rating value that does not coerce through int() to
an integer between 1 and 5 is rejected with 400 invalid_rating before any
backend call, leaving the store unchanged.  (Values that do coerce, such
as the JSON string "3", are accepted.) -/
theorem rating_validation (db : DB) (req : PocApi.RatingReq) (now : Nat) (jp : JPrim)
    (hjp : req.rating = some jp)
    (huid : optTruthy req.poc_uid = true) (hcode : optTruthy req.use_case_code = true)
    (hbad : pyInt jp = none ∨ ∃ n, pyInt jp = some n ∧ (n < 1 ∨ 5 < n)) :
    ∃ d, PocApi.api_rating db req now = (.err 400 "invalid_rating" d, db) := by
  unfold PocApi.api_rating
  simp only [hjp, huid, hcode, Bool.not_true, Bool.false_or, Bool.or_self,
    Option.isNone_some, Bool.false_eq_true, if_false, Option.getD_some]
  rcases hbad with h | ⟨n, hn, hr⟩
  · rw [h]
    exact ⟨_, rfl⟩
  · rw [hn]
    dsimp only
    have hc : (decide (n < 1) || decide (5 < n)) = true := by
      rcases hr with hr | hr <;> simp [hr]
    rw [if_pos hc]
    exact ⟨_, rfl⟩

/-- Witness for rating_validation at the out-of-range integer 7. -/
theorem rating_validation_witness :
    ∃ d, PocApi.api_rating emptyDB ⟨some "POC-1", some "dash", some (.jint 7)⟩ 2 =
      (.err 400 "invalid_rating" d, emptyDB) :=
  rating_validation emptyDB ⟨some "POC-1", some "dash", some (.jint 7)⟩ 2 (.jint 7) rfl
    (by decide) (by decide) (Or.inr ⟨7, rfl, Or.inr (by decide)⟩)

/-- C6 counterexample: the JSON string "3" is not an integer between 1
and 5, yet the handler coerces it with int(), answers 200 ok and patches
the link's rating, mutating the store. -/
theorem rating_string_coercion_counterexample :
    (PocApi.api_rating dbOnePoc ⟨some "POC-1", some "dash", some (.jstr "3")⟩ 5).1 =
      .ok "POC-1" "dash" 3 ∧
    (PocApi.api_rating dbOnePoc ⟨some "POC-1", some "dash", some (.jstr "3")⟩ 5).2 ≠
      dbOnePoc := by
  constructor
  · decide
  · decide

/-- Witness for comment_kind_validation, instantiated at a rejected and
at an accepted kind on a concrete store. -/
theorem comment_kind_validation_witness :
    ((DocApi.api_comment emptyDB
        ⟨"a@x.com", "ACME-1", none, none, none, "dash", none, none, none, some "bogus",
          none, some "t"⟩ 8).1 =
      .err 400 "invalid_kind" (some "kind must be 'feedback' or 'question'") ∧
    (DocApi.api_comment emptyDB
        ⟨"a@x.com", "ACME-1", none, none, none, "dash", none, none, none, some "bogus",
          none, some "t"⟩ 8).2.comments = emptyDB.comments) ∧
    ((∃ cid, (DocApi.api_comment emptyDB
        ⟨"a@x.com", "ACME-1", none, none, none, "dash", none, none, none, some "question",
          none, some "t"⟩ 8).1 = .ok cid) ∧
    (DocApi.api_comment emptyDB
        ⟨"a@x.com", "ACME-1", none, none, none, "dash", none, none, none, some "question",
          none, some "t"⟩ 8).2.comments.map (fun c => c.kind) =
      emptyDB.comments.map (fun c => c.kind) ++ ["question"]) :=
  ⟨(comment_kind_validation emptyDB
      ⟨"a@x.com", "ACME-1", none, none, none, "dash", none, none, none, some "bogus",
        none, some "t"⟩ 8 "bogus" rfl).1 (by decide),
   (comment_kind_validation emptyDB
      ⟨"a@x.com", "ACME-1", none, none, none, "dash", none, none, none, some "question",
        none, some "t"⟩ 8 "question" rfl).2 (Or.inr rfl)⟩

/-! C1: heartbeat snapshot synchronization. -/

/-- C1 (amended): a successful heartbeat on an existing project whose
payload lists two entries a and b (both carrying a code, with distinct
normalized (code, version) keys, and at most 500 links on the project)
synchronizes the project's links to the snapshot, except that a listed
entry's link ends with the payload's is_active flag (default true)
rather than being unconditionally active: (1) the call answers ok with 2
processed entries and leaves the store SB; (2) every previously active
link of the project whose use case matches neither entry's (code,
version) key is deactivated; (3, 4) the links resolved for a and b exist
and carry is_active = a.is_active.getD true resp. b.is_active.getD true,
so an entry sent with is_active=false leaves its own link inactive,
refuting the claim's "the links for A and B are active"; (5) links of
other projects are untouched.  The intermediate stores S0 (after the
deactivation pass), RA/SA (after entry a's use-case and link upserts)
and RB/SB (after entry b's) are pinned by equations mirroring
api_heartbeat. -/
theorem heartbeat_snapshot_sync (db : DB) (P : PocRec) (uid : String)
    (a b : PocApi.HBUseCase) (now : Nat) (r : PocApi.HeartbeatOut × DB)
    (S0 : DB) (RA : Nat × DB) (SA : DB) (RB : Nat × DB) (SB : DB)
    (hWF : db.WF)
    (href : ∀ l ∈ db.pucs, l.use_case < db.nextId)
    (huid : strTruthy uid = true)
    (hpoc : PocApi.find_poc_by_uid db uid = some P)
    (ha : optTruthy a.code = true)
    (hb : optTruthy b.code = true)
    (hkeys : ¬ (a.code.getD "" = b.code.getD "" ∧
      PocApi.hbVersion a.version = PocApi.hbVersion b.version))
    (hcount : (db.pucs.filter (fun l => l.poc == P.id)).length ≤ 500)
    (hS0 : S0 = PocApi.deactivatePass
      (db.patchPoc P.id (fun p => { p with last_daily_update_at := some now }))
      (((db.patchPoc P.id (fun p => { p with last_daily_update_at := some now })).pucs.filter
        (fun l => l.poc == P.id)).take 500))
    (hRA : RA = PocApi.get_or_create_usecase S0 (a.code.getD "") a.title
      (PocApi.hbVersion a.version) a.product_family a.product a.category a.description
      a.estimate_hours a.is_customer_prep a.author)
    (hSA : SA = (PocApi.get_or_create_poc_usecase RA.2 now P.id RA.1 a.order
      (some (a.is_active.getD true)) (some (a.is_completed.getD false))).2)
    (hRB : RB = PocApi.get_or_create_usecase SA (b.code.getD "") b.title
      (PocApi.hbVersion b.version) b.product_family b.product b.category b.description
      b.estimate_hours b.is_customer_prep b.author)
    (hSB : SB = (PocApi.get_or_create_poc_usecase RB.2 now P.id RB.1 b.order
      (some (b.is_active.getD true)) (some (b.is_completed.getD false))).2)
    (hr : r = PocApi.api_heartbeat db ⟨some uid, .arr [a, b]⟩ now) :
    r = (.ok uid 2, SB) ∧
    (∀ puc ∈ db.pucs, puc.poc = P.id → puc.is_active = true →
      (∀ u ∈ db.use_cases, puc.use_case = u.id →
        ¬ (u.code = a.code.getD "" ∧ u.version = PocApi.hbVersion a.version) ∧
        ¬ (u.code = b.code.getD "" ∧ u.version = PocApi.hbVersion b.version)) →
      SB.pucs.find? (fun l => l.id == puc.id) = some { puc with is_active := false }) ∧
    (∃ la, SB.pucs.find? (PocApi.pucFilter P.id RA.1) = some la ∧
      la.poc = P.id ∧ la.use_case = RA.1 ∧ la.is_active = a.is_active.getD true) ∧
    (∃ lb, SB.pucs.find? (PocApi.pucFilter P.id RB.1) = some lb ∧
      lb.poc = P.id ∧ lb.use_case = RB.1 ∧ lb.is_active = b.is_active.getD true) ∧
    (∀ puc ∈ db.pucs, puc.poc ≠ P.id →
      SB.pucs.find? (fun l => l.id == puc.id) = some puc) := by
  have hlwdb : linksWF db := ⟨hWF.pucs_nodup, fun l hl => ⟨hWF.pucs_bound l hl, href l hl⟩⟩
  have F_S0a : S0.use_cases = db.use_cases := by
    rw [hS0, deactivatePass_use_cases, patchPoc_use_cases]
  have F_S0n : S0.nextId = db.nextId := by
    rw [hS0, deactivatePass_nextId, patchPoc_nextId]
  have F_S0lw : linksWF S0 := by
    rw [hS0]
    exact linksWF_deactivate _ _ hlwdb
  have F_RAn : db.nextId ≤ RA.2.nextId := by
    have h1 := pocUcR_nextId_ge S0 (a.code.getD "") a.title (PocApi.hbVersion a.version)
      a.product_family a.product a.category a.description a.estimate_hours
      a.is_customer_prep a.author
    rw [← hRA] at h1
    omega
  have F_RAlw : linksWF RA.2 := by
    rw [hRA]
    exact linksWF_gocUC _ _ _ _ _ _ _ _ _ _ _ F_S0lw
  have F_ucA_lt : RA.1 < RA.2.nextId := by
    cases hA : S0.use_cases.find?
        (PocApi.ucFilter (a.code.getD "") (PocApi.hbVersion a.version)) with
    | some rA =>
      have hfst : RA.1 = rA.id := by
        rw [hRA]
        exact pocUcR_fst_found _ _ _ _ _ _ _ _ _ _ _ _ hA
      have hmem := List.mem_of_find?_eq_some hA
      rw [F_S0a] at hmem
      have h1 := hWF.ucs_bound rA hmem
      omega
    | none =>
      have hfst : RA.1 = S0.nextId := by
        rw [hRA]
        exact pocUcR_fst_none _ _ _ _ _ _ _ _ _ _ _ hA
      have h1 : RA.2.nextId = S0.nextId + 1 := by
        rw [hRA]
        exact pocUcR_nextId_none _ _ _ _ _ _ _ _ _ _ _ hA
      omega
  have F_SAuc : SA.use_cases = RA.2.use_cases := by
    rw [hSA, pocPucR_use_cases]
  have F_SAn : RA.2.nextId ≤ SA.nextId := by
    rw [hSA]
    exact pocPucR_nextId_ge _ _ _ _ _ _ _
  have F_SAlw : linksWF SA := by
    rw [hSA]
    exact linksWF_gocPUC _ _ _ _ _ _ _ F_ucA_lt F_RAlw
  have F_RBn : SA.nextId ≤ RB.2.nextId := by
    have h1 := pocUcR_nextId_ge SA (b.code.getD "") b.title (PocApi.hbVersion b.version)
      b.product_family b.product b.category b.description b.estimate_hours
      b.is_customer_prep b.author
    rw [← hRB] at h1
    exact h1
  have hbdS0 : ∀ u ∈ S0.use_cases, u.id < S0.nextId := by
    rw [F_S0a, F_S0n]
    exact hWF.ucs_bound
  have hbdSA : ∀ u ∈ SA.use_cases, u.id < SA.nextId := by
    have h1 := ucsBound_gocUC S0 (a.code.getD "") a.title (PocApi.hbVersion a.version)
      a.product_family a.product a.category a.description a.estimate_hours
      a.is_customer_prep a.author hbdS0
    rw [← hRA] at h1
    intro u hu
    rw [F_SAuc] at hu
    have := h1 u hu
    omega
  have hS0pucs : RA.2.pucs = S0.pucs := by
    rw [hRA, pocUcR_pucs]
  have hSApucs : RB.2.pucs = SA.pucs := by
    rw [hRB, pocUcR_pucs]
  have F_ucA_char : (∃ r0 ∈ db.use_cases, RA.1 = r0.id ∧ r0.code = a.code.getD "" ∧
      r0.version = PocApi.hbVersion a.version) ∨ db.nextId ≤ RA.1 := by
    cases hA : S0.use_cases.find?
        (PocApi.ucFilter (a.code.getD "") (PocApi.hbVersion a.version)) with
    | some rA =>
      have hfst : RA.1 = rA.id := by
        rw [hRA]
        exact pocUcR_fst_found _ _ _ _ _ _ _ _ _ _ _ _ hA
      have hmem := List.mem_of_find?_eq_some hA
      rw [F_S0a] at hmem
      have hfA := List.find?_some hA
      simp only [PocApi.ucFilter, Bool.and_eq_true, beq_iff_eq] at hfA
      exact Or.inl ⟨rA, hmem, hfst, hfA.1, hfA.2⟩
    | none =>
      have hfst : RA.1 = S0.nextId := by
        rw [hRA]
        exact pocUcR_fst_none _ _ _ _ _ _ _ _ _ _ _ hA
      right
      omega
  have F_ucB_char : (∃ r0 ∈ db.use_cases, RB.1 = r0.id ∧ r0.code = b.code.getD "" ∧
      r0.version = PocApi.hbVersion b.version) ∨ db.nextId ≤ RB.1 := by
    cases hB : SA.use_cases.find?
        (PocApi.ucFilter (b.code.getD "") (PocApi.hbVersion b.version)) with
    | some rB =>
      have hfst : RB.1 = rB.id := by
        rw [hRB]
        exact pocUcR_fst_found _ _ _ _ _ _ _ _ _ _ _ _ hB
      have hmem : rB ∈ SA.use_cases := List.mem_of_find?_eq_some hB
      have hfB := List.find?_some hB
      simp only [PocApi.ucFilter, Bool.and_eq_true, beq_iff_eq] at hfB
      rw [F_SAuc] at hmem
      cases hA : S0.use_cases.find?
          (PocApi.ucFilter (a.code.getD "") (PocApi.hbVersion a.version)) with
      | some rA =>
        have hsig := pocUcR_sig_found S0 (a.code.getD "") a.title
          (PocApi.hbVersion a.version) a.product_family a.product a.category
          a.description a.estimate_hours a.is_customer_prep a.author rA hA
        have htr : (rB.id, rB.code, rB.version) ∈
            S0.use_cases.map (fun w => (w.id, w.code, w.version)) := by
          rw [← hsig]
          rw [hRA] at hmem
          exact List.mem_map_of_mem _ hmem
        obtain ⟨r0, hr0, hr0e⟩ := List.mem_map.1 htr
        obtain ⟨h1, h2, h3⟩ : r0.id = rB.id ∧ r0.code = rB.code ∧
            r0.version = rB.version := by simpa using hr0e
        rw [F_S0a] at hr0
        refine Or.inl ⟨r0, hr0, by omega, ?_, ?_⟩
        · rw [h2]
          exact hfB.1
        · rw [h3]
          exact hfB.2
      | none =>
        have hucsA := pocUcR_ucs_none S0 (a.code.getD "") a.title
          (PocApi.hbVersion a.version) a.product_family a.product a.category
          a.description a.estimate_hours a.is_customer_prep a.author hA
        rw [hRA, hucsA] at hmem
        rcases List.mem_append.1 hmem with hm | hm
        · rw [F_S0a] at hm
          exact Or.inl ⟨rB, hm, hfst, hfB.1, hfB.2⟩
        · simp only [List.mem_singleton] at hm
          exfalso
          apply hkeys
          constructor
          · have h1 := hfB.1
            rw [hm] at h1
            exact h1
          · have h2 := hfB.2
            rw [hm] at h2
            exact h2
    | none =>
      have hfst : RB.1 = SA.nextId := by
        rw [hRB]
        exact pocUcR_fst_none _ _ _ _ _ _ _ _ _ _ _ hB
      right
      omega
  have hne_ucs : RA.1 ≠ RB.1 := by
    have h := gocUC_second_ne S0 SA (a.code.getD "") (b.code.getD "")
      (PocApi.hbVersion a.version) (PocApi.hbVersion b.version)
      a.title a.product_family a.product a.category a.description a.estimate_hours
      a.is_customer_prep a.author
      b.title b.product_family b.product b.category b.description b.estimate_hours
      b.is_customer_prep b.author
      (by rw [F_S0a]; exact hWF.ucs_nodup) hbdS0 hkeys
      (by rw [F_SAuc, hRA]) (by rw [← hRA]; exact F_SAn)
    rw [← hRB, ← hRA] at h
    exact fun he => h he.symm
  have hout : r = (.ok uid 2, SB) := by
    rw [hr, hSB, hRB, hSA, hRA, hS0]
    unfold PocApi.api_heartbeat
    dsimp only
    rw [if_neg (show ¬ ((!optTruthy (some uid)) = true) by simp [optTruthy, huid])]
    rw [if_neg (show ¬ (([a, b] : List PocApi.HBUseCase).isEmpty = true) by simp)]
    simp only [Option.getD_some]
    rw [hpoc]
    dsimp only
    simp only [List.foldl_cons, List.foldl_nil]
    unfold PocApi.hbStep
    rw [if_neg (show ¬ ((!optTruthy a.code) = true) by simp [ha]),
      if_neg (show ¬ ((!optTruthy b.code) = true) by simp [hb])]
  refine ⟨hout, ?_, ?_, ?_, ?_⟩
  · intro puc hmem hppoc hpact hnot
    have husecase_lt : puc.use_case < db.nextId := href puc hmem
    have hid_lt : puc.id < db.nextId := hWF.pucs_bound puc hmem
    have c2a : db.pucs.find? (fun l => l.id == puc.id) = some puc :=
      find?_key_of_mem (fun l => l.id) db.pucs hWF.pucs_nodup puc hmem
    have hany : (((db.pucs.filter (fun l => l.poc == P.id)).take 500).any
        (fun p => p.is_active && p.id == puc.id)) = true := by
      rw [List.take_of_length_le hcount]
      exact List.any_of_mem (List.mem_filter.2 ⟨hmem, by simp [hppoc]⟩) (by simp [hpact])
    have c2b : S0.pucs.find? (fun l => l.id == puc.id) =
        some { puc with is_active := false } := by
      rw [hS0, deactivatePass_find_id, patchPoc_pucs, c2a]
      simp [hany]
    have c2c : SA.pucs.find? (fun l => l.id == puc.id) =
        some { puc with is_active := false } := by
      rw [hSA, pocPucR_find_id]
      · rw [hS0pucs]
        exact c2b
      · intro ex hex heq
        have hexm : ex ∈ RA.2.pucs := List.mem_of_find?_eq_some hex
        have hpm : ({ puc with is_active := false } : PucRec) ∈ RA.2.pucs := by
          rw [hS0pucs]
          exact List.mem_of_find?_eq_some c2b
        have hnd0 : (RA.2.pucs.map (fun l => l.id)).Nodup := by
          rw [hS0pucs]
          exact F_S0lw.1
        have hexeq : ex = { puc with is_active := false } :=
          eq_of_key_eq (fun l => l.id) RA.2.pucs hnd0 _ _ hexm hpm heq
        have hexf := List.find?_some hex
        simp only [PocApi.pucFilter, Bool.and_eq_true, beq_iff_eq] at hexf
        have huse : puc.use_case = RA.1 := by
          have h2 := hexf.2
          rw [hexeq] at h2
          exact h2
        rcases F_ucA_char with ⟨r0, hr0m, hid0, hc0, hv0⟩ | hge
        · exact absurd ⟨hc0, hv0⟩ (hnot r0 hr0m (by omega)).1
        · omega
      · omega
    rw [hSB, pocPucR_find_id]
    · rw [hSApucs]
      exact c2c
    · intro ex hex heq
      have hexm : ex ∈ RB.2.pucs := List.mem_of_find?_eq_some hex
      have hpm : ({ puc with is_active := false } : PucRec) ∈ RB.2.pucs := by
        rw [hSApucs]
        exact List.mem_of_find?_eq_some c2c
      have hndx : (RB.2.pucs.map (fun l => l.id)).Nodup := by
        rw [hSApucs]
        exact F_SAlw.1
      have hexeq : ex = { puc with is_active := false } :=
        eq_of_key_eq (fun l => l.id) RB.2.pucs hndx _ _ hexm hpm heq
      have hexf := List.find?_some hex
      simp only [PocApi.pucFilter, Bool.and_eq_true, beq_iff_eq] at hexf
      have huse : puc.use_case = RB.1 := by
        have h2 := hexf.2
        rw [hexeq] at h2
        exact h2
      rcases F_ucB_char with ⟨r0, hr0m, hid0, hc0, hv0⟩ | hge
      · exact absurd ⟨hc0, hv0⟩ (hnot r0 hr0m (by omega)).2
      · omega
    · omega
  · have hfaChar := pocPucR_find RA.2 now P.id RA.1 a.order (some (a.is_active.getD true))
      (some (a.is_completed.getD false))
    rw [← hSA] at hfaChar
    have c3sa : ∃ la, SA.pucs.find? (PocApi.pucFilter P.id RA.1) = some la ∧
        la.poc = P.id ∧ la.use_case = RA.1 ∧ la.is_active = a.is_active.getD true := by
      cases hfa : RA.2.pucs.find? (PocApi.pucFilter P.id RA.1) with
      | some ex =>
        rw [hfa] at hfaChar
        dsimp only at hfaChar
        have hexf := List.find?_some hfa
        simp only [PocApi.pucFilter, Bool.and_eq_true, beq_iff_eq] at hexf
        exact ⟨_, hfaChar, hexf.1, hexf.2,
          condB_resolve (a.is_active.getD true) ex.is_active⟩
      | none =>
        rw [hfa] at hfaChar
        dsimp only at hfaChar
        exact ⟨_, hfaChar, rfl, rfl, rfl⟩
    obtain ⟨la, hla, hlp, hlu, hlact⟩ := c3sa
    refine ⟨la, ?_, hlp, hlu, hlact⟩
    rw [hSB, pocPucR_find_other]
    · rw [hSApucs]
      exact hla
    · exact hne_ucs
    · rw [hSApucs]
      exact F_SAlw.1
  · have hfbChar := pocPucR_find RB.2 now P.id RB.1 b.order (some (b.is_active.getD true))
      (some (b.is_completed.getD false))
    rw [← hSB] at hfbChar
    cases hfb : RB.2.pucs.find? (PocApi.pucFilter P.id RB.1) with
    | some ex =>
      rw [hfb] at hfbChar
      dsimp only at hfbChar
      have hexf := List.find?_some hfb
      simp only [PocApi.pucFilter, Bool.and_eq_true, beq_iff_eq] at hexf
      exact ⟨_, hfbChar, hexf.1, hexf.2,
        condB_resolve (b.is_active.getD true) ex.is_active⟩
    | none =>
      rw [hfb] at hfbChar
      dsimp only at hfbChar
      exact ⟨_, hfbChar, rfl, rfl, rfl⟩
  · intro puc hmem hne5
    have hid_lt : puc.id < db.nextId := hWF.pucs_bound puc hmem
    have c5a : db.pucs.find? (fun l => l.id == puc.id) = some puc :=
      find?_key_of_mem (fun l => l.id) db.pucs hWF.pucs_nodup puc hmem
    have hany : (((db.pucs.filter (fun l => l.poc == P.id)).take 500).any
        (fun p => p.is_active && p.id == puc.id)) = false := by
      rw [List.take_of_length_le hcount]
      rw [List.any_eq_false]
      intro q hq
      obtain ⟨hqmem, hqpoc⟩ := List.mem_filter.1 hq
      simp only [Bool.and_eq_true, beq_iff_eq, not_and]
      intro _ hqid
      have hq2 : q = puc :=
        eq_of_key_eq (fun l => l.id) db.pucs hWF.pucs_nodup q puc hqmem hmem hqid
      rw [hq2] at hqpoc
      simp only [beq_iff_eq] at hqpoc
      exact hne5 hqpoc
    have c5b : S0.pucs.find? (fun l => l.id == puc.id) = some puc := by
      rw [hS0, deactivatePass_find_id, patchPoc_pucs, c5a]
      simp [hany]
    have c5c : SA.pucs.find? (fun l => l.id == puc.id) = some puc := by
      rw [hSA, pocPucR_find_id]
      · rw [hS0pucs]
        exact c5b
      · intro ex hex heq
        have hexm : ex ∈ RA.2.pucs := List.mem_of_find?_eq_some hex
        have hpm : puc ∈ RA.2.pucs := by
          rw [hS0pucs]
          exact List.mem_of_find?_eq_some c5b
        have hnd0 : (RA.2.pucs.map (fun l => l.id)).Nodup := by
          rw [hS0pucs]
          exact F_S0lw.1
        have hexeq : ex = puc :=
          eq_of_key_eq (fun l => l.id) RA.2.pucs hnd0 _ _ hexm hpm heq
        have hexf := List.find?_some hex
        simp only [PocApi.pucFilter, Bool.and_eq_true, beq_iff_eq] at hexf
        rw [hexeq] at hexf
        exact hne5 hexf.1
      · omega
    rw [hSB, pocPucR_find_id]
    · rw [hSApucs]
      exact c5c
    · intro ex hex heq
      have hexm : ex ∈ RB.2.pucs := List.mem_of_find?_eq_some hex
      have hpm : puc ∈ RB.2.pucs := by
        rw [hSApucs]
        exact List.mem_of_find?_eq_some c5c
      have hndx : (RB.2.pucs.map (fun l => l.id)).Nodup := by
        rw [hSApucs]
        exact F_SAlw.1
      have hexeq : ex = puc :=
        eq_of_key_eq (fun l => l.id) RB.2.pucs hndx _ _ hexm hpm heq
      have hexf := List.find?_some hex
      simp only [PocApi.pucFilter, Bool.and_eq_true, beq_iff_eq] at hexf
      rw [hexeq] at hexf
      exact hne5 hexf.1
    · omega

/-- The project record of dbOnePoc stamped by the heartbeat witness. -/
def pocOne9 : PocRec :=
  ⟨1, "POC-1", "Acme - P1", "Acme", "P1", 0, "", true, false, "on_track",
    "", "", "", "", some 9, none⟩

/-- Use-case record created by the heartbeat witness for entry wa. -/
def ucWa : UseCaseRec := ⟨2, "wa", 1, "Wa", "", "", "", "", 0, false, ""⟩

/-- Use-case record created by the heartbeat witness for entry wb. -/
def ucWb : UseCaseRec := ⟨4, "wb", 1, "Wb", "", "", "", "", 0, false, ""⟩

/-- Link created by the heartbeat witness for entry wa. -/
def linkWa : PucRec := ⟨3, 1, 2, true, false, none, 0, 0, false, 0⟩

/-- Link created by the heartbeat witness for entry wb. -/
def linkWb : PucRec := ⟨5, 1, 4, true, false, none, 0, 0, false, 0⟩

/-- Heartbeat payload entry carrying only the code wa. -/
def hbWa : PocApi.HBUseCase :=
  ⟨some "wa", none, none, none, none, none, none, none, none, none, none, none, none⟩

/-- Heartbeat payload entry carrying only the code wb. -/
def hbWb : PocApi.HBUseCase :=
  ⟨some "wb", none, none, none, none, none, none, none, none, none, none, none, none⟩

/-- Store after the witness heartbeat's deactivation pass. -/
def wS0 : DB := ⟨[], [], [pocOne9], [], [], [], 2⟩

/-- Result of the witness heartbeat's use-case upsert for wa. -/
def wRA : Nat × DB := (2, ⟨[], [ucWa], [pocOne9], [], [], [], 3⟩)

/-- Store after the witness heartbeat's link upsert for wa. -/
def wSA : DB := ⟨[], [ucWa], [pocOne9], [linkWa], [], [], 4⟩

/-- Result of the witness heartbeat's use-case upsert for wb. -/
def wRB : Nat × DB := (4, ⟨[], [ucWa, ucWb], [pocOne9], [linkWa], [], [], 5⟩)

/-- Final store of the witness heartbeat. -/
def wSB : DB := ⟨[], [ucWa, ucWb], [pocOne9], [linkWa, linkWb], [], [], 6⟩

/-- Witness for heartbeat_snapshot_sync: a two-entry heartbeat on the
one-project store, with every hypothesis discharged by evaluation. -/
theorem heartbeat_snapshot_sync_witness :
    ((.ok "POC-1" 2, wSB) : PocApi.HeartbeatOut × DB) = (.ok "POC-1" 2, wSB) ∧
    (∀ puc ∈ dbOnePoc.pucs, puc.poc = pocOne.id → puc.is_active = true →
      (∀ u ∈ dbOnePoc.use_cases, puc.use_case = u.id →
        ¬ (u.code = hbWa.code.getD "" ∧ u.version = PocApi.hbVersion hbWa.version) ∧
        ¬ (u.code = hbWb.code.getD "" ∧ u.version = PocApi.hbVersion hbWb.version)) →
      wSB.pucs.find? (fun l => l.id == puc.id) = some { puc with is_active := false }) ∧
    (∃ la, wSB.pucs.find? (PocApi.pucFilter pocOne.id wRA.1) = some la ∧
      la.poc = pocOne.id ∧ la.use_case = wRA.1 ∧
      la.is_active = hbWa.is_active.getD true) ∧
    (∃ lb, wSB.pucs.find? (PocApi.pucFilter pocOne.id wRB.1) = some lb ∧
      lb.poc = pocOne.id ∧ lb.use_case = wRB.1 ∧
      lb.is_active = hbWb.is_active.getD true) ∧
    (∀ puc ∈ dbOnePoc.pucs, puc.poc ≠ pocOne.id →
      wSB.pucs.find? (fun l => l.id == puc.id) = some puc) :=
  heartbeat_snapshot_sync dbOnePoc pocOne "POC-1" hbWa hbWb 9 (.ok "POC-1" 2, wSB)
    wS0 wRA wSA wRB wSB
    ⟨by decide, by decide, by decide, by decide, by decide, by decide, by decide,
      by decide, by decide, by decide, by decide⟩
    (by decide) (by decide) (by decide) (by decide) (by decide) (by decide) (by decide)
    (by decide) (by decide) (by decide) (by decide) (by decide) (by decide)

/-- Use-case record present before the C1 counterexample heartbeat. -/
def ucAx : UseCaseRec := ⟨2, "ucA", 1, "Uca", "", "", "", "", 0, false, ""⟩

/-- Active link of the project before the C1 counterexample heartbeat. -/
def linkAx : PucRec := ⟨3, 1, 2, true, false, none, 0, 0, false, 0⟩

/-- Store with one project holding one active link for use case ucA. -/
def dbC1 : DB := ⟨[], [ucAx], [pocOne], [linkAx], [], [], 4⟩

/-- Heartbeat payload entry for ucA sent with is_active false. -/
def hbAoff : PocApi.HBUseCase :=
  ⟨some "ucA", none, none, none, none, none, none, none, none, none, none,
    some false, none⟩

/-- Heartbeat payload entry for ucB with defaults. -/
def hbBon : PocApi.HBUseCase :=
  ⟨some "ucB", none, none, none, none, none, none, none, none, none, none, none, none⟩

/-- C1 counterexample: a successful heartbeat listing entries {ucA, ucB}
where the ucA entry carries is_active=false answers ok yet leaves the
link for the listed use case ucA inactive, refuting "the links for A and
B are active"; the same payload field defaults to false on the
doc_public_api.py daily-update path, so neither handler forces listed
links active. -/
theorem heartbeat_listed_inactive_counterexample :
    (PocApi.api_heartbeat dbC1 ⟨some "POC-1", .arr [hbAoff, hbBon]⟩ 50).1 =
        .ok "POC-1" 2 ∧
      ((PocApi.api_heartbeat dbC1 ⟨some "POC-1", .arr [hbAoff, hbBon]⟩ 50).2.pucs.find?
          (PocApi.pucFilter 1 2)).map (fun l => l.is_active) = some false := by
  constructor
  · decide
  · decide

end PocPortal
